import Mathlib

set_option maxRecDepth 8000

/-!
Shallow embedding of the pseudoflow solver core of clbanning/pseudo
(file pseudo.go).  The pointer graph of the Go code is modelled as an
arena: nodes are addressed by their 1-based number, arcs by their index
in the arc list, and every pointer field becomes an Option Nat.  Each Go
statement is translated to one state update that reads the current
state, so pointer aliasing behaves exactly as in the source.  Loops
carry an explicit fuel argument and return none when the fuel runs out
or when the Go code would dereference a nil pointer or index out of
range (a panic).  Go uint counters are modelled as Nat; subtraction
sites are guarded in the theorems so that truncation never diverges
from the source.  Go int fields (flow, capacity, excess) are modelled
as Int, matching the spec's assumption that they never overflow.
-/

namespace Pseudo

/-- Arc record mirroring the arc struct of pseudo.go; endpoints are stored
as 1-based node numbers. -/
structure ArcR where
  from_ : Nat
  to_ : Nat
  flow : Int
  capacity : Int
  direction : Nat
deriving Repr, DecidableEq

/-- Node record mirroring the node struct of pseudo.go.  The pointer
fields parent, childList, next, nextScan become Option Nat (node
numbers); arcToParent becomes Option Nat (an arc index); outOfTree
becomes a list of arc indices of fixed length numAdjacent whose first
numberOutOfTree entries are meaningful, exactly as the Go slice. -/
structure NodeR where
  arcToParent : Option Nat
  childList : Option Nat
  excess : Int
  label : Nat
  next : Option Nat
  nextArc : Nat
  nextScan : Option Nat
  numAdjacent : Nat
  number : Nat
  numberOutOfTree : Nat
  outOfTree : List Nat
  parent : Option Nat
  visited : Nat
deriving Repr, DecidableEq

/-- Bucket record mirroring the root struct of pseudo.go (an intrusive
list of nodes threaded through the next field). -/
structure RootR where
  start : Option Nat
  end_ : Option Nat
deriving Repr, DecidableEq

/-- Runtime context mirroring Context in pseudo.go. -/
structure Ctx where
  lowestLabel : Bool
  fifoBuckets : Bool
  displayCut : Bool
deriving Repr, DecidableEq

/-- Statistics counters mirroring the statistics struct of pseudo.go. -/
structure Stats where
  pushes : Nat
  mergers : Nat
  relabels : Nat
  gaps : Nat
  arcScans : Nat
deriving Repr, DecidableEq

/-- newNode of pseudo.go: a zero-valued node with the given number. -/
def newNode (number : Nat) : NodeR :=
  { arcToParent := none, childList := none, excess := 0, label := 0,
    next := none, nextArc := 0, nextScan := none, numAdjacent := 0,
    number := number, numberOutOfTree := 0, outOfTree := [],
    parent := none, visited := 0 }

instance : Inhabited NodeR := ⟨newNode 0⟩

/-- newArc of pseudo.go: a zero-valued arc with the given direction. -/
def newArc (d : Nat) : ArcR :=
  { from_ := 0, to_ := 0, flow := 0, capacity := 0, direction := d }

instance : Inhabited ArcR := ⟨newArc 1⟩

instance : Inhabited RootR := ⟨{ start := none, end_ := none }⟩

instance : Inhabited Stats :=
  ⟨{ pushes := 0, mergers := 0, relabels := 0, gaps := 0, arcScans := 0 }⟩

/-- Session state mirroring the Session struct of pseudo.go. -/
structure Session where
  ctx : Ctx
  lowestStrongLabel : Nat
  highestStrongLabel : Nat
  adjacencyList : List NodeR
  strongRoots : List RootR
  arcList : List ArcR
  labelCount : List Nat
  numNodes : Nat
  numArcs : Nat
  source : Nat
  sink : Nat
  stats : Stats
deriving Repr, DecidableEq

/-- Read the node with 1-based number v (Go: s.adjacencyList[v-1]). -/
def Session.nodeD (s : Session) (v : Nat) : NodeR :=
  s.adjacencyList.getD (v - 1) default

/-- Update the node with 1-based number v in place. -/
def Session.upN (s : Session) (v : Nat) (f : NodeR → NodeR) : Session :=
  { s with adjacencyList := s.adjacencyList.set (v - 1) (f (s.nodeD v)) }

/-- Read the arc with index i (Go: s.arcList[i]). -/
def Session.arcD (s : Session) (i : Nat) : ArcR :=
  s.arcList.getD i default

/-- Checked arc read, none when the index is out of range (Go panic). -/
def Session.arc? (s : Session) (i : Nat) : Option ArcR :=
  s.arcList.get? i

/-- Overwrite the arc with index i. -/
def Session.setArc (s : Session) (i : Nat) (a : ArcR) : Session :=
  { s with arcList := s.arcList.set i a }

/-- Update the arc with index i in place. -/
def Session.upArc (s : Session) (i : Nat) (f : ArcR → ArcR) : Session :=
  s.setArc i (f (s.arcD i))

/-- Read bucket l (Go: s.strongRoots[l]). -/
def Session.bucketD (s : Session) (l : Nat) : RootR :=
  s.strongRoots.getD l default

/-- Checked bucket read, none when l is out of range (Go panic). -/
def Session.bucket? (s : Session) (l : Nat) : Option RootR :=
  s.strongRoots.get? l

/-- Overwrite bucket l. -/
def Session.setBucket (s : Session) (l : Nat) (b : RootR) : Session :=
  { s with strongRoots := s.strongRoots.set l b }

/-- Read labelCount[l] with default 0. -/
def Session.lcD (s : Session) (l : Nat) : Nat :=
  s.labelCount.getD l 0

/-- Checked labelCount read, none when l is out of range (Go panic). -/
def Session.lc? (s : Session) (l : Nat) : Option Nat :=
  s.labelCount.get? l

/-- Overwrite labelCount[l]. -/
def Session.lcSet (s : Session) (l v : Nat) : Session :=
  { s with labelCount := s.labelCount.set l v }

def Session.bumpPushes (s : Session) : Session :=
  { s with stats := { s.stats with pushes := s.stats.pushes + 1 } }

def Session.bumpMergers (s : Session) : Session :=
  { s with stats := { s.stats with mergers := s.stats.mergers + 1 } }

def Session.bumpRelabels (s : Session) : Session :=
  { s with stats := { s.stats with relabels := s.stats.relabels + 1 } }

def Session.bumpGaps (s : Session) : Session :=
  { s with stats := { s.stats with gaps := s.stats.gaps + 1 } }

def Session.bumpArcScans (s : Session) : Session :=
  { s with stats := { s.stats with arcScans := s.stats.arcScans + 1 } }

/-- addToStrongBucket of pseudo.go.  The Go code receives the bucket by
pointer; here it is addressed by its label index l. -/
def addToStrongBucket (s : Session) (nid l : Nat) : Option Session := do
  let b ← s.bucket? l
  if s.ctx.fifoBuckets then
    match b.start with
    | some _ => do
      let endId ← b.end_
      let s := s.upN endId (fun e => { e with next := some nid })
      let s := s.setBucket l { (s.bucketD l) with end_ := some nid }
      some (s.upN nid (fun n => { n with next := none }))
    | none =>
      let s := s.setBucket l { (s.bucketD l) with start := some nid, end_ := some nid }
      some (s.upN nid (fun n => { n with next := none }))
  else
    let s := s.upN nid (fun n => { n with next := b.start })
    some (s.setBucket l { (s.bucketD l) with start := some nid })

/-- addRelationship of pseudo.go: prepend child to parent's child list. -/
def addRelationship (s : Session) (pid childId : Nat) : Session :=
  let s := s.upN childId (fun c => { c with parent := some pid })
  let s := s.upN childId (fun c => { c with next := (s.nodeD pid).childList })
  s.upN pid (fun p => { p with childList := some childId })

/-- Search loop of breakRelationship: walk the sibling chain from cur
until the node whose next is childId; none models the Go nil
dereference when childId is absent, or fuel exhaustion. -/
def breakWalk (s : Session) (childId : Nat) : Nat → Nat → Option Nat
  | 0, _ => none
  | fuel + 1, cur =>
    match (s.nodeD cur).next with
    | none => none
    | some nxt => if nxt = childId then some cur else breakWalk s childId fuel nxt

/-- breakRelationship of pseudo.go: remove childId from pid's child list.
The sibling walk only reads the state; child.next is cleared exactly
once, after the child has been unlinked. -/
def breakRelationship (s : Session) (pid childId : Nat) (fuel : Nat) : Option Session :=
  let s := s.upN childId (fun c => { c with parent := none })
  if (s.nodeD pid).childList = some childId then
    let s := s.upN pid (fun p => { p with childList := (s.nodeD childId).next })
    some (s.upN childId (fun c => { c with next := none }))
  else do
    let cur0 ← (s.nodeD pid).childList
    let pred ← breakWalk s childId fuel cur0
    let s := s.upN pred (fun q => { q with next := (s.nodeD childId).next })
    some (s.upN childId (fun c => { c with next := none }))

/-- addOutOfTreeNode of pseudo.go: write the arc at slot numberOutOfTree
and bump the count; none when the slot is past the preallocated buffer
(Go panic). -/
def addOutOfTreeNode (s : Session) (nid aid : Nat) : Option Session :=
  if (s.nodeD nid).numberOutOfTree < (s.nodeD nid).outOfTree.length then
    let s := s.upN nid (fun n => { n with outOfTree := n.outOfTree.set n.numberOutOfTree aid })
    some (s.upN nid (fun n => { n with numberOutOfTree := n.numberOutOfTree + 1 }))
  else none

/-- pushUpward of pseudo.go. -/
def pushUpward (s : Session) (aid childId parentId : Nat) (resCap : Int)
    (fuel : Nat) : Option Session :=
  let s := s.bumpPushes
  if resCap ≥ (s.nodeD childId).excess then
    let s := s.upN parentId (fun p => { p with excess := p.excess + (s.nodeD childId).excess })
    let s := s.upArc aid (fun a => { a with flow := a.flow + (s.nodeD childId).excess })
    some (s.upN childId (fun c => { c with excess := 0 }))
  else
    let s := s.upArc aid (fun a => { a with direction := 0 })
    let s := s.upN parentId (fun p => { p with excess := p.excess + resCap })
    let s := s.upN childId (fun c => { c with excess := c.excess - resCap })
    let s := s.upArc aid (fun a => { a with flow := a.capacity })
    do
      let s ← addOutOfTreeNode s parentId aid
      let s ← breakRelationship s parentId childId fuel
      let s := if s.ctx.lowestLabel
               then { s with lowestStrongLabel := (s.nodeD childId).label }
               else s
      addToStrongBucket s childId (s.nodeD childId).label

/-- pushDownward of pseudo.go. -/
def pushDownward (s : Session) (aid childId parentId : Nat) (flow : Int)
    (fuel : Nat) : Option Session :=
  let s := s.bumpPushes
  if flow ≥ (s.nodeD childId).excess then
    let s := s.upN parentId (fun p => { p with excess := p.excess + (s.nodeD childId).excess })
    let s := s.upArc aid (fun a => { a with flow := a.flow - (s.nodeD childId).excess })
    some (s.upN childId (fun c => { c with excess := 0 }))
  else
    let s := s.upArc aid (fun a => { a with direction := 1 })
    let s := s.upN childId (fun c => { c with excess := c.excess - flow })
    let s := s.upN parentId (fun p => { p with excess := p.excess + flow })
    let s := s.upArc aid (fun a => { a with flow := 0 })
    do
      let s ← addOutOfTreeNode s parentId aid
      let s ← breakRelationship s parentId childId fuel
      let s := if s.ctx.lowestLabel
               then { s with lowestStrongLabel := (s.nodeD childId).label }
               else s
      addToStrongBucket s childId (s.nodeD childId).label

/-- Main loop of pushExcess; returns the state, the final current node
and the last prevEx value. -/
def pushExcessLoop (s : Session) (curId : Nat) (prevEx : Int) :
    Nat → Option (Session × Nat × Int)
  | 0 => none
  | fuel + 1 =>
    if (s.nodeD curId).excess = 0 then some (s, curId, prevEx)
    else
      match (s.nodeD curId).parent, (s.nodeD curId).arcToParent with
      | some pid, some aid => do
        let prevEx := (s.nodeD pid).excess
        let a := s.arcD aid
        let s ← if a.direction ≠ 0
                then pushUpward s aid curId pid (a.capacity - a.flow) fuel
                else pushDownward s aid curId pid a.flow fuel
        pushExcessLoop s pid prevEx fuel
      | _, _ => some (s, curId, prevEx)

/-- pushExcess of pseudo.go. -/
def pushExcess (s : Session) (nid : Nat) (fuel : Nat) : Option Session := do
  let (s, curId, prevEx) ← pushExcessLoop s nid 1 fuel
  if (s.nodeD curId).excess > 0 ∧ prevEx ≤ 0 then
    let s := if s.ctx.lowestLabel
             then { s with lowestStrongLabel := (s.nodeD curId).label }
             else s
    addToStrongBucket s curId (s.nodeD curId).label
  else some s

/-- Rotation loop of merge. -/
def mergeLoop (s : Session) (curId newParentId newArcId : Nat) :
    Nat → Option Session
  | 0 => none
  | fuel + 1 =>
    match (s.nodeD curId).parent with
    | none =>
      let s := s.upN curId (fun c => { c with arcToParent := some newArcId })
      some (addRelationship s newParentId curId)
    | some oldParent => do
      let oldAid ← (s.nodeD curId).arcToParent
      let s := s.upN curId (fun c => { c with arcToParent := some newArcId })
      let s ← breakRelationship s oldParent curId fuel
      let s := addRelationship s newParentId curId
      let s := s.upArc oldAid (fun a => { a with direction := 1 - a.direction })
      mergeLoop s oldParent curId oldAid fuel

/-- merge of pseudo.go (pid is the weak-side parent, childId the strong
node, newArcId the connecting arc). -/
def merge (s : Session) (pid childId newArcId : Nat) (fuel : Nat) : Option Session :=
  let s := s.bumpMergers
  mergeLoop s childId pid newArcId fuel

/-- Scan loop of findWeakNode; k counts the remaining entries.  The Go
comparison label == strongLabel-1 on uints is encoded wrap-safely as
label + 1 = strongLabel. -/
def findWeakNodeLoop (s : Session) (nid tlabel : Nat) :
    Nat → Nat → Option (Nat × Nat) × Session
  | _, 0 =>
    (none, s.upN nid (fun n => { n with nextArc := n.numberOutOfTree }))
  | i, k + 1 =>
    let s := s.bumpArcScans
    let aid := (s.nodeD nid).outOfTree.getD i 0
    let a := s.arcD aid
    if (s.nodeD a.to_).label + 1 = tlabel then
      let s := s.upN nid (fun n => { n with nextArc := i })
      let s := s.upN nid (fun n => { n with numberOutOfTree := n.numberOutOfTree - 1 })
      let s := s.upN nid (fun n =>
        { n with outOfTree := n.outOfTree.set i (n.outOfTree.getD n.numberOutOfTree 0) })
      (some (aid, a.to_), s)
    else if (s.nodeD a.from_).label + 1 = tlabel then
      let s := s.upN nid (fun n => { n with nextArc := i })
      let s := s.upN nid (fun n => { n with numberOutOfTree := n.numberOutOfTree - 1 })
      let s := s.upN nid (fun n =>
        { n with outOfTree := n.outOfTree.set i (n.outOfTree.getD n.numberOutOfTree 0) })
      (some (aid, a.from_), s)
    else
      findWeakNodeLoop s nid tlabel (i + 1) k

/-- findWeakNode of pseudo.go: scan nid's outOfTree from nextArc for an
arc whose other endpoint has label targetLabel - 1; on a hit the arc is
swap-removed and returned with the weak endpoint. -/
def findWeakNode (s : Session) (nid : Nat) : Option (Nat × Nat) × Session :=
  let tlabel := if s.ctx.lowestLabel then s.lowestStrongLabel else s.highestStrongLabel
  let size := (s.nodeD nid).numberOutOfTree
  let i := (s.nodeD nid).nextArc
  findWeakNodeLoop s nid tlabel i (size - i)

/-- Scan loop of checkChildren over the nextScan chain; the Bool is true
when a child with the same label was found. -/
def checkChildrenLoop (s : Session) (nid : Nat) : Nat → Option (Session × Bool)
  | 0 => none
  | fuel + 1 =>
    match (s.nodeD nid).nextScan with
    | none => some (s, false)
    | some cid =>
      if (s.nodeD cid).label = (s.nodeD nid).label then some (s, true)
      else
        let s := s.upN nid (fun n => { n with nextScan := (s.nodeD cid).next })
        checkChildrenLoop s nid fuel

/-- checkChildren of pseudo.go: look for a child with the same label,
otherwise relabel the node.  The labelCount reads are checked so that
the Go out-of-range panic at labelCount[label+1] is modelled by none. -/
def checkChildren (s : Session) (nid : Nat) (fuel : Nat) : Option Session := do
  let (s, found) ← checkChildrenLoop s nid fuel
  if found then some s
  else do
    let c0 ← s.lc? (s.nodeD nid).label
    let s := s.lcSet (s.nodeD nid).label (c0 - 1)
    let s := s.upN nid (fun n => { n with label := n.label + 1 })
    let c1 ← s.lc? (s.nodeD nid).label
    let s := s.lcSet (s.nodeD nid).label (c1 + 1)
    let s := s.bumpRelabels
    some (s.upN nid (fun n => { n with nextArc := 0 }))

/-- Traversal loop of liftAll over the childList/nextScan/parent walk. -/
def liftAllLoop (s : Session) (curId : Nat) : Nat → Option Session
  | 0 => none
  | fuel + 1 =>
    match (s.nodeD curId).nextScan with
    | some tid => do
      let s := s.upN curId (fun c => { c with nextScan := (s.nodeD tid).next })
      let s := s.upN tid (fun c => { c with nextScan := c.childList })
      let c0 ← s.lc? (s.nodeD tid).label
      let s := s.lcSet (s.nodeD tid).label (c0 - 1)
      let s := s.upN tid (fun c => { c with label := s.numNodes })
      liftAllLoop s tid fuel
    | none =>
      match (s.nodeD curId).parent with
      | some pid => liftAllLoop s pid fuel
      | none => some s

/-- liftAll of pseudo.go: raise every node reachable in the tree of nid
to label numNodes, adjusting labelCount. -/
def liftAll (s : Session) (nid : Nat) (fuel : Nat) : Option Session := do
  let s := s.upN nid (fun c => { c with nextScan := c.childList })
  let c0 ← s.lc? (s.nodeD nid).label
  let s := s.lcSet (s.nodeD nid).label (c0 - 1)
  let s := s.upN nid (fun c => { c with label := s.numNodes })
  liftAllLoop s nid fuel

/-- Bucket-0 promotion loop of getLowestStrongRoot (run only when
lowestStrongLabel is 0): pop each node of bucket 0, clear its next,
relabel it to 1, adjust labelCount and relabels, re-insert in bucket 1. -/
def glsrZeroDrain (s : Session) : Nat → Option Session
  | 0 => none
  | fuel + 1 => do
    let b ← s.bucket? 0
    match b.start with
    | none => some s
    | some rid => do
      let s := s.setBucket 0 { (s.bucketD 0) with start := (s.nodeD rid).next }
      let s := s.upN rid (fun n => { n with next := none })
      let s := s.upN rid (fun n => { n with label := 1 })
      let c0 ← s.lc? 0
      let s := s.lcSet 0 (c0 - 1)
      let c1 ← s.lc? 1
      let s := s.lcSet 1 (c1 + 1)
      let s := s.bumpRelabels
      let s ← addToStrongBucket s rid (s.nodeD rid).label
      glsrZeroDrain s fuel

/-- Upward scan loop of getLowestStrongRoot from label i. -/
def glsrScan (s : Session) (i : Nat) : Nat → Option (Option Nat × Session)
  | 0 => none
  | fuel + 1 =>
    if i < s.numNodes then do
      let b ← s.bucket? i
      match b.start with
      | none => glsrScan s (i + 1) fuel
      | some rid =>
        let s := { s with lowestStrongLabel := i }
        do
          let c ← s.lc? (i - 1)
          if c = 0 then
            some (none, s.bumpGaps)
          else
            let s := s.setBucket i { (s.bucketD i) with start := (s.nodeD rid).next }
            let s := s.upN rid (fun n => { n with next := none })
            some (some rid, s)
    else
      some (none, { s with lowestStrongLabel := s.numNodes })

/-- getLowestStrongRoot of pseudo.go. -/
def getLowestStrongRoot (s : Session) (fuel : Nat) : Option (Option Nat × Session) := do
  let s ←
    if s.lowestStrongLabel = 0 then do
      let s ← glsrZeroDrain s fuel
      pure { s with lowestStrongLabel := 1 }
    else pure s
  glsrScan s s.lowestStrongLabel fuel

/-- Gap drain loop of getHighestStrongRoot: while bucket i is non-empty,
bump gaps, pop the head and liftAll it. -/
def ghsrDrain (s : Session) (i : Nat) : Nat → Option Session
  | 0 => none
  | fuel + 1 => do
    let b ← s.bucket? i
    match b.start with
    | none => some s
    | some rid => do
      let s := s.bumpGaps
      let s := s.setBucket i { (s.bucketD i) with start := (s.nodeD rid).next }
      let s ← liftAll s rid fuel
      ghsrDrain s i fuel

/-- Bucket-0 promotion loop of getHighestStrongRoot (run after the scan
reaches 0): pop each node of bucket 0, relabel it to 1, adjust
labelCount and relabels, re-insert in bucket 1.  Unlike the lowest-label
variant the popped node's next is not cleared here (addToStrongBucket
overwrites it). -/
def ghsrZeroDrain (s : Session) : Nat → Option Session
  | 0 => none
  | fuel + 1 => do
    let b ← s.bucket? 0
    match b.start with
    | none => some s
    | some rid => do
      let s := s.setBucket 0 { (s.bucketD 0) with start := (s.nodeD rid).next }
      let s := s.upN rid (fun n => { n with label := 1 })
      let c0 ← s.lc? 0
      let s := s.lcSet 0 (c0 - 1)
      let c1 ← s.lc? 1
      let s := s.lcSet 1 (c1 + 1)
      let s := s.bumpRelabels
      let s ← addToStrongBucket s rid (s.nodeD rid).label
      ghsrZeroDrain s fuel

/-- Post-scan bucket-0 phase of getHighestStrongRoot: if bucket 0 is
empty return none, else promote its contents to bucket 1, set
highestStrongLabel to 1 and pop one node from bucket 1. -/
def ghsrBucketZero (s : Session) (fuel : Nat) : Option (Option Nat × Session) := do
  let b ← s.bucket? 0
  match b.start with
  | none => some (none, s)
  | some _ => do
    let s ← ghsrZeroDrain s fuel
    let s := { s with highestStrongLabel := 1 }
    let b1 ← s.bucket? 1
    let rid ← b1.start
    let s := s.setBucket 1 { (s.bucketD 1) with start := (s.nodeD rid).next }
    let s := s.upN rid (fun n => { n with next := none })
    some (some rid, s)

/-- Downward scan loop of getHighestStrongRoot from label i; i = 0 runs
the bucket-0 phase. -/
def ghsrScan (s : Session) (i : Nat) : Nat → Option (Option Nat × Session)
  | 0 => none
  | fuel + 1 =>
    if i = 0 then ghsrBucketZero s fuel
    else do
      let b ← s.bucket? i
      match b.start with
      | none => ghsrScan s (i - 1) fuel
      | some rid =>
        let s := { s with highestStrongLabel := i }
        do
          let c ← s.lc? (i - 1)
          if 0 < c then
            let s := s.setBucket i { (s.bucketD i) with start := (s.nodeD rid).next }
            let s := s.upN rid (fun n => { n with next := none })
            some (some rid, s)
          else do
            let s ← ghsrDrain s i fuel
            ghsrScan s (i - 1) fuel

/-- getHighestStrongRoot of pseudo.go. -/
def getHighestStrongRoot (s : Session) (fuel : Nat) : Option (Option Nat × Session) :=
  ghsrScan s s.highestStrongLabel fuel

/-- Depth-first loop of processRoot below the root rootId. -/
def processRootLoop (s : Session) (rootId strongId : Nat) : Nat → Option Session
  | 0 => none
  | fuel + 1 =>
    match (s.nodeD strongId).nextScan with
    | some tid =>
      let s := s.upN strongId (fun n => { n with nextScan := (s.nodeD tid).next })
      let s := s.upN tid (fun n => { n with nextScan := n.childList })
      (match findWeakNode s tid with
       | (some (out, weakId), s) => do
         let s ← merge s weakId tid out fuel
         pushExcess s rootId fuel
       | (none, s) => do
         let s ← checkChildren s tid fuel
         processRootLoop s rootId tid fuel)
    | none =>
      match (s.nodeD strongId).parent with
      | some pid => do
        let s ← checkChildren s pid fuel
        processRootLoop s rootId pid fuel
      | none => do
        let s ← addToStrongBucket s rootId (s.nodeD rootId).label
        some (if s.ctx.lowestLabel then s
              else { s with highestStrongLabel := s.highestStrongLabel + 1 })

/-- processRoot of pseudo.go. -/
def processRoot (s : Session) (rootId : Nat) (fuel : Nat) : Option Session :=
  let s := s.upN rootId (fun n => { n with nextScan := n.childList })
  match findWeakNode s rootId with
  | (some (out, weakId), s) => do
    let s ← merge s weakId rootId out fuel
    pushExcess s rootId fuel
  | (none, s) => do
    let s ← checkChildren s rootId fuel
    processRootLoop s rootId rootId fuel

/-- flowPhaseOne of pseudo.go: repeatedly extract a strong root with the
policy-selected getter and process it until none remains. -/
def flowPhaseOne (s : Session) : Nat → Option Session
  | 0 => none
  | fuel + 1 => do
    let (r, s) ← if s.ctx.lowestLabel then getLowestStrongRoot s fuel
                 else getHighestStrongRoot s fuel
    match r with
    | none => some s
    | some rid => do
      let s ← processRoot s rid fuel
      flowPhaseOne s fuel

/-- One bubble pass of the quickSort small-range branch over positions
j .. j+k-1; fl gives the flow of an arc index.  Returns the array and
whether any swap happened in this pass. -/
def bubblePass (fl : Nat → Int) : Nat → List Nat → Nat → Bool → List Nat × Bool
  | 0, arr, _, sw => (arr, sw)
  | k + 1, arr, j, sw =>
    if fl (arr.getD j 0) < fl (arr.getD (j + 1) 0) then
      let x := arr.getD j 0
      let y := arr.getD (j + 1) 0
      bubblePass fl k ((arr.set j y).set (j + 1) x) (j + 1) true
    else
      bubblePass fl k arr (j + 1) sw

/-- Outer bubble loop of the quickSort small-range branch, i running
down from right to left+1.  As in the Go source the loop RETURNS as
soon as a pass performed a swap (the early-exit condition is inverted
with respect to the original C code). -/
def bubbleLoop (fl : Nat → Int) : Nat → List Nat → Nat → Nat → List Nat
  | 0, arr, _, _ => arr
  | k + 1, arr, left, i =>
    if left < i then
      let (arr, sw) := bubblePass fl (i - left) arr left false
      if sw then arr else bubbleLoop fl k arr left (i - 1)
    else arr

/-- Partition loop of quickSort: while left < right either swap
arr[left] with arr[right] and decrement right, or increment left.
Returns the array and the final left. -/
def partitionLoop (fl : Nat → Int) (pivotval : Int) :
    Nat → List Nat → Nat → Nat → List Nat × Nat
  | 0, arr, left, _ => (arr, left)
  | k + 1, arr, left, right =>
    if left < right then
      if fl (arr.getD left 0) < pivotval then
        let x := arr.getD left 0
        let y := arr.getD right 0
        partitionLoop fl pivotval k ((arr.set left y).set right x) left (right - 1)
      else
        partitionLoop fl pivotval k arr (left + 1) right
    else (arr, left)

/-- quickSort of pseudo.go on a list of arc indices, fl giving each
index's flow.  Mirrors the Go code including the inverted bubble-sort
early exit and the median-of-three pivot selection. -/
def quickSort (fl : Nat → Int) (arr : List Nat) (first last : Nat) :
    Nat → Option (List Nat)
  | 0 => none
  | fuel + 1 =>
    let left := first
    let right := last
    if right - left ≤ 5 then
      some (bubbleLoop fl (right - left + 1) arr left right)
    else
      let mid := (first + last) / 2
      let x1 := fl (arr.getD first 0)
      let x2 := fl (arr.getD mid 0)
      let x3 := fl (arr.getD last 0)
      let pivot :=
        if x1 ≤ x2 then
          (if x2 > x3 then (if x1 ≤ x3 then right else left) else mid)
        else
          (if x2 ≤ x3 then (if x1 ≤ x3 then left else right) else mid)
      let pivotval := fl (arr.getD pivot 0)
      let aF := arr.getD first 0
      let aP := arr.getD pivot 0
      let arr := (arr.set first aP).set pivot aF
      let (arr, left) := partitionLoop fl pivotval (last - first) arr (first + 1) right
      let aF2 := arr.getD first 0
      let aL := arr.getD left 0
      let arr := (arr.set first aL).set left aF2
      do
        let arr ← if first < left - 1 then quickSort fl arr first (left - 1) fuel
                  else some arr
        if left + 1 < last then quickSort fl arr (left + 1) last fuel
        else some arr

/-- sort method of pseudo.go on a node: quicksort its outOfTree prefix
of length numberOutOfTree by flow. -/
def sortNode (s : Session) (nid : Nat) (fuel : Nat) : Option Session :=
  if 1 < (s.nodeD nid).numberOutOfTree then do
    let arr ← quickSort (fun aid => (s.arcD aid).flow) (s.nodeD nid).outOfTree
                0 ((s.nodeD nid).numberOutOfTree - 1) fuel
    some (s.upN nid (fun n => { n with outOfTree := arr }))
  else some s

/-- Shift loop of minisort, moving entries one slot down while their
flow exceeds tempflow; returns the array and the final index i. -/
def minisortLoop (fl : Nat → Int) (tempflow : Int) :
    Nat → List Nat → Nat → Nat → List Nat × Nat
  | 0, arr, i, _ => (arr, i)
  | k + 1, arr, i, size =>
    if i < size ∧ tempflow < fl (arr.getD i 0) then
      minisortLoop fl tempflow k (arr.set (i - 1) (arr.getD i 0)) (i + 1) size
    else (arr, i)

/-- minisort of pseudo.go: re-insert the head entry outOfTree[nextArc]
into its ordered position among the following entries. -/
def minisort (s : Session) (nid : Nat) : Option Session := do
  let temp ← (s.nodeD nid).outOfTree.get? (s.nodeD nid).nextArc
  let tempflow := (s.arcD temp).flow
  let size := (s.nodeD nid).numberOutOfTree
  let (arr, i) := minisortLoop (fun aid => (s.arcD aid).flow) tempflow
                    (size - (s.nodeD nid).nextArc) (s.nodeD nid).outOfTree
                    ((s.nodeD nid).nextArc + 1) size
  some (s.upN nid (fun n => { n with outOfTree := arr.set (i - 1) temp }))

/-- First scan loop of decompose: walk from-pointers from curId until
the source or an already-visited node, stamping visited and taking the
bottleneck minimum. -/
def decomposeScan (s : Session) (source iter curId : Nat) (bott : Int) :
    Nat → Option (Session × Nat × Int)
  | 0 => none
  | fuel + 1 =>
    if (s.nodeD curId).number ≠ source ∧ (s.nodeD curId).visited < iter then do
      let s := s.upN curId (fun c => { c with visited := iter })
      let aid ← (s.nodeD curId).outOfTree.get? (s.nodeD curId).nextArc
      let a ← s.arc? aid
      let bott := if a.flow < bott then a.flow else bott
      decomposeScan s source iter a.from_ bott fuel
    else some (s, curId, bott)

/-- Path retrace loop of decompose: subtract the bottleneck along the
path back to the source, minisorting or advancing nextArc as each arc
keeps or loses its flow. -/
def decomposeRetrace (s : Session) (source : Nat) (bott : Int) (curId : Nat) :
    Nat → Option Session
  | 0 => none
  | fuel + 1 =>
    if (s.nodeD curId).number ≠ source then do
      let aid ← (s.nodeD curId).outOfTree.get? (s.nodeD curId).nextArc
      let a ← s.arc? aid
      let s := s.setArc aid { a with flow := a.flow - bott }
      let s ← if a.flow - bott ≠ 0 then minisort s curId
              else some (s.upN curId (fun c => { c with nextArc := c.nextArc + 1 }))
      decomposeRetrace s source bott a.from_ fuel
    else some s

/-- Cycle scan loop of decompose (second pass): find the bottleneck
around the detected cycle. -/
def cycleScan (s : Session) (iter curId : Nat) (bott : Int) :
    Nat → Option (Session × Nat × Int)
  | 0 => none
  | fuel + 1 =>
    if (s.nodeD curId).visited < iter then do
      let s := s.upN curId (fun c => { c with visited := iter })
      let aid ← (s.nodeD curId).outOfTree.get? (s.nodeD curId).nextArc
      let a ← s.arc? aid
      let bott := if a.flow < bott then a.flow else bott
      cycleScan s iter a.from_ bott fuel
    else some (s, curId, bott)

/-- Cycle cancel loop of decompose (third pass): subtract the bottleneck
around the cycle. -/
def cycleCancel (s : Session) (iter : Nat) (bott : Int) (curId : Nat) :
    Nat → Option Session
  | 0 => none
  | fuel + 1 =>
    if (s.nodeD curId).visited < iter then do
      let s := s.upN curId (fun c => { c with visited := iter })
      let aid ← (s.nodeD curId).outOfTree.get? (s.nodeD curId).nextArc
      let a ← s.arc? aid
      let s := s.setArc aid { a with flow := a.flow - bott }
      let s ← if a.flow - bott ≠ 0 then minisort s curId
              else some (s.upN curId (fun c => { c with nextArc := c.nextArc + 1 }))
      cycleCancel s iter bott a.from_ fuel
    else some s

/-- decompose of pseudo.go; the iteration counter is threaded through
explicitly (Go passes it by pointer). -/
def decompose (s : Session) (nid source iter : Nat) (fuel : Nat) :
    Option (Session × Nat) := do
  let bott := (s.nodeD nid).excess
  let (s, curId, bott) ← decomposeScan s source iter nid bott fuel
  if (s.nodeD curId).number = source then do
    let s := s.upN nid (fun c => { c with excess := c.excess - bott })
    let s ← decomposeRetrace s source bott nid fuel
    some (s, iter)
  else do
    let iter := iter + 1
    let aid ← (s.nodeD curId).outOfTree.get? (s.nodeD curId).nextArc
    let a ← s.arc? aid
    let bott := a.flow
    let (s, curId, bott) ← cycleScan s iter curId bott fuel
    let iter := iter + 1
    let s ← cycleCancel s iter bott curId fuel
    some (s, iter)

/-- Step 1 loop of recoverFlow over the sink's out-of-tree arcs:
cancel negative excess at the from-endpoint against the arc's flow. -/
def rfSinkLoop (s : Session) (i : Nat) : Nat → Option Session
  | 0 => some s
  | k + 1 => do
    let aid ← (s.nodeD s.sink).outOfTree.get? i
    let a ← s.arc? aid
    let s :=
      if (s.nodeD a.from_).excess < 0 then
        if (s.nodeD a.from_).excess + a.flow < 0 then
          let s := s.upN a.from_ (fun n => { n with excess := n.excess + a.flow })
          s.setArc aid { (s.arcD aid) with flow := 0 }
        else
          let s := s.setArc aid { a with flow := (s.nodeD a.from_).excess + a.flow }
          s.upN a.from_ (fun n => { n with excess := 0 })
      else s
    rfSinkLoop s (i + 1) k

/-- Step 2 loop of recoverFlow over the source's out-of-tree arcs:
attach each to its to-endpoint's outOfTree list. -/
def rfSourceLoop (s : Session) (i : Nat) : Nat → Option Session
  | 0 => some s
  | k + 1 => do
    let aid ← (s.nodeD s.source).outOfTree.get? i
    let a ← s.arc? aid
    let s ← addOutOfTreeNode s a.to_ aid
    rfSourceLoop s (i + 1) k

/-- Compaction loop of recoverFlow step 4: swap-remove zero-flow arcs
from nid's outOfTree prefix (the Go loop with the j-- backstep). -/
def compactLoop (s : Session) (nid j : Nat) : Nat → Option Session
  | 0 => if j < (s.nodeD nid).numberOutOfTree then none else some s
  | k + 1 =>
    if j < (s.nodeD nid).numberOutOfTree then do
      let aid ← (s.nodeD nid).outOfTree.get? j
      let a ← s.arc? aid
      if a.flow = 0 then
        let s := s.upN nid (fun n => { n with numberOutOfTree := n.numberOutOfTree - 1 })
        let s := s.upN nid (fun n =>
          { n with outOfTree := n.outOfTree.set j (n.outOfTree.getD n.numberOutOfTree 0) })
        compactLoop s nid j k
      else compactLoop s nid (j + 1) k
    else some s

/-- Step 4 loop of recoverFlow over all nodes: for non-terminal nodes
with label at or above the gap, reset nextArc, re-attach a non-zero
parent arc, compact out zero-flow arcs and sort by flow descending. -/
def rfNodeLoop (s : Session) (gap i : Nat) (fuel : Nat) : Nat → Option Session
  | 0 => some s
  | k + 1 => do
    let nid := i + 1
    let s ←
      if i = s.source - 1 ∨ i = s.sink - 1 then some s
      else if (s.nodeD nid).label ≥ gap then do
        let s := s.upN nid (fun n => { n with nextArc := 0 })
        let s ←
          match (s.nodeD nid).parent with
          | some _ => do
            let aid ← (s.nodeD nid).arcToParent
            let a ← s.arc? aid
            if a.flow ≠ 0 then addOutOfTreeNode s a.to_ aid else some s
          | none => some s
        let s ← compactLoop s nid 0 fuel
        sortNode s nid fuel
      else some s
    rfNodeLoop s gap (i + 1) fuel k

/-- Inner decomposition loop of recoverFlow step 5: decompose nid while
its excess is positive, bumping the iteration counter each time. -/
def rfDecomposeInner (s : Session) (nid iter : Nat) : Nat → Option (Session × Nat)
  | 0 => if (s.nodeD nid).excess > 0 then none else some (s, iter)
  | fuel + 1 =>
    if (s.nodeD nid).excess > 0 then do
      let iter := iter + 1
      let (s, iter) ← decompose s nid s.source iter fuel
      rfDecomposeInner s nid iter fuel
    else some (s, iter)

/-- Outer decomposition loop of recoverFlow step 5 over all nodes. -/
def rfDecomposeLoop (s : Session) (i iter fuel : Nat) : Nat → Option Session
  | 0 => some s
  | k + 1 => do
    let (s, iter) ← rfDecomposeInner s (i + 1) iter fuel
    rfDecomposeLoop s (i + 1) iter fuel k

/-- recoverFlow of pseudo.go (the gap value is internalized exactly as
in the Go port). -/
def recoverFlow (s : Session) (fuel : Nat) : Option Session := do
  let gap := if s.ctx.lowestLabel then s.lowestStrongLabel else s.numNodes
  let s ← rfSinkLoop s 0 (s.nodeD s.sink).numberOutOfTree
  let s ← rfSourceLoop s 0 (s.nodeD s.source).numberOutOfTree
  let s := s.upN s.source (fun n => { n with excess := 0 })
  let s := s.upN s.sink (fun n => { n with excess := 0 })
  let s ← rfNodeLoop s gap 0 fuel s.numNodes
  rfDecomposeLoop s 0 1 fuel s.numNodes

/-- Result of checkOptimality: the mincut value, whether the two
feasibility checks passed, and whether the max-flow-equals-mincut check
passed (the s line is emitted exactly when optimal is true). -/
structure OptResult where
  mincut : Int
  feasible : Bool
  optimal : Bool
deriving Repr, DecidableEq

/-- Arc loop of checkOptimality: accumulate the cut capacity, check the
capacity constraints and accumulate per-node excess. -/
def coArcLoop (s : Session) (gap i : Nat) (mincut : Int) (ex : List Int)
    (ok : Bool) : Nat → Int × List Int × Bool
  | 0 => (mincut, ex, ok)
  | k + 1 =>
    let a := s.arcD i
    let mincut := if (s.nodeD a.from_).label ≥ gap ∧ (s.nodeD a.to_).label < gap
                  then mincut + a.capacity else mincut
    let ok := if a.flow > a.capacity ∨ a.flow < 0 then false else ok
    let ex := ex.set (a.from_ - 1) (ex.getD (a.from_ - 1) 0 - a.flow)
    let ex := ex.set (a.to_ - 1) (ex.getD (a.to_ - 1) 0 + a.flow)
    coArcLoop s gap (i + 1) mincut ex ok k

/-- Node loop of checkOptimality: every non-terminal node must have zero
accumulated excess. -/
def coNodeLoop (s : Session) (ex : List Int) (i : Nat) (ok : Bool) : Nat → Bool
  | 0 => ok
  | k + 1 =>
    let ok := if i ≠ s.source - 1 ∧ i ≠ s.sink - 1 ∧ ex.getD i 0 ≠ 0 then false
              else ok
    coNodeLoop s ex (i + 1) ok k

/-- checkOptimality of pseudo.go, returning the computed mincut and the
outcome of the feasibility and optimality checks instead of writing
text. -/
def checkOptimality (s : Session) : OptResult :=
  let gap := if s.ctx.lowestLabel then s.lowestStrongLabel else s.numNodes
  let (mincut, ex, ok) :=
    coArcLoop s gap 0 0 (List.replicate s.numNodes 0) true s.numArcs
  let feasible := coNodeLoop s ex 0 ok s.numNodes
  { mincut := mincut, feasible := feasible,
    optimal := decide (ex.getD (s.sink - 1) 0 = mincut) }

/-- displayFlow of pseudo.go: the f lines, one (from, to, flow) triple
per arc in arc-list storage order. -/
def displayFlow (s : Session) : List (Nat × Nat × Int) :=
  (List.range s.numArcs).map (fun i => ((s.arcD i).from_, (s.arcD i).to_, (s.arcD i).flow))

/-- displayCut of pseudo.go: the node numbers with label at or above the
gap. -/
def displayCutNodes (s : Session) : List Nat :=
  let gap := if s.ctx.lowestLabel then s.lowestStrongLabel else s.numNodes
  ((List.range s.numNodes).filter
    (fun i => decide ((s.adjacencyList.getD i default).label ≥ gap))).map
    (fun i => (s.adjacencyList.getD i default).number)

/-- NewSession of pseudo.go: zero-valued session with the context set
and the policy-selected strong-label cursor initialized to 1. -/
def newSession (c : Ctx) : Session :=
  { ctx := c,
    lowestStrongLabel := if c.lowestLabel then 1 else 0,
    highestStrongLabel := if c.lowestLabel then 0 else 1,
    adjacencyList := [], strongRoots := [], arcList := [], labelCount := [],
    numNodes := 0, numArcs := 0, source := 0, sink := 0, stats := default }

/-- The p-line processing of readDimacsFile: record the counts and
allocate the node, bucket, labelCount and arc arrays. -/
def initGraph (s : Session) (numNodes numArcs : Nat) : Session :=
  { s with
    numNodes := numNodes
    numArcs := numArcs
    adjacencyList := (List.range numNodes).map (fun i => newNode (i + 1))
    strongRoots := List.replicate numNodes default
    labelCount := List.replicate numNodes 0
    arcList := List.replicate numArcs (newArc 1) }

/-- One a-line of readDimacsFile: place the arc at the first or last
free slot according to the parity of from+to, and bump numAdjacent on
both endpoints. -/
def addArcLine (s : Session) (first last fromv tov : Nat) (cap : Int) :
    Session × Nat × Nat :=
  if (fromv + tov) % 2 ≠ 0 then
    let s := s.upArc first (fun a => { a with from_ := fromv, to_ := tov, capacity := cap })
    let s := s.upN fromv (fun n => { n with numAdjacent := n.numAdjacent + 1 })
    let s := s.upN tov (fun n => { n with numAdjacent := n.numAdjacent + 1 })
    (s, first + 1, last)
  else
    let s := s.upArc last (fun a => { a with from_ := fromv, to_ := tov, capacity := cap })
    let s := s.upN fromv (fun n => { n with numAdjacent := n.numAdjacent + 1 })
    let s := s.upN tov (fun n => { n with numAdjacent := n.numAdjacent + 1 })
    (s, first, last - 1)

/-- Fold of addArcLine over the input arc list. -/
def loadArcs (s : Session) (first last : Nat) :
    List (Nat × Nat × Int) → Session
  | [] => s
  | (f, t, c) :: rest =>
    let (s, first, last) := addArcLine s first last f t c
    loadArcs s first last rest

/-- createOutOfTree for every node: preallocate the outOfTree buffer of
length numAdjacent; the dummy entry s.numArcs stands for the nil arc
pointers of the Go slice (reading it through arc? is a modelled
panic). -/
def createOutOfTreeAll (s : Session) : Session :=
  { s with
    adjacencyList := s.adjacencyList.map
      (fun n => { n with outOfTree := List.replicate n.numAdjacent s.numArcs }) }

/-- The arc classification loop at the end of readDimacsFile: drop arcs
into the sink, out of the source or self-loops; saturate direct
source-to-sink arcs; otherwise attach each arc to the out-of-tree list
chosen by the order-sensitive branch structure of the source. -/
def classifyArcs (s : Session) (i : Nat) : Nat → Option Session
  | 0 => some s
  | k + 1 => do
    let a := s.arcD i
    let tov := a.to_
    let fromv := a.from_
    let cap := a.capacity
    let s ←
      if ¬(s.source = tov ∨ s.sink = fromv ∨ fromv = tov) then
        if s.source = fromv ∧ tov = s.sink then
          some (s.upArc i (fun a => { a with flow := cap }))
        else if fromv = s.source ∨ tov ≠ s.sink then
          addOutOfTreeNode s fromv i
        else if tov = s.sink then
          addOutOfTreeNode s tov i
        else
          addOutOfTreeNode s fromv i
      else some s
    classifyArcs s (i + 1) k

/-- Graph loading: NewSession followed by the structure-building part of
readDimacsFile on an already-parsed graph (node count, arc count,
source, sink, arc list). -/
def loadGraph (c : Ctx) (numNodes numArcs source sink : Nat)
    (arcs : List (Nat × Nat × Int)) : Option Session :=
  let s := newSession c
  let s := initGraph s numNodes numArcs
  let s := { s with source := source, sink := sink }
  let s := loadArcs s 0 (numArcs - 1) arcs
  let s := createOutOfTreeAll s
  classifyArcs s 0 s.numArcs

/-- Source-arc saturation loop of simpleInitialization. -/
def siSourceLoop (s : Session) (i : Nat) : Nat → Option Session
  | 0 => some s
  | k + 1 => do
    let aid ← (s.nodeD s.source).outOfTree.get? i
    let a ← s.arc? aid
    let s := s.setArc aid { a with flow := a.capacity }
    let s := s.upN a.to_ (fun n => { n with excess := n.excess + a.capacity })
    siSourceLoop s (i + 1) k

/-- Sink-arc saturation loop of simpleInitialization. -/
def siSinkLoop (s : Session) (i : Nat) : Nat → Option Session
  | 0 => some s
  | k + 1 => do
    let aid ← (s.nodeD s.sink).outOfTree.get? i
    let a ← s.arc? aid
    let s := s.setArc aid { a with flow := a.capacity }
    let s := s.upN a.from_ (fun n => { n with excess := n.excess - a.capacity })
    siSinkLoop s (i + 1) k

/-- Strong-bucket population loop of simpleInitialization: every node
with positive excess gets label 1 and joins bucket 1. -/
def siBucketLoop (s : Session) (i : Nat) : Nat → Option Session
  | 0 => some s
  | k + 1 => do
    let s ←
      if (s.adjacencyList.getD i default).excess > 0 then do
        let s := s.upN (i + 1) (fun n => { n with label := 1 })
        let c1 ← s.lc? 1
        let s := s.lcSet 1 (c1 + 1)
        addToStrongBucket s (i + 1) 1
      else some s
    siBucketLoop s (i + 1) k

/-- simpleInitialization of pseudo.go.  Note that it does not touch the
lowestStrongLabel or highestStrongLabel cursors (NewSession sets
them). -/
def simpleInitialization (s : Session) : Option Session := do
  let s ← siSourceLoop s 0 (s.nodeD s.source).numberOutOfTree
  let s ← siSinkLoop s 0 (s.nodeD s.sink).numberOutOfTree
  let s := s.upN s.source (fun n => { n with excess := 0 })
  let s := s.upN s.sink (fun n => { n with excess := 0 })
  let s ← siBucketLoop s 0 s.numNodes
  let s := s.upN s.source (fun n => { n with label := s.numNodes })
  let s := s.upN s.sink (fun n => { n with label := 0 })
  some (s.lcSet 0 ((s.numNodes - 2) - s.lcD 1))

/-- The process pipeline of pseudo.go on a loaded session:
simpleInitialization, flowPhaseOne, recoverFlow, then the optimality
check and the flow report. -/
def processSession (s : Session) (fuel : Nat) :
    Option (OptResult × List (Nat × Nat × Int)) := do
  let s ← simpleInitialization s
  let s ← flowPhaseOne s fuel
  let s ← recoverFlow s fuel
  some (checkOptimality s, displayFlow s)

/-- Full solver run from a parsed graph. -/
def solve (c : Ctx) (numNodes numArcs source sink : Nat)
    (arcs : List (Nat × Nat × Int)) (fuel : Nat) :
    Option (OptResult × List (Nat × Nat × Int)) := do
  let s ← loadGraph c numNodes numArcs source sink arcs
  processSession s fuel

/-! Concrete states and inputs used by the theorems below. -/

/-- The canonical 6-node, 8-arc test graph of the repository
(_data/dimacsMaxf.txt), in input order. -/
def canonicalArcs : List (Nat × Nat × Int) :=
  [(1,2,5),(1,3,15),(2,4,5),(2,5,5),(3,4,5),(3,5,5),(4,6,15),(5,6,5)]

/-- Flow table for the quickSort counterexample: three arcs with flows
2, 1 and 3. -/
def qsBugFlows : Nat → Int := fun i => ([2, 1, 3] : List Int).getD i 0

/-- A lowest-label session whose lowestStrongLabel is already 1 while a
node (number 2, label 0) sits in bucket 0; all other buckets are
empty. -/
def c5State : Session :=
  { ctx := { lowestLabel := true, fifoBuckets := false, displayCut := false }
    lowestStrongLabel := 1
    highestStrongLabel := 0
    adjacencyList := [newNode 1, newNode 2, newNode 3]
    strongRoots := [{ start := some 2, end_ := some 2 }, default, default]
    arcList := []
    labelCount := [1, 0, 0]
    numNodes := 3
    numArcs := 0
    source := 1
    sink := 3
    stats := default }

/-- A two-node session (source 1, sink 2, no arcs) carrying a stale
highestStrongLabel of 5, as a session reused after a previous solve
would. -/
def c6State : Session :=
  { ctx := { lowestLabel := false, fifoBuckets := false, displayCut := false }
    lowestStrongLabel := 0
    highestStrongLabel := 5
    adjacencyList := [newNode 1, newNode 2]
    strongRoots := [default, default]
    arcList := []
    labelCount := [0, 0]
    numNodes := 2
    numArcs := 0
    source := 1
    sink := 2
    stats := default }

/-- A highest-label session in which bucket 2 holds the two strong
roots 2 and 3 (both label 2, no children) while labelCount[1] = 0, so
the scan of getHighestStrongRoot detects a gap at level 2. -/
def c7State : Session :=
  { ctx := { lowestLabel := false, fifoBuckets := false, displayCut := false }
    lowestStrongLabel := 0
    highestStrongLabel := 2
    adjacencyList := [newNode 1,
      { newNode 2 with label := 2, next := some 3, excess := 1 },
      { newNode 3 with label := 2, excess := 1 }, newNode 4]
    strongRoots := [default, default, { start := some 2, end_ := some 3 }, default]
    arcList := []
    labelCount := [1, 0, 2, 0]
    numNodes := 4
    numArcs := 0
    source := 1
    sink := 4
    stats := default }

/-- Descending-flow order on a list of arc indices: the property the
spec requires of a sorted outOfTree list. -/
def flowsDescending (fl : Nat → Int) (l : List Nat) : Prop :=
  List.Chain' (fun a b => fl b ≤ fl a) l

/-- Executable check that the intrusive list threaded through the next
fields, starting at the pointer o, spells exactly the node list l.
Used for both child lists and strong-root buckets (the Go node's next
field serves both). -/
def isChainB (s : Session) : Option Nat → List Nat → Bool
  | none, [] => true
  | some _, [] => false
  | none, _ :: _ => false
  | some v, w :: l => v == w && isChainB s (s.nodeD v).next l

/-- A node number that addresses a real slot of the adjacency list. -/
def validN (s : Session) (v : Nat) : Prop :=
  1 ≤ v ∧ v - 1 < s.adjacencyList.length

instance (s : Session) (v : Nat) : Decidable (validN s v) := by
  unfold validN; infer_instance

/-- A four-node session for the breakRelationship witness: node 1 has
child list 2, 3, 4 (threaded through next), and node 3 is the child to
remove. -/
def c9State : Session :=
  { ctx := { lowestLabel := false, fifoBuckets := false, displayCut := false }
    lowestStrongLabel := 0
    highestStrongLabel := 1
    adjacencyList := [{ newNode 1 with childList := some 2 },
      { newNode 2 with parent := some 1, next := some 3 },
      { newNode 3 with parent := some 1, next := some 4 },
      { newNode 4 with parent := some 1, next := none }]
    strongRoots := [default, default, default, default]
    arcList := []
    labelCount := [4, 0, 0, 0]
    numNodes := 4
    numArcs := 0
    source := 1
    sink := 4
    stats := default }

def c5bState : Session :=
  { ctx := { lowestLabel := true, fifoBuckets := false, displayCut := false }
    lowestStrongLabel := 0
    highestStrongLabel := 0
    adjacencyList := [newNode 1, newNode 2, newNode 3]
    strongRoots := [{ start := some 2, end_ := some 2 }, default, default]
    arcList := []
    labelCount := [1, 0, 0]
    numNodes := 3
    numArcs := 0
    source := 1
    sink := 3
    stats := default }

def c5cState : Session :=
  { ctx := { lowestLabel := true, fifoBuckets := false, displayCut := false }
    lowestStrongLabel := 1
    highestStrongLabel := 0
    adjacencyList := [newNode 1, { newNode 2 with label := 2, excess := 1 }, newNode 3]
    strongRoots := [default, default, { start := some 2, end_ := some 2 }]
    arcList := []
    labelCount := [1, 0, 1]
    numNodes := 3
    numArcs := 0
    source := 1
    sink := 3
    stats := default }

/-- The state liftAll produces on an isolated node: nextScan reset,
labelCount at the old label decremented, label raised to numNodes. -/
def liftLeaf (s : Session) (v : Nat) : Session :=
  ((s.upN v (fun c => { c with nextScan := c.childList })).lcSet
    (((s.upN v (fun c => { c with nextScan := c.childList })).nodeD v).label)
    (s.lcD (s.nodeD v).label - 1)).upN v
    (fun c => { c with label :=
      ((s.upN v (fun c => { c with nextScan := c.childList })).lcSet
        (((s.upN v (fun c => { c with nextScan := c.childList })).nodeD v).label)
        (s.lcD (s.nodeD v).label - 1)).numNodes })

/-- One pop of the gap-bucket drain loop of getHighestStrongRoot: bump
the gaps counter and unlink node v from the front of bucket i. -/
def drainStep (s : Session) (i v : Nat) : Session :=
  (s.bumpGaps).setBucket i { start := (s.nodeD v).next, end_ := (s.bucketD i).end_ }

/-- Common saturating tail of pushUpward and pushDownward: record the
arc in parent.outOfTree, break the tree edge, update the lowest-label
cursor if applicable and insert the child into its label's bucket. -/
def pushTail (s : Session) (aid childId parentId : Nat) (fuel : Nat) : Option Session := do
  let s ← addOutOfTreeNode s parentId aid
  let s ← breakRelationship s parentId childId fuel
  let s := if s.ctx.lowestLabel
           then { s with lowestStrongLabel := (s.nodeD childId).label }
           else s
  addToStrongBucket s childId (s.nodeD childId).label

/-- The state of pushUpward just before its saturating tail: pushes
bumped, direction zeroed, excess moved, arc filled to capacity. -/
def pushUpPrefix (s : Session) (aid childId parentId : Nat) (resCap : Int) : Session :=
  ((((s.bumpPushes).upArc aid (fun a => { a with direction := 0 })).upN parentId
    (fun p => { p with excess := p.excess + resCap })).upN childId
    (fun c => { c with excess := c.excess - resCap })).upArc aid
    (fun a => { a with flow := a.capacity })

/-- The state of pushDownward just before its saturating tail: pushes
bumped, direction set to 1, excess moved, arc flow zeroed. -/
def pushDownPrefix (s : Session) (aid childId parentId : Nat) (flow : Int) : Session :=
  ((((s.bumpPushes).upArc aid (fun a => { a with direction := 1 })).upN childId
    (fun c => { c with excess := c.excess - flow })).upN parentId
    (fun p => { p with excess := p.excess + flow })).upArc aid
    (fun a => { a with flow := 0 })

/-- The intermediate state of the non-saturating push branches after
the parent has absorbed the child's whole excess. -/
def pushNonsatMid (s : Session) (childId parentId : Nat) : Session :=
  (s.bumpPushes).upN parentId
    (fun p => { p with excess := p.excess + (s.nodeD childId).excess })

/-- A four-node session for the push witness: node 1 is the parent of
node 2 (child list [2], out-of-tree buffer with room), node 2 carries 3
units of excess over arc 0 (capacity 5, flow 2), and node 3 waits alone
in the strong bucket of label 1. -/
def c8State : Session :=
  { ctx := { lowestLabel := false, fifoBuckets := false, displayCut := false }
    lowestStrongLabel := 0
    highestStrongLabel := 0
    adjacencyList := [{ newNode 1 with childList := some 2, outOfTree := [0, 0] },
      { newNode 2 with parent := some 1, excess := 3, label := 1, arcToParent := some 0 },
      { newNode 3 with label := 1, excess := 1 }]
    strongRoots := [default, { start := some 3, end_ := some 3 }]
    arcList := [{ from_ := 1, to_ := 2, flow := 2, capacity := 5, direction := 1 }]
    labelCount := [0, 0]
    numNodes := 3
    numArcs := 1
    source := 1
    sink := 3
    stats := default }

/-- A finite rooted tree of node numbers: the layout strong trees have
in the adjacency list, with children of a node linked through their
next fields starting at the node's childList. -/
inductive TreeR : Type where
  | node : Nat → List TreeR → TreeR
deriving Repr

/-- The node number at the root of the tree. -/
def TreeR.rootId : TreeR → Nat
  | .node v _ => v

mutual
/-- All node numbers of the tree, root first. -/
def TreeR.ids : TreeR → List Nat
  | .node v ts => v :: TreeR.idsList ts

/-- All node numbers of a list of trees, in order. -/
def TreeR.idsList : List TreeR → List Nat
  | [] => []
  | t :: ts => t.ids ++ TreeR.idsList ts
end

mutual
/-- The tree tr is laid out in session s: each node's childList starts
the sibling chain of its children and each child's parent points back. -/
def isTreeB (s : Session) : TreeR → Bool
  | .node v ts =>
    isChainB s ((s.nodeD v).childList) (ts.map TreeR.rootId) && isForestB s v ts

/-- Every tree of ts is laid out in s with its root's parent being v. -/
def isForestB (s : Session) (v : Nat) : List TreeR → Bool
  | [] => true
  | t :: ts =>
    ((s.nodeD t.rootId).parent == some v) && isTreeB s t && isForestB s v ts
end

/-- The state after the descent bookkeeping of liftAllLoop, before the
relabel: v's scan pointer advanced past w, w's scan pointer opened. -/
def descendA2 (s : Session) (v w : Nat) : Session :=
  (s.upN v (fun c => { c with nextScan := (s.nodeD w).next })).upN w
    (fun c => { c with nextScan := c.childList })

/-- The full state after one descent step of liftAllLoop into w:
labelCount at w's old label decremented and w relabelled to numNodes. -/
def descendA4 (s : Session) (v w c0 : Nat) : Session :=
  ((descendA2 s v w).lcSet (((descendA2 s v w).nodeD w).label) (c0 - 1)).upN w
    (fun c => { c with label :=
      ((descendA2 s v w).lcSet (((descendA2 s v w).nodeD w).label) (c0 - 1)).numNodes })

/-- A highest-label session whose cursor sits at the empty bucket 3:
bucket 2 below it holds the strong roots 2 (with child 4) and 3, while
labelCount[1] = 0, so the downward scan of getHighestStrongRoot skips
bucket 3 and finds the gap at level 2. -/
def c7bState : Session :=
  { ctx := { lowestLabel := false, fifoBuckets := false, displayCut := false }
    lowestStrongLabel := 0
    highestStrongLabel := 3
    adjacencyList := [newNode 1,
      { newNode 2 with label := 2, next := some 3, childList := some 4, excess := 1 },
      { newNode 3 with label := 2, excess := 1 },
      { newNode 4 with label := 2, parent := some 2 },
      newNode 5]
    strongRoots := [default, default, { start := some 2, end_ := some 3 }, default]
    arcList := []
    labelCount := [1, 0, 2, 0]
    numNodes := 5
    numArcs := 0
    source := 1
    sink := 5
    stats := default }

/-!  Theorems.  -/

/-- C2: on the canonical 6-node, 8-arc graph, the solver in
highest-label mode with LIFO buckets computes mincut 15, passes both
the feasibility and the optimality checks (so the s 15 line is
emitted), and reports, in arc-list storage order, exactly the flows
1-2=5, 2-5=0, 3-4=5, 5-6=5, 4-6=10, 3-5=5, 2-4=5, 1-3=10. -/
theorem canonical_highest_lifo_run :
    solve { lowestLabel := false, fifoBuckets := false, displayCut := false }
      6 8 1 6 canonicalArcs 300
    = some ({ mincut := 15, feasible := true, optimal := true },
            [(1,2,5),(2,5,0),(3,4,5),(5,6,5),(4,6,10),(3,5,5),(2,4,5),(1,3,10)]) := by
  decide

/-- C4 (code bug): quickSort on three arcs with flows [2, 1, 3] takes
the bubble-sort branch and, because the early-exit test is inverted
(the Go code returns when a pass DID swap, where the original C returns
when a pass did not), stops after one pass and yields flows [2, 3, 1],
which is not sorted in non-increasing order. -/
theorem quickSort_stops_after_first_swapping_pass :
    quickSort qsBugFlows [0, 1, 2] 0 2 10 = some [0, 2, 1] ∧
    ¬ flowsDescending qsBugFlows [0, 2, 1] := by
  constructor
  · decide
  · simp [flowsDescending, qsBugFlows]

/-- C5 (counterexample): a call to getLowestStrongRoot on a state whose
lowestStrongLabel is 1 does not relabel the node sitting in bucket 0:
afterwards that node still has label 0 and sits in bucket 0, bucket 1
is still empty and the relabels counter is still 0, contradicting the
claim that every call first promotes bucket 0. -/
theorem getLowestStrongRoot_skips_bucket_zero_when_label_positive :
    (getLowestStrongRoot c5State 10).map
      (fun r => ((r.2.nodeD 2).label, r.2.stats.relabels,
                 (r.2.bucketD 0).start, (r.2.bucketD 1).start))
      = some (0, 0, some 2, none) ∧
    (getLowestStrongRoot c5State 10).map (fun r => (r.2.nodeD 2).label)
      ≠ some 1 := by
  decide

/-- C6 (counterexample): simpleInitialization run on a highest-label
session carrying a stale highestStrongLabel of 5 leaves the cursor at
5, not 1; the cursor is set by NewSession, not by
simpleInitialization. -/
theorem simpleInitialization_leaves_stale_cursor :
    (simpleInitialization c6State).map (fun t => t.highestStrongLabel) = some 5 ∧
    (simpleInitialization c6State).map (fun t => t.highestStrongLabel) ≠ some 1 := by
  decide

/-- C7 (counterexample): when getHighestStrongRoot drains the gap
bucket 2 containing two strong roots, the gaps counter is incremented
once per popped node, ending at 2 rather than 1; both roots are lifted
to label numNodes = 4 and the scan then continues downward, returning
none. -/
theorem getHighestStrongRoot_gap_counts_per_node :
    (getHighestStrongRoot c7State 30).map
      (fun r => (r.1, r.2.stats.gaps, (r.2.nodeD 2).label, (r.2.nodeD 3).label))
      = some (none, 2, 4, 4) ∧
    (getHighestStrongRoot c7State 30).map (fun r => r.2.stats.gaps) ≠ some 1 := by
  decide

/-! Cursor preservation lemmas for simpleInitialization (claim C6). -/
theorem cursors_addToStrongBucket {s s' : Session} {nid l : Nat}
    (h : addToStrongBucket s nid l = some s') :
    s'.lowestStrongLabel = s.lowestStrongLabel ∧
    s'.highestStrongLabel = s.highestStrongLabel := by
  unfold addToStrongBucket at h
  simp only [Option.bind_eq_bind'] at h
  obtain ⟨b, h1, h⟩ := Option.bind_eq_some.mp h
  by_cases hf : s.ctx.fifoBuckets
  · rw [if_pos hf] at h
    cases hbs : b.start with
    | none =>
      rw [hbs] at h
      cases Option.some.inj h
      exact ⟨rfl, rfl⟩
    | some v =>
      rw [hbs] at h
      simp only [Option.bind_eq_bind'] at h
      obtain ⟨e, h2, h⟩ := Option.bind_eq_some.mp h
      cases Option.some.inj h
      exact ⟨rfl, rfl⟩
  · rw [if_neg hf] at h
    cases Option.some.inj h
    exact ⟨rfl, rfl⟩

theorem cursors_siSourceLoop : ∀ (k : Nat) (s : Session) (i : Nat) (s' : Session),
    siSourceLoop s i k = some s' →
    s'.lowestStrongLabel = s.lowestStrongLabel ∧
    s'.highestStrongLabel = s.highestStrongLabel := by
  intro k
  induction k with
  | zero =>
    intro s i s' h
    unfold siSourceLoop at h
    cases Option.some.inj h
    exact ⟨rfl, rfl⟩
  | succ k ih =>
    intro s i s' h
    unfold siSourceLoop at h
    simp only [Option.bind_eq_bind'] at h
    obtain ⟨aid, h1, h⟩ := Option.bind_eq_some.mp h
    obtain ⟨a, h2, h⟩ := Option.bind_eq_some.mp h
    have e := ih _ _ _ h
    exact e

theorem cursors_siSinkLoop : ∀ (k : Nat) (s : Session) (i : Nat) (s' : Session),
    siSinkLoop s i k = some s' →
    s'.lowestStrongLabel = s.lowestStrongLabel ∧
    s'.highestStrongLabel = s.highestStrongLabel := by
  intro k
  induction k with
  | zero =>
    intro s i s' h
    unfold siSinkLoop at h
    cases Option.some.inj h
    exact ⟨rfl, rfl⟩
  | succ k ih =>
    intro s i s' h
    unfold siSinkLoop at h
    simp only [Option.bind_eq_bind'] at h
    obtain ⟨aid, h1, h⟩ := Option.bind_eq_some.mp h
    obtain ⟨a, h2, h⟩ := Option.bind_eq_some.mp h
    have e := ih _ _ _ h
    exact e

theorem cursors_siBucketLoop : ∀ (k : Nat) (s : Session) (i : Nat) (s' : Session),
    siBucketLoop s i k = some s' →
    s'.lowestStrongLabel = s.lowestStrongLabel ∧
    s'.highestStrongLabel = s.highestStrongLabel := by
  intro k
  induction k with
  | zero =>
    intro s i s' h
    unfold siBucketLoop at h
    cases Option.some.inj h
    exact ⟨rfl, rfl⟩
  | succ k ih =>
    intro s i s' h
    unfold siBucketLoop at h
    simp only [Option.bind_eq_bind'] at h
    by_cases hp : (s.adjacencyList.getD i default).excess > 0
    · rw [if_pos hp] at h
      obtain ⟨c1, h2, h⟩ := Option.bind_eq_some.mp h
      obtain ⟨s2, h3, h⟩ := Option.bind_eq_some.mp h
      have e1 := cursors_addToStrongBucket h3
      have e2 := ih _ _ _ h
      exact ⟨e2.1.trans e1.1, e2.2.trans e1.2⟩
    · rw [if_neg hp] at h
      simp only [Option.some_bind] at h
      have e := ih _ _ _ h
      exact e
  
theorem cursors_simpleInitialization {s s' : Session}
    (h : simpleInitialization s = some s') :
    s'.lowestStrongLabel = s.lowestStrongLabel ∧
    s'.highestStrongLabel = s.highestStrongLabel := by
  unfold simpleInitialization at h
  simp only [Option.bind_eq_bind'] at h
  obtain ⟨s1, h1, h⟩ := Option.bind_eq_some.mp h
  obtain ⟨s2, h2, h⟩ := Option.bind_eq_some.mp h
  obtain ⟨s3, h3, h⟩ := Option.bind_eq_some.mp h
  cases Option.some.inj h
  have e1 := cursors_siSourceLoop _ _ _ _ h1
  have e2 := cursors_siSinkLoop _ _ _ _ h2
  have e3 := cursors_siBucketLoop _ _ _ _ h3
  exact ⟨(e3.1.trans e2.1).trans e1.1, (e3.2.trans e2.2).trans e1.2⟩

/-- C6 (amended): the strong-label cursors are set to 1 by NewSession -
lowestStrongLabel in lowest-label mode, highestStrongLabel in
highest-label mode - while simpleInitialization leaves both cursors
exactly as it found them, so after initialization they equal 1 only on
a freshly created session. -/
theorem cursors_set_by_newSession_not_simpleInitialization :
    (∀ c : Ctx, c.lowestLabel = true → (newSession c).lowestStrongLabel = 1) ∧
    (∀ c : Ctx, c.lowestLabel = false → (newSession c).highestStrongLabel = 1) ∧
    (∀ s s' : Session, simpleInitialization s = some s' →
      s'.lowestStrongLabel = s.lowestStrongLabel ∧
      s'.highestStrongLabel = s.highestStrongLabel) := by
  refine ⟨?_, ?_, ?_⟩
  · intro c hc; simp [newSession, hc]
  · intro c hc; simp [newSession, hc]
  · intro s s' h; exact cursors_simpleInitialization h

/-- Witness for the amended C6 theorem at concrete inputs: a fresh
lowest-label session has lowestStrongLabel 1, and running
simpleInitialization on the stale session c6State preserves both
cursors (they stay 0 and 5 rather than becoming 1). -/
theorem cursors_set_by_newSession_witness :
    (newSession { lowestLabel := true, fifoBuckets := false, displayCut := false }).lowestStrongLabel = 1 ∧
    (((simpleInitialization c6State).getD c6State).lowestStrongLabel = c6State.lowestStrongLabel ∧
     ((simpleInitialization c6State).getD c6State).highestStrongLabel = c6State.highestStrongLabel) :=
  ⟨cursors_set_by_newSession_not_simpleInitialization.1 _ rfl,
   cursors_set_by_newSession_not_simpleInitialization.2.2 c6State
     ((simpleInitialization c6State).getD c6State) (by decide)⟩

/-! Arena access lemmas. -/

theorem length_upN (s : Session) (v : Nat) (f : NodeR → NodeR) :
    (s.upN v f).adjacencyList.length = s.adjacencyList.length := by
  unfold Session.upN
  simp

theorem nodeD_upN_ne (s : Session) (v w : Nat) (f : NodeR → NodeR)
    (hv : 1 ≤ v) (hw : 1 ≤ w) (hne : w ≠ v) :
    (s.upN v f).nodeD w = s.nodeD w := by
  unfold Session.upN Session.nodeD
  simp only [List.getD_eq_getD_get?]
  rw [List.get?_set_ne]
  omega

theorem nodeD_upN_self (s : Session) (v : Nat) (f : NodeR → NodeR)
    (hv : v - 1 < s.adjacencyList.length) :
    (s.upN v f).nodeD v = f (s.nodeD v) := by
  unfold Session.upN Session.nodeD
  simp only [List.getD_eq_getD_get?]
  rw [List.get?_set_eq_of_lt _ hv]
  simp

/-! Chain lemmas. -/

theorem chain_nil_iff (s : Session) (o : Option Nat) :
    isChainB s o [] = true ↔ o = none := by
  cases o <;> simp [isChainB]

theorem chain_cons_iff (s : Session) (o : Option Nat) (w : Nat) (l : List Nat) :
    isChainB s o (w :: l) = true ↔
      o = some w ∧ isChainB s (s.nodeD w).next l = true := by
  cases o with
  | none => simp [isChainB]
  | some v =>
    simp only [isChainB, Bool.and_eq_true, beq_iff_eq, Option.some.injEq]
    constructor
    · rintro ⟨rfl, h⟩; exact ⟨rfl, h⟩
    · rintro ⟨rfl, h⟩; exact ⟨rfl, h⟩

theorem isChainB_congr (s t : Session) : ∀ (l : List Nat) (o : Option Nat),
    (∀ v ∈ l, (t.nodeD v).next = (s.nodeD v).next) →
    (isChainB s o l = true → isChainB t o l = true) := by
  intro l
  induction l with
  | nil =>
    intro o _ h
    rw [chain_nil_iff] at h ⊢
    exact h
  | cons w rest ih =>
    intro o hn h
    rw [chain_cons_iff] at h ⊢
    obtain ⟨rfl, h⟩ := h
    refine ⟨rfl, ?_⟩
    rw [hn w (List.mem_cons_self _ _)]
    exact ih _ (fun v hv => hn v (List.mem_cons_of_mem _ hv)) h



theorem breakWalk_find : ∀ (pre' : List Nat) (p0 childId : Nat) (post : List Nat)
    (s : Session) (fuel : Nat),
    isChainB s (some p0) ((p0 :: pre') ++ childId :: post) = true →
    childId ∉ p0 :: pre' →
    pre'.length < fuel →
    breakWalk s childId fuel p0 = some ((p0 :: pre').getLast (List.cons_ne_nil p0 pre')) := by
  intro pre'
  induction pre' with
  | nil =>
    intro p0 childId post s fuel hch hni hfuel
    simp only [List.cons_append, List.nil_append] at hch
    rw [chain_cons_iff] at hch
    obtain ⟨-, hch⟩ := hch
    rw [chain_cons_iff] at hch
    obtain ⟨hnext, -⟩ := hch
    cases fuel with
    | zero => omega
    | succ fuel =>
      unfold breakWalk
      rw [hnext]
      simp
  | cons p1 pre'' ih =>
    intro p0 childId post s fuel hch hni hfuel
    simp only [List.cons_append, List.nil_append] at hch
    rw [chain_cons_iff] at hch
    obtain ⟨-, hch⟩ := hch
    have hnext : (s.nodeD p0).next = some p1 := by
      rw [chain_cons_iff] at hch
      exact hch.1
    cases fuel with
    | zero => omega
    | succ fuel =>
      unfold breakWalk
      rw [hnext]
      have hp1 : ¬ (p1 = childId) := by
        intro e
        exact hni (by simp [e])
      simp only [if_neg hp1]
      rw [hnext] at hch
      exact ih p1 childId post s fuel hch
        (fun hmem => hni (List.mem_cons_of_mem _ hmem)) (by simpa using hfuel)

theorem chain_remove : ∀ (pre' : List Nat) (p0 : Nat) (post : List Nat) (childId : Nat)
    (s t : Session),
    isChainB s (some p0) ((p0 :: pre') ++ childId :: post) = true →
    (p0 :: pre').Nodup →
    (∀ v ∈ p0 :: pre', v ≠ (p0 :: pre').getLast (List.cons_ne_nil p0 pre') →
      (t.nodeD v).next = (s.nodeD v).next) →
    (t.nodeD ((p0 :: pre').getLast (List.cons_ne_nil p0 pre'))).next = (s.nodeD childId).next →
    (∀ v ∈ post, (t.nodeD v).next = (s.nodeD v).next) →
    isChainB t (some p0) ((p0 :: pre') ++ post) = true := by
  intro pre'
  induction pre' with
  | nil =>
    intro p0 post childId s t hch hnd hpre hlast hpost
    simp only [List.cons_append, List.nil_append] at hch
    rw [chain_cons_iff] at hch
    obtain ⟨-, hch⟩ := hch
    rw [chain_cons_iff] at hch
    obtain ⟨h1, hch⟩ := hch
    simp only [List.cons_append, List.nil_append]
    rw [chain_cons_iff]
    refine ⟨rfl, ?_⟩
    have hl : (p0 :: ([] : List Nat)).getLast (List.cons_ne_nil p0 []) = p0 := rfl
    rw [hl] at hlast
    rw [hlast]
    exact isChainB_congr s t post _ hpost hch
  | cons p1 pre'' ih =>
    intro p0 post childId s t hch hnd hpre hlast hpost
    simp only [List.cons_append] at hch
    rw [chain_cons_iff] at hch
    obtain ⟨-, hch⟩ := hch
    have hnext : (s.nodeD p0).next = some p1 := by
      rw [chain_cons_iff] at hch
      exact hch.1
    simp only [List.cons_append]
    rw [chain_cons_iff]
    refine ⟨rfl, ?_⟩
    have hglast : ((p0 :: p1 :: pre'').getLast (List.cons_ne_nil _ _)) =
        ((p1 :: pre'').getLast (List.cons_ne_nil _ _)) :=
      List.getLast_cons (List.cons_ne_nil p1 pre'')
    have hp0nm : p0 ∉ p1 :: pre'' := (List.nodup_cons.mp hnd).1
    have hp0 : (t.nodeD p0).next = (s.nodeD p0).next := by
      apply hpre p0 (List.mem_cons_self _ _)
      rw [hglast]
      intro e
      exact hp0nm (e ▸ List.getLast_mem (List.cons_ne_nil p1 pre''))
    rw [hp0, hnext]
    rw [hnext] at hch
    refine ih p1 post childId s t hch (List.nodup_cons.mp hnd).2 ?_ ?_ hpost
    · intro v hv hvl
      apply hpre v (List.mem_cons_of_mem _ hv)
      rw [hglast]
      exact hvl
    · rw [hglast] at hlast
      exact hlast



theorem validN_upN (s : Session) (u : Nat) (f : NodeR → NodeR) (v : Nat) :
    validN (s.upN u f) v ↔ validN s v := by
  unfold validN
  rw [length_upN]

/-- Full specification of breakRelationship used by the C8 and C9
developments: child removed from the parent's child list, remaining
children kept in order, parent and next pointers of the child cleared,
all other nodes untouched except the child's predecessor. -/
theorem breakRelationship_spec (s : Session) (pid childId : Nat)
    (pre post : List Nat) (fuel : Nat)
    (hch : isChainB s ((s.nodeD pid).childList) (pre ++ childId :: post) = true)
    (hnd : (pre ++ childId :: post).Nodup)
    (hval : ∀ v ∈ pre ++ childId :: post, validN s v)
    (hpv : validN s pid)
    (hpnotin : pid ∉ pre ++ childId :: post)
    (hfuel : pre.length < fuel) :
    ∃ s', breakRelationship s pid childId fuel = some s' ∧
      isChainB s' ((s'.nodeD pid).childList) (pre ++ post) = true ∧
      (s'.nodeD childId).parent = none ∧
      (s'.nodeD childId).next = none ∧
      (∀ v, 1 ≤ v → v ≠ childId → v ≠ pid → v ∉ pre → s'.nodeD v = s.nodeD v) ∧
      (∀ v ∈ pre, pre.getLast? ≠ some v → s'.nodeD v = s.nodeD v) ∧
      s'.arcList = s.arcList ∧ s'.strongRoots = s.strongRoots ∧
      s'.labelCount = s.labelCount ∧ s'.stats = s.stats := by
  have hcv : validN s childId := hval childId (by simp)
  have hpc : pid ≠ childId := fun e => hpnotin (by simp [e])
  cases pre with
  | nil =>
    have hcl : (s.nodeD pid).childList = some childId :=
      ((chain_cons_iff _ _ _ _).mp hch).1
    have htail : isChainB s ((s.nodeD childId).next) post = true :=
      ((chain_cons_iff _ _ _ _).mp hch).2
    have hcnp : childId ∉ post := by
      have := List.nodup_cons.mp (by simpa using hnd)
      exact this.1
    refine ⟨((s.upN childId (fun c => { c with parent := none })).upN pid
        (fun p => { p with childList := (s.nodeD childId).next })).upN childId
        (fun c => { c with next := none }), ?_, ?_, ?_, ?_, ?_, ?_, rfl, rfl, rfl, rfl⟩
    · unfold breakRelationship
      have h1 : ((s.upN childId (fun c => { c with parent := none })).nodeD pid).childList
          = some childId := by
        rw [nodeD_upN_ne s childId pid _ hcv.1 hpv.1 hpc]
        exact hcl
      rw [if_pos h1]
      rw [nodeD_upN_self s childId _ hcv.2]
    · have hpl : ((((s.upN childId (fun c => { c with parent := none })).upN pid
          (fun p => { p with childList := (s.nodeD childId).next })).upN childId
          (fun c => { c with next := none })).nodeD pid).childList
          = (s.nodeD childId).next := by
        rw [nodeD_upN_ne _ childId pid _ hcv.1 hpv.1 hpc]
        rw [nodeD_upN_self _ pid _ (by rw [length_upN]; exact hpv.2)]
      rw [hpl]
      simp only [List.nil_append]
      apply isChainB_congr s _ post _ ?_ htail
      intro v hv
      have hv1 : validN s v := hval v (by simp [hv])
      have hvc : v ≠ childId := fun e => hcnp (e ▸ hv)
      have hvp : v ≠ pid := fun e => hpnotin (by simp [e ▸ hv])
      rw [nodeD_upN_ne _ childId v _ hcv.1 hv1.1 hvc,
          nodeD_upN_ne _ pid v _ hpv.1 hv1.1 hvp,
          nodeD_upN_ne _ childId v _ hcv.1 hv1.1 hvc]
    · rw [nodeD_upN_self _ childId _ (by rw [length_upN, length_upN]; exact hcv.2)]
      rw [nodeD_upN_ne _ pid childId _ hpv.1 hcv.1 (Ne.symm hpc)]
      rw [nodeD_upN_self _ childId _ hcv.2]
    · rw [nodeD_upN_self _ childId _ (by rw [length_upN, length_upN]; exact hcv.2)]
    · intro v h1v hvc hvp _
      rw [nodeD_upN_ne _ childId v _ hcv.1 h1v hvc,
          nodeD_upN_ne _ pid v _ hpv.1 h1v hvp,
          nodeD_upN_ne _ childId v _ hcv.1 h1v hvc]
    · intro v hv
      cases hv
  | cons p0 pre' =>
    have hcl : (s.nodeD pid).childList = some p0 :=
      ((chain_cons_iff _ _ _ _).mp hch).1
    have hdisj := List.nodup_append.mp hnd
    have hcnpre : childId ∉ p0 :: pre' := fun hm => hdisj.2.2 hm (by simp)
    have hndpre : (p0 :: pre').Nodup := hdisj.1
    have hpred_mem : (p0 :: pre').getLast (List.cons_ne_nil p0 pre') ∈ p0 :: pre' :=
      List.getLast_mem _
    have hpredv : validN s ((p0 :: pre').getLast (List.cons_ne_nil p0 pre')) :=
      hval _ (List.mem_append_left _ hpred_mem)
    have hpredc : (p0 :: pre').getLast (List.cons_ne_nil p0 pre') ≠ childId :=
      fun e => hcnpre (e ▸ hpred_mem)
    have hpredp : (p0 :: pre').getLast (List.cons_ne_nil p0 pre') ≠ pid :=
      fun e => hpnotin (e ▸ List.mem_append_left _ hpred_mem)
    -- the chain seen by the walk, after the parent pointer of childId is cleared
    have hch1 : isChainB (s.upN childId (fun c => { c with parent := none }))
        (some p0) ((p0 :: pre') ++ childId :: post) = true := by
      rw [hcl] at hch
      apply isChainB_congr s _ _ _ ?_ hch
      intro v hv
      by_cases hvc : v = childId
      · rw [hvc]
        rw [nodeD_upN_self s childId _ hcv.2]
      · have hv1 : validN s v := hval v hv
        rw [nodeD_upN_ne _ childId v _ hcv.1 hv1.1 hvc]
    have hwalk : breakWalk (s.upN childId (fun c => { c with parent := none }))
        childId fuel p0 = some ((p0 :: pre').getLast (List.cons_ne_nil p0 pre')) :=
      breakWalk_find pre' p0 childId post _ fuel hch1 hcnpre
        (by simp only [List.length_cons] at hfuel; omega)
    refine ⟨(((s.upN childId (fun c => { c with parent := none })).upN
        ((p0 :: pre').getLast (List.cons_ne_nil p0 pre'))
        (fun q => { q with next := (s.nodeD childId).next })).upN childId
        (fun c => { c with next := none })), ?_, ?_, ?_, ?_, ?_, ?_, rfl, rfl, rfl, rfl⟩
    · unfold breakRelationship
      have h1 : ((s.upN childId (fun c => { c with parent := none })).nodeD pid).childList
          = some p0 := by
        rw [nodeD_upN_ne s childId pid _ hcv.1 hpv.1 hpc]
        exact hcl
      have hp0c : ¬ ((s.upN childId (fun c => { c with parent := none })).nodeD pid).childList
          = some childId := by
        rw [h1]
        intro e
        exact hcnpre (by simp [Option.some.inj e])
      rw [if_neg hp0c]
      simp only [Option.bind_eq_bind']
      rw [h1]
      simp only [Option.some_bind]
      rw [hwalk]
      simp only [Option.some_bind]
      rw [nodeD_upN_self s childId _ hcv.2]
    · have hpl : ((((s.upN childId (fun c => { c with parent := none })).upN
          ((p0 :: pre').getLast (List.cons_ne_nil p0 pre'))
          (fun q => { q with next := (s.nodeD childId).next })).upN childId
          (fun c => { c with next := none })).nodeD pid).childList
          = some p0 := by
        rw [nodeD_upN_ne _ childId pid _ hcv.1 hpv.1 hpc,
            nodeD_upN_ne _ _ pid _ hpredv.1 hpv.1 (Ne.symm hpredp),
            nodeD_upN_ne _ childId pid _ hcv.1 hpv.1 hpc]
        exact hcl
      rw [hpl]
      rw [hcl] at hch
      apply chain_remove pre' p0 post childId s _ hch hndpre ?_ ?_ ?_
      · intro v hv hvl
        have hv1 : validN s v := hval v (List.mem_append_left _ hv)
        have hvc : v ≠ childId := fun e => hcnpre (e ▸ hv)
        rw [nodeD_upN_ne _ childId v _ hcv.1 hv1.1 hvc,
            nodeD_upN_ne _ _ v _ hpredv.1 hv1.1 hvl,
            nodeD_upN_ne _ childId v _ hcv.1 hv1.1 hvc]
      · rw [nodeD_upN_ne _ childId _ _ hcv.1 hpredv.1 hpredc,
            nodeD_upN_self _ _ _ (by rw [length_upN]; exact hpredv.2)]
      · intro v hv
        have hv1 : validN s v := hval v (by simp [hv])
        have hvc : v ≠ childId := by
          intro e
          subst e
          have := List.nodup_cons.mp hdisj.2.1
          exact this.1 hv
        have hvpred : v ≠ (p0 :: pre').getLast (List.cons_ne_nil p0 pre') := by
          intro e
          exact hdisj.2.2 (e ▸ hpred_mem) (by simp [hv])
        rw [nodeD_upN_ne _ childId v _ hcv.1 hv1.1 hvc,
            nodeD_upN_ne _ _ v _ hpredv.1 hv1.1 hvpred,
            nodeD_upN_ne _ childId v _ hcv.1 hv1.1 hvc]
    · rw [nodeD_upN_self _ childId _ (by rw [length_upN, length_upN]; exact hcv.2)]
      rw [nodeD_upN_ne _ _ childId _ hpredv.1 hcv.1 (Ne.symm hpredc),
          nodeD_upN_self _ childId _ hcv.2]
    · rw [nodeD_upN_self _ childId _ (by rw [length_upN, length_upN]; exact hcv.2)]
    · intro v h1v hvc hvp hvpre
      have hvpred : v ≠ (p0 :: pre').getLast (List.cons_ne_nil p0 pre') :=
        fun e => hvpre (e ▸ hpred_mem)
      rw [nodeD_upN_ne _ childId v _ hcv.1 h1v hvc,
          nodeD_upN_ne _ _ v _ hpredv.1 h1v hvpred,
          nodeD_upN_ne _ childId v _ hcv.1 h1v hvc]
    · intro v hv hvl
      have hv1 : validN s v := hval v (List.mem_append_left _ hv)
      have hvc : v ≠ childId := fun e => hcnpre (e ▸ hv)
      have hvpred : v ≠ (p0 :: pre').getLast (List.cons_ne_nil p0 pre') := by
        intro e
        apply hvl
        rw [e]
        exact (List.getLast?_eq_getLast _ _).symm ▸ rfl
      rw [nodeD_upN_ne _ childId v _ hcv.1 hv1.1 hvc,
          nodeD_upN_ne _ _ v _ hpredv.1 hv1.1 hvpred,
          nodeD_upN_ne _ childId v _ hcv.1 hv1.1 hvc]


theorem bucket?_eq (s : Session) (l : Nat) (h : l < s.strongRoots.length) :
    s.bucket? l = some (s.bucketD l) := by
  unfold Session.bucket? Session.bucketD
  rw [List.getD_eq_getElem _ _ h, List.get?_eq_getElem?, List.getElem?_eq_getElem h]

theorem bucketD_setBucket_self (s : Session) (l : Nat) (b : RootR)
    (h : l < s.strongRoots.length) :
    (s.setBucket l b).bucketD l = b := by
  unfold Session.setBucket Session.bucketD
  simp only [List.getD_eq_getD_get?]
  rw [List.get?_set_eq_of_lt _ h]
  simp

theorem bucketD_setBucket_ne (s : Session) (l m : Nat) (b : RootR) (h : m ≠ l) :
    (s.setBucket l b).bucketD m = s.bucketD m := by
  unfold Session.setBucket Session.bucketD
  simp only [List.getD_eq_getD_get?]
  rw [List.get?_set_ne]
  omega

theorem chain_snoc : ∀ (rest : List Nat) (v0 nid : Nat) (s t : Session),
    isChainB s (some v0) (v0 :: rest) = true →
    (v0 :: rest).Nodup →
    nid ∉ v0 :: rest →
    (∀ v ∈ v0 :: rest, v ≠ (v0 :: rest).getLast (List.cons_ne_nil v0 rest) →
      (t.nodeD v).next = (s.nodeD v).next) →
    (t.nodeD ((v0 :: rest).getLast (List.cons_ne_nil v0 rest))).next = some nid →
    (t.nodeD nid).next = none →
    isChainB t (some v0) ((v0 :: rest) ++ [nid]) = true := by
  intro rest
  induction rest with
  | nil =>
    intro v0 nid s t hch hnd hni hpre hlast hnid
    simp only [List.cons_append, List.nil_append]
    rw [chain_cons_iff]
    refine ⟨rfl, ?_⟩
    have hl : (v0 :: ([] : List Nat)).getLast (List.cons_ne_nil v0 []) = v0 := rfl
    rw [hl] at hlast
    rw [hlast, chain_cons_iff]
    refine ⟨rfl, ?_⟩
    rw [hnid, chain_nil_iff]
  | cons v1 rest' ih =>
    intro v0 nid s t hch hnd hni hpre hlast hnid
    rw [chain_cons_iff] at hch
    obtain ⟨-, hch⟩ := hch
    have hnext : (s.nodeD v0).next = some v1 := by
      rw [chain_cons_iff] at hch
      exact hch.1
    simp only [List.cons_append]
    rw [chain_cons_iff]
    refine ⟨rfl, ?_⟩
    have hglast : ((v0 :: v1 :: rest').getLast (List.cons_ne_nil _ _)) =
        ((v1 :: rest').getLast (List.cons_ne_nil _ _)) :=
      List.getLast_cons (List.cons_ne_nil v1 rest')
    have hv0nm : v0 ∉ v1 :: rest' := (List.nodup_cons.mp hnd).1
    have hv0 : (t.nodeD v0).next = (s.nodeD v0).next := by
      apply hpre v0 (List.mem_cons_self _ _)
      rw [hglast]
      intro e
      exact hv0nm (e ▸ List.getLast_mem (List.cons_ne_nil v1 rest'))
    rw [hv0, hnext]
    rw [hnext] at hch
    refine ih v1 nid s t hch (List.nodup_cons.mp hnd).2
      (fun hm => hni (List.mem_cons_of_mem _ hm)) ?_ ?_ hnid
    · intro v hv hvl
      apply hpre v (List.mem_cons_of_mem _ hv)
      rw [hglast]
      exact hvl
    · rw [hglast] at hlast
      exact hlast



theorem chain_none_nil (s : Session) (l1 : List Nat)
    (h : isChainB s none l1 = true) : l1 = [] := by
  cases l1 with
  | nil => rfl
  | cons w rest => simp [isChainB] at h

theorem chain_some_cons (s : Session) (v0 : Nat) (l1 : List Nat)
    (h : isChainB s (some v0) l1 = true) : ∃ rest, l1 = v0 :: rest := by
  cases l1 with
  | nil => simp [isChainB] at h
  | cons w rest =>
    rw [chain_cons_iff] at h
    exact ⟨rest, by rw [Option.some.inj h.1]⟩

theorem label_upN_next (s : Session) (u : Nat) (x : Option Nat) (v : Nat) :
    ((s.upN u (fun n => { n with next := x })).nodeD v).label = (s.nodeD v).label := by
  unfold Session.upN Session.nodeD
  simp only [List.getD_eq_getD_get?]
  by_cases h : u - 1 < s.adjacencyList.length
  · by_cases hv : v - 1 = u - 1
    · rw [hv, List.get?_set_eq_of_lt _ h, List.get?_eq_getElem?,
        List.getElem?_eq_getElem h]
      simp [List.getD_eq_getElem _ _ h]
    · rw [List.get?_set_ne]
      omega
  · rw [List.set_eq_of_length_le (by omega)]

/-- Behaviour of addToStrongBucket on a valid bucket: the node is
prepended (LIFO) or appended (FIFO) to the bucket's intrusive list, the
FIFO end pointer is maintained, no other node and no other bucket is
touched, and no node's label changes. -/
theorem addToStrongBucket_spec (s : Session) (nid lbl : Nat) (l1 : List Nat)
    (hlbl : lbl < s.strongRoots.length)
    (hnv : validN s nid)
    (hch : isChainB s ((s.bucketD lbl).start) l1 = true)
    (hnd : l1.Nodup)
    (hnin : nid ∉ l1)
    (hval1 : ∀ v ∈ l1, validN s v)
    (hend : s.ctx.fifoBuckets = true → l1 ≠ [] → (s.bucketD lbl).end_ = l1.getLast?) :
    ∃ s', addToStrongBucket s nid lbl = some s' ∧
      isChainB s' ((s'.bucketD lbl).start)
        (if s.ctx.fifoBuckets then l1 ++ [nid] else nid :: l1) = true ∧
      (s.ctx.fifoBuckets = true → (s'.bucketD lbl).end_ = (l1 ++ [nid]).getLast?) ∧
      (∀ v, 1 ≤ v → v ≠ nid → v ∉ l1 → s'.nodeD v = s.nodeD v) ∧
      (∀ v, (s'.nodeD v).label = (s.nodeD v).label) ∧
      (∀ m, m ≠ lbl → s'.bucketD m = s.bucketD m) ∧
      s'.adjacencyList.length = s.adjacencyList.length ∧
      s'.strongRoots.length = s.strongRoots.length ∧
      s'.arcList = s.arcList ∧ s'.labelCount = s.labelCount ∧
      s'.stats = s.stats ∧ s'.lowestStrongLabel = s.lowestStrongLabel ∧
      s'.highestStrongLabel = s.highestStrongLabel ∧ s'.ctx = s.ctx ∧
      s'.numNodes = s.numNodes := by
  have hb := bucket?_eq s lbl hlbl
  unfold addToStrongBucket
  simp only [Option.bind_eq_bind']
  rw [hb]
  simp only [Option.some_bind]
  by_cases hf : s.ctx.fifoBuckets
  · rw [if_pos hf]
    cases hstart : (s.bucketD lbl).start with
    | none =>
      have hl1 : l1 = [] := chain_none_nil s l1 (hstart ▸ hch)
      subst hl1
      refine ⟨_, rfl, ?_, ?_, ?_, ?_, ?_, by simp [Session.upN, Session.setBucket], by simp [Session.upN, Session.setBucket], rfl, rfl, rfl, rfl, rfl, rfl, rfl⟩
      · rw [if_pos hf]
        have hs : ((((s.setBucket lbl { (s.bucketD lbl) with start := some nid, end_ := some nid })).upN nid
            (fun n => { n with next := none })).bucketD lbl).start = some nid := by
          have : ((s.setBucket lbl { (s.bucketD lbl) with start := some nid, end_ := some nid }).upN nid
              (fun n => { n with next := none })).bucketD lbl
              = (s.setBucket lbl { (s.bucketD lbl) with start := some nid, end_ := some nid }).bucketD lbl := rfl
          rw [this, bucketD_setBucket_self _ _ _ hlbl]
        rw [hs]
        simp only [List.nil_append]
        rw [chain_cons_iff]
        refine ⟨rfl, ?_⟩
        rw [chain_nil_iff]
        show (((s.setBucket lbl { start := some nid, end_ := some nid }).upN nid
          (fun n => { n with next := none })).nodeD nid).next = none
        rw [nodeD_upN_self (s.setBucket lbl { start := some nid, end_ := some nid }) nid
          (fun n => { n with next := none }) hnv.2]
      · intro _
        have : ((s.setBucket lbl { (s.bucketD lbl) with start := some nid, end_ := some nid }).upN nid
            (fun n => { n with next := none })).bucketD lbl
            = (s.setBucket lbl { (s.bucketD lbl) with start := some nid, end_ := some nid }).bucketD lbl := rfl
        rw [this, bucketD_setBucket_self _ _ _ hlbl]
        rfl
      · intro v h1v hvn _
        rw [show ((s.setBucket lbl { (s.bucketD lbl) with start := some nid, end_ := some nid }).upN nid
            (fun n => { n with next := none })).nodeD v
            = ((s.setBucket lbl { (s.bucketD lbl) with start := some nid, end_ := some nid })).nodeD v
            from nodeD_upN_ne _ nid v _ hnv.1 h1v hvn]
        rfl
      · intro v
        exact label_upN_next _ nid none v
      · intro m hm
        have : ((s.setBucket lbl { (s.bucketD lbl) with start := some nid, end_ := some nid }).upN nid
            (fun n => { n with next := none })).bucketD m
            = (s.setBucket lbl { (s.bucketD lbl) with start := some nid, end_ := some nid }).bucketD m := rfl
        rw [this, bucketD_setBucket_ne _ _ _ _ hm]
    | some v0 =>
      obtain ⟨rest, hl1⟩ := chain_some_cons s v0 l1 (hstart ▸ hch)
      subst hl1
      have hendv : (s.bucketD lbl).end_ = some ((v0 :: rest).getLast (List.cons_ne_nil v0 rest)) := by
        rw [hend hf (List.cons_ne_nil v0 rest), List.getLast?_eq_getLast _ (List.cons_ne_nil v0 rest)]
      have hemem : (v0 :: rest).getLast (List.cons_ne_nil v0 rest) ∈ v0 :: rest :=
        List.getLast_mem _
      have hev : validN s ((v0 :: rest).getLast (List.cons_ne_nil v0 rest)) := hval1 _ hemem
      have hen : (v0 :: rest).getLast (List.cons_ne_nil v0 rest) ≠ nid :=
        fun e => hnin (e ▸ hemem)
      rw [hendv]
      simp only [Option.some_bind]
      refine ⟨_, rfl, ?_, ?_, ?_, ?_, ?_, by simp [Session.upN, Session.setBucket], by simp [Session.upN, Session.setBucket], rfl, rfl, rfl, rfl, rfl, rfl, rfl⟩
      · rw [if_pos hf]
        have hs : ((((s.upN ((v0 :: rest).getLast (List.cons_ne_nil v0 rest)) (fun e => { e with next := some nid })).setBucket lbl
            { ((s.upN ((v0 :: rest).getLast (List.cons_ne_nil v0 rest)) (fun e => { e with next := some nid })).bucketD lbl) with end_ := some nid }).upN nid
            (fun n => { n with next := none })).bucketD lbl).start = some v0 := by
          have h1 : (((s.upN ((v0 :: rest).getLast (List.cons_ne_nil v0 rest)) (fun e => { e with next := some nid })).setBucket lbl
              { ((s.upN ((v0 :: rest).getLast (List.cons_ne_nil v0 rest)) (fun e => { e with next := some nid })).bucketD lbl) with end_ := some nid }).upN nid
              (fun n => { n with next := none })).bucketD lbl
              = { ((s.upN ((v0 :: rest).getLast (List.cons_ne_nil v0 rest)) (fun e => { e with next := some nid })).bucketD lbl) with end_ := some nid } := by
            have h2 : ∀ t : Session, (t.upN nid (fun n => { n with next := none })).bucketD lbl = t.bucketD lbl := fun t => rfl
            rw [h2]
            exact bucketD_setBucket_self _ _ _ (by simpa [Session.upN] using hlbl)
          rw [h1]
          have h3 : (s.upN ((v0 :: rest).getLast (List.cons_ne_nil v0 rest)) (fun e => { e with next := some nid })).bucketD lbl = s.bucketD lbl := rfl
          rw [h3]
          exact hstart
        rw [hs]
        apply chain_snoc rest v0 nid s _ (hstart ▸ hch) hnd hnin ?_ ?_ ?_
        · intro v hv hvl
          have hv1 : validN s v := hval1 v hv
          have hvn : v ≠ nid := fun e => hnin (e ▸ hv)
          rw [show ∀ t : Session, (t.upN nid (fun n => { n with next := none })).nodeD v = t.nodeD v
              from fun t => nodeD_upN_ne t nid v _ hnv.1 hv1.1 hvn]
          rw [show ∀ (t : Session) b, (t.setBucket lbl b).nodeD v = t.nodeD v from fun t b => rfl]
          rw [nodeD_upN_ne s _ v _ hev.1 hv1.1 hvl]
        · rw [show ∀ t : Session, (t.upN nid (fun n => { n with next := none })).nodeD ((v0 :: rest).getLast (List.cons_ne_nil v0 rest)) = t.nodeD ((v0 :: rest).getLast (List.cons_ne_nil v0 rest))
              from fun t => nodeD_upN_ne t nid _ _ hnv.1 hev.1 hen]
          rw [show ∀ (t : Session) b, (t.setBucket lbl b).nodeD ((v0 :: rest).getLast (List.cons_ne_nil v0 rest)) = t.nodeD ((v0 :: rest).getLast (List.cons_ne_nil v0 rest)) from fun t b => rfl]
          rw [nodeD_upN_self s _ _ hev.2]
        · rw [nodeD_upN_self _ nid _ (by simpa [Session.setBucket, Session.upN] using hnv.2)]
      · intro _
        rw [show ∀ t : Session, (t.upN nid (fun n => { n with next := none })).bucketD lbl = t.bucketD lbl from fun t => rfl]
        rw [bucketD_setBucket_self _ _ _ (by simpa [Session.upN] using hlbl)]
        rw [List.getLast?_concat]
      · intro v h1v hvn hvl
        have hvnl : v ≠ (v0 :: rest).getLast (List.cons_ne_nil v0 rest) :=
          fun e => hvl (e ▸ hemem)
        rw [show ∀ t : Session, (t.upN nid (fun n => { n with next := none })).nodeD v = t.nodeD v
            from fun t => nodeD_upN_ne t nid v _ hnv.1 h1v hvn]
        rw [show ∀ (t : Session) b, (t.setBucket lbl b).nodeD v = t.nodeD v from fun t b => rfl]
        rw [nodeD_upN_ne s _ v _ hev.1 h1v hvnl]
      · intro v
        rw [show ∀ (t : Session) (x : Option Nat), ((t.upN nid (fun n => { n with next := x })).nodeD v).label = (t.nodeD v).label from fun t x => label_upN_next t nid x v]
        rw [show ∀ (t : Session) b, (t.setBucket lbl b).nodeD v = t.nodeD v from fun t b => rfl]
        exact label_upN_next s _ (some nid) v
      · intro m hm
        rw [show ∀ t : Session, (t.upN nid (fun n => { n with next := none })).bucketD m = t.bucketD m from fun t => rfl]
        rw [bucketD_setBucket_ne _ _ _ _ hm]
        rfl
  · rw [if_neg hf]
    refine ⟨_, rfl, ?_, ?_, ?_, ?_, ?_, by simp [Session.upN, Session.setBucket], by simp [Session.upN, Session.setBucket], rfl, rfl, rfl, rfl, rfl, rfl, rfl⟩
    · rw [if_neg hf]
      have hs : (((s.upN nid (fun n => { n with next := (s.bucketD lbl).start })).setBucket lbl
          { ((s.upN nid (fun n => { n with next := (s.bucketD lbl).start })).bucketD lbl) with start := some nid }).bucketD lbl).start = some nid := by
        rw [bucketD_setBucket_self _ _ _ (by simpa [Session.upN] using hlbl)]
      rw [hs]
      rw [chain_cons_iff]
      constructor
      · rfl
      · have h4 : ∀ (t : Session) b, (t.setBucket lbl b).nodeD nid = t.nodeD nid := fun t b => rfl
        rw [h4, nodeD_upN_self s nid _ hnv.2]
        apply isChainB_congr s _ l1 _ ?_ hch
        intro v hv
        have hv1 : validN s v := hval1 v hv
        have hvn : v ≠ nid := fun e => hnin (e ▸ hv)
        rw [show ∀ (t : Session) b, (t.setBucket lbl b).nodeD v = t.nodeD v from fun t b => rfl]
        rw [nodeD_upN_ne s nid v _ hnv.1 hv1.1 hvn]
    · intro hcontra
      exact absurd hcontra hf
    · intro v h1v hvn _
      rw [show ∀ (t : Session) b, (t.setBucket lbl b).nodeD v = t.nodeD v from fun t b => rfl]
      rw [nodeD_upN_ne s nid v _ hnv.1 h1v hvn]
    · intro v
      rw [show ∀ (t : Session) b, (t.setBucket lbl b).nodeD v = t.nodeD v from fun t b => rfl]
      exact label_upN_next s nid _ v
    · intro m hm
      rw [bucketD_setBucket_ne _ _ _ _ hm]
      rfl

theorem lc?_eq (s : Session) (l : Nat) (h : l < s.labelCount.length) :
    s.lc? l = some (s.lcD l) := by
  unfold Session.lc? Session.lcD
  rw [List.getD_eq_getElem _ _ h, List.get?_eq_getElem?, List.getElem?_eq_getElem h]

theorem lcD_lcSet_self (s : Session) (l x : Nat) (h : l < s.labelCount.length) :
    (s.lcSet l x).lcD l = x := by
  unfold Session.lcSet Session.lcD
  simp only [List.getD_eq_getD_get?]
  rw [List.get?_set_eq_of_lt _ h]
  simp

theorem lcD_lcSet_ne (s : Session) (l m x : Nat) (h : m ≠ l) :
    (s.lcSet l x).lcD m = s.lcD m := by
  unfold Session.lcSet Session.lcD
  simp only [List.getD_eq_getD_get?]
  rw [List.get?_set_ne]
  omega

/-- Behaviour of the bucket-0 promotion loop of getLowestStrongRoot on a
valid state: every node of bucket 0 is relabelled to 1 and re-inserted
into bucket 1 (prepended under LIFO, appended under FIFO), bucket 0 is
left empty, labelCount[0] drops and labelCount[1] rises by the number
of promoted nodes, the relabels counter rises by the same number, and
no other node's label changes. -/
theorem glsrZeroDrain_spec : ∀ (l : List Nat) (s : Session) (l1 : List Nat) (fuel : Nat),
    isChainB s ((s.bucketD 0).start) l = true →
    isChainB s ((s.bucketD 1).start) l1 = true →
    l.Nodup → l1.Nodup → l.Disjoint l1 →
    (∀ v ∈ l, validN s v) → (∀ v ∈ l1, validN s v) →
    1 < s.strongRoots.length →
    1 < s.labelCount.length →
    (s.ctx.fifoBuckets = true → l1 ≠ [] → (s.bucketD 1).end_ = l1.getLast?) →
    l.length ≤ s.lcD 0 →
    l.length < fuel →
    ∃ s', glsrZeroDrain s fuel = some s' ∧
      (s'.bucketD 0).start = none ∧
      (∀ v ∈ l, (s'.nodeD v).label = 1) ∧
      s'.lcD 0 = s.lcD 0 - l.length ∧
      s'.lcD 1 = s.lcD 1 + l.length ∧
      s'.stats.relabels = s.stats.relabels + l.length ∧
      isChainB s' ((s'.bucketD 1).start)
        (if s.ctx.fifoBuckets then l1 ++ l else l.reverse ++ l1) = true ∧
      (∀ v, 1 ≤ v → v ∉ l → (s'.nodeD v).label = (s.nodeD v).label) := by
  intro l
  induction l with
  | nil =>
    intro s l1 fuel hch0 hch1 hnd hnd1 hdisj hval hval1 hsr hlc hend hcount hfuel
    cases fuel with
    | zero => omega
    | succ fuel =>
      have hstart : (s.bucketD 0).start = none := by
        cases hs : (s.bucketD 0).start with
        | none => rfl
        | some w => rw [hs] at hch0; simp [isChainB] at hch0
      refine ⟨s, ?_, ?_, ?_, ?_, ?_, ?_, ?_, ?_⟩
      · unfold glsrZeroDrain
        simp only [Option.bind_eq_bind']
        rw [bucket?_eq s 0 (by omega)]
        simp only [Option.some_bind]
        simp only [hstart]
      · exact hstart
      · intro v hv; cases hv
      · simp
      · simp
      · simp
      · by_cases hf : s.ctx.fifoBuckets
        · rw [if_pos hf]; simpa using hch1
        · rw [if_neg hf]; simpa using hch1
      · intro v _ _; rfl
  | cons v rest ih =>
    intro s l1 fuel hch0 hch1 hnd hnd1 hdisj hval hval1 hsr hlc hend hcount hfuel
    cases fuel with
    | zero => simp at hfuel
    | succ fuel =>
      have hvv : validN s v := hval v (List.mem_cons_self _ _)
      have hvrest : v ∉ rest := (List.nodup_cons.mp hnd).1
      have hvl1 : v ∉ l1 := fun hm => hdisj (List.mem_cons_self _ _) hm
      have hstart : (s.bucketD 0).start = some v := ((chain_cons_iff _ _ _ _).mp hch0).1
      have htail : isChainB s ((s.nodeD v).next) rest = true := ((chain_cons_iff _ _ _ _).mp hch0).2
      have hvv1 : validN s v := hvv
      -- name the state reached after pop, relabel and counter updates
      set F := (((((s.setBucket 0 { start := (s.nodeD v).next, end_ := (s.bucketD 0).end_ }).upN v
          (fun n => { n with next := none })).upN v (fun n => { n with label := 1 })).lcSet 0
          (s.lcD 0 - 1)).lcSet 1 (s.lcD 1 + 1)).bumpRelabels with hFdef
      have hFctx : F.ctx = s.ctx := by rw [hFdef]; rfl
      have hFstats : F.stats.relabels = s.stats.relabels + 1 := by rw [hFdef]; rfl
      have hFlen : F.adjacencyList.length = s.adjacencyList.length := by
        rw [hFdef]; simp [Session.setBucket, Session.upN, Session.lcSet, Session.bumpRelabels]
      have hFsr : F.strongRoots.length = s.strongRoots.length := by
        rw [hFdef]; simp [Session.setBucket, Session.upN, Session.lcSet, Session.bumpRelabels]
      have hFlclen : F.labelCount.length = s.labelCount.length := by
        rw [hFdef]; simp [Session.setBucket, Session.upN, Session.lcSet, Session.bumpRelabels]
      have hFlcD0 : F.lcD 0 = s.lcD 0 - 1 := by
        rw [hFdef]
        show (((((s.setBucket 0 { start := (s.nodeD v).next, end_ := (s.bucketD 0).end_ }).upN v
          (fun n => { n with next := none })).upN v (fun n => { n with label := 1 })).lcSet 0
          (s.lcD 0 - 1)).lcSet 1 (s.lcD 1 + 1)).lcD 0 = s.lcD 0 - 1
        rw [lcD_lcSet_ne _ 1 0 _ (by omega), lcD_lcSet_self _ 0 _
          (by simp [Session.setBucket, Session.upN]; omega)]
      have hFlcD1 : F.lcD 1 = s.lcD 1 + 1 := by
        rw [hFdef]
        show (((((s.setBucket 0 { start := (s.nodeD v).next, end_ := (s.bucketD 0).end_ }).upN v
          (fun n => { n with next := none })).upN v (fun n => { n with label := 1 })).lcSet 0
          (s.lcD 0 - 1)).lcSet 1 (s.lcD 1 + 1)).lcD 1 = s.lcD 1 + 1
        rw [lcD_lcSet_self _ 1 _ (by simp [Session.setBucket, Session.upN, Session.lcSet]; omega)]
      have hFnodeD : ∀ w, 1 ≤ w → w ≠ v → F.nodeD w = s.nodeD w := by
        intro w h1w hwv
        rw [hFdef]
        show (((s.setBucket 0 { start := (s.nodeD v).next, end_ := (s.bucketD 0).end_ }).upN v
          (fun n => { n with next := none })).upN v (fun n => { n with label := 1 })).nodeD w
          = s.nodeD w
        rw [nodeD_upN_ne _ v w _ hvv.1 h1w hwv, nodeD_upN_ne _ v w _ hvv.1 h1w hwv]
        rfl
      have hFlabel : (F.nodeD v).label = 1 := by
        rw [hFdef]
        show ((((s.setBucket 0 { start := (s.nodeD v).next, end_ := (s.bucketD 0).end_ }).upN v
          (fun n => { n with next := none })).upN v (fun n => { n with label := 1 })).nodeD v).label = 1
        rw [nodeD_upN_self ((s.setBucket 0 { start := (s.nodeD v).next, end_ := (s.bucketD 0).end_ }).upN v
          (fun n => { n with next := none })) v _ (by simpa [Session.upN, Session.setBucket] using hvv.2)]
      have hFbucket0 : F.bucketD 0 = { start := (s.nodeD v).next, end_ := (s.bucketD 0).end_ } := by
        rw [hFdef]
        show (s.setBucket 0 { start := (s.nodeD v).next, end_ := (s.bucketD 0).end_ }).bucketD 0 = _
        exact bucketD_setBucket_self _ _ _ (by omega)
      have hFbucket1 : F.bucketD 1 = s.bucketD 1 := by
        rw [hFdef]
        show (s.setBucket 0 { start := (s.nodeD v).next, end_ := (s.bucketD 0).end_ }).bucketD 1 = _
        exact bucketD_setBucket_ne _ _ _ _ (by omega)
      -- insert v into bucket 1 of F
      obtain ⟨s1, heqIns, hchain1, hend1, hframe1, hlabels1, hbucketsNe1, hlen1, hsrlen1,
          harc1, hlc1, hstats1, hlow1, hhigh1, hctx1, hnum1⟩ :=
        addToStrongBucket_spec F v 1 l1
          (by rw [hFsr]; omega)
          (by unfold validN; rw [hFlen]; exact hvv)
          (by rw [hFbucket1]
              exact isChainB_congr s F l1 _
                (fun w hw => by rw [hFnodeD w (hval1 w hw).1 (fun e => hvl1 (e ▸ hw))]) hch1)
          hnd1 hvl1
          (fun w hw => by unfold validN; rw [hFlen]; exact hval1 w hw)
          (fun hcf hne => by
            rw [hFctx] at hcf
            rw [hFbucket1]
            exact hend hcf hne)
      rw [hFctx] at hchain1 hend1
      -- facts about s1 needed for the induction hypothesis
      have hlens1 : s1.adjacencyList.length = s.adjacencyList.length := by rw [hlen1, hFlen]
      have hsrs1 : s1.strongRoots.length = s.strongRoots.length := by rw [hsrlen1, hFsr]
      have hlcs1 : s1.labelCount.length = s.labelCount.length := by rw [hlc1, hFlclen]
      have hlcD0s1 : s1.lcD 0 = s.lcD 0 - 1 := by
        show (s1.labelCount.getD 0 0) = s.lcD 0 - 1
        rw [hlc1]
        exact hFlcD0
      have hlcD1s1 : s1.lcD 1 = s.lcD 1 + 1 := by
        show (s1.labelCount.getD 1 0) = s.lcD 1 + 1
        rw [hlc1]
        exact hFlcD1
      have hrels1 : s1.stats.relabels = s.stats.relabels + 1 := by rw [hstats1, hFstats]
      have hb0s1 : (s1.bucketD 0).start = (s.nodeD v).next := by
        rw [hbucketsNe1 0 (by omega), hFbucket0]
      have hch0s1 : isChainB s1 ((s1.bucketD 0).start) rest = true := by
        rw [hb0s1]
        apply isChainB_congr s s1 rest _ ?_ htail
        intro w hw
        have hw1 : validN s w := hval w (List.mem_cons_of_mem _ hw)
        have hwv : w ≠ v := fun e => hvrest (e ▸ hw)
        have hwl1 : w ∉ l1 := fun hm => hdisj (List.mem_cons_of_mem _ hw) hm
        rw [hframe1 w hw1.1 hwv hwl1, hFnodeD w hw1.1 hwv]
      have hlabels1v : (s1.nodeD v).label = 1 := by rw [hlabels1 v, hFlabel]
      have hlabelsOther : ∀ w, 1 ≤ w → w ≠ v → (s1.nodeD w).label = (s.nodeD w).label := by
        intro w h1w hwv
        rw [hlabels1 w]
        rw [hFnodeD w h1w hwv]
      have hvalid1 : ∀ w, validN s w → validN s1 w := by
        intro w hw
        unfold validN at hw ⊢
        rw [hlens1]
        exact hw
      -- the goal equation, reduced to the recursive call on s1
      have hgoalEq : ∀ t : Session, glsrZeroDrain s1 fuel = some t →
          glsrZeroDrain s (fuel + 1) = some t := by
        intro t ht
        unfold glsrZeroDrain
        simp only [Option.bind_eq_bind']
        rw [bucket?_eq s 0 (by omega)]
        simp only [Option.some_bind]
        simp only [hstart]
        rw [show ((((s.setBucket 0 { start := (s.nodeD v).next, end_ := (s.bucketD 0).end_ }).upN v
          (fun n => { n with next := none })).upN v (fun n => { n with label := 1 })).lc? 0)
          = some (s.lcD 0) from by
            rw [show ((((s.setBucket 0 { start := (s.nodeD v).next, end_ := (s.bucketD 0).end_ }).upN v
              (fun n => { n with next := none })).upN v (fun n => { n with label := 1 })).lc? 0)
              = s.lc? 0 from rfl]
            exact lc?_eq s 0 (by omega)]
        simp only [Option.some_bind]
        rw [show (((((s.setBucket 0 { start := (s.nodeD v).next, end_ := (s.bucketD 0).end_ }).upN v
          (fun n => { n with next := none })).upN v (fun n => { n with label := 1 })).lcSet 0
          (s.lcD 0 - 1)).lc? 1) = some (s.lcD 1) from by
            rw [show (((((s.setBucket 0 { start := (s.nodeD v).next, end_ := (s.bucketD 0).end_ }).upN v
              (fun n => { n with next := none })).upN v (fun n => { n with label := 1 })).lcSet 0
              (s.lcD 0 - 1)).lc? 1)
              = ((s.lcSet 0 (s.lcD 0 - 1)).lc? 1) from rfl]
            rw [show ((s.lcSet 0 (s.lcD 0 - 1)).lc? 1) = s.lc? 1 from by
              unfold Session.lcSet Session.lc?
              rw [List.get?_set_ne]
              omega]
            exact lc?_eq s 1 (by omega)]
        simp only [Option.some_bind]
        rw [← hFdef, hFlabel, heqIns]
        simp only [Option.some_bind]
        exact ht
      by_cases hf : s.ctx.fifoBuckets = true
      · rw [if_pos hf] at hchain1
        obtain ⟨s', heq', hb0', hlab1', hlc0', hlc1', hrel', hchain', hlabpres'⟩ :=
          ih s1 (l1 ++ [v]) fuel hch0s1 hchain1
            (List.nodup_cons.mp hnd).2
            (by rw [List.nodup_append]
                exact ⟨hnd1, List.nodup_singleton v,
                  fun a ha hav => hvl1 ((List.mem_singleton.mp hav) ▸ ha)⟩)
            (by intro a ha hmem
                rcases List.mem_append.mp hmem with h | h
                · exact hdisj (List.mem_cons_of_mem _ ha) h
                · exact hvrest ((List.mem_singleton.mp h) ▸ ha))
            (fun w hw => hvalid1 w (hval w (List.mem_cons_of_mem _ hw)))
            (fun w hw => by
              rcases List.mem_append.mp hw with h | h
              · exact hvalid1 w (hval1 w h)
              · exact hvalid1 w ((List.mem_singleton.mp h) ▸ hvv))
            (by rw [hsrs1]; omega)
            (by rw [hlcs1]; omega)
            (fun hcf hne => by
              rw [hctx1, hFctx] at hcf
              exact hend1 hcf)
            (by rw [hlcD0s1]; simp at hcount ⊢; omega)
            (by simp at hfuel ⊢; omega)
        refine ⟨s', hgoalEq s' heq', hb0', ?_, ?_, ?_, ?_, ?_, ?_⟩
        · intro w hw
          rcases List.mem_cons.mp hw with h | h
          · rw [h, hlabpres' v hvv.1 hvrest, hlabels1v]
          · exact hlab1' w h
        · rw [hlc0', hlcD0s1]
          simp only [List.length_cons]
          omega
        · rw [hlc1', hlcD1s1]
          simp only [List.length_cons]
          omega
        · rw [hrel', hrels1]
          simp only [List.length_cons]
          omega
        · rw [if_pos hf]
          rw [hctx1, hFctx] at hchain'
          rw [if_pos hf] at hchain'
          rw [List.append_assoc, List.singleton_append] at hchain'
          exact hchain'
        · intro w h1w hwm
          have hwv : w ≠ v := fun e => hwm (e ▸ List.mem_cons_self _ _)
          have hwrest : w ∉ rest := fun hm => hwm (List.mem_cons_of_mem _ hm)
          rw [hlabpres' w h1w hwrest, hlabelsOther w h1w hwv]
      · rw [if_neg hf] at hchain1
        obtain ⟨s', heq', hb0', hlab1', hlc0', hlc1', hrel', hchain', hlabpres'⟩ :=
          ih s1 (v :: l1) fuel hch0s1 hchain1
            (List.nodup_cons.mp hnd).2
            (List.nodup_cons.mpr ⟨hvl1, hnd1⟩)
            (by intro a ha hmem
                rcases List.mem_cons.mp hmem with h | h
                · exact hvrest (h ▸ ha)
                · exact hdisj (List.mem_cons_of_mem _ ha) h)
            (fun w hw => hvalid1 w (hval w (List.mem_cons_of_mem _ hw)))
            (fun w hw => by
              rcases List.mem_cons.mp hw with h | h
              · exact hvalid1 w (h ▸ hvv)
              · exact hvalid1 w (hval1 w h))
            (by rw [hsrs1]; omega)
            (by rw [hlcs1]; omega)
            (fun hcf hne => by
              rw [hctx1, hFctx] at hcf
              exact absurd hcf hf)
            (by rw [hlcD0s1]; simp at hcount ⊢; omega)
            (by simp at hfuel ⊢; omega)
        refine ⟨s', hgoalEq s' heq', hb0', ?_, ?_, ?_, ?_, ?_, ?_⟩
        · intro w hw
          rcases List.mem_cons.mp hw with h | h
          · rw [h, hlabpres' v hvv.1 hvrest, hlabels1v]
          · exact hlab1' w h
        · rw [hlc0', hlcD0s1]
          simp only [List.length_cons]
          omega
        · rw [hlc1', hlcD1s1]
          simp only [List.length_cons]
          omega
        · rw [hrel', hrels1]
          simp only [List.length_cons]
          omega
        · rw [if_neg hf]
          rw [hctx1, hFctx] at hchain'
          rw [if_neg hf] at hchain'
          rw [List.reverse_cons, List.append_assoc, List.singleton_append]
          exact hchain'
        · intro w h1w hwm
          have hwv : w ≠ v := fun e => hwm (e ▸ List.mem_cons_self _ _)
          have hwrest : w ∉ rest := fun hm => hwm (List.mem_cons_of_mem _ hm)
          rw [hlabpres' w h1w hwrest, hlabelsOther w h1w hwv]



/-- Gap behaviour of the upward scan of getLowestStrongRoot: if the
first non-empty bucket at or above i sits at level i0 and
labelCount[i0-1] is zero, the scan sets lowestStrongLabel to i0, bumps
the gaps counter and returns none. -/
theorem glsrScan_gap (s : Session) (i0 rid : Nat)
    (hi0lt : i0 < s.numNodes)
    (hsr : s.numNodes ≤ s.strongRoots.length)
    (hbne : (s.bucketD i0).start = some rid)
    (hlc0 : s.lc? (i0 - 1) = some 0) :
    ∀ (fuel i : Nat), i ≤ i0 →
      (∀ j, i ≤ j → j < i0 → (s.bucketD j).start = none) →
      i0 - i < fuel →
      glsrScan s i fuel = some (none, ({ s with lowestStrongLabel := i0 }).bumpGaps) := by
  intro fuel
  induction fuel with
  | zero => intro i h1 h2 h3; omega
  | succ fuel ih =>
    intro i hii0 hempty hfuel
    unfold glsrScan
    rw [if_pos (show i < s.numNodes by omega)]
    simp only [Option.bind_eq_bind']
    rw [bucket?_eq s i (by omega)]
    simp only [Option.some_bind]
    by_cases hi : i = i0
    · subst hi
      simp only [hbne]
      rw [show ({ s with lowestStrongLabel := i } : Session).lc? (i - 1) = some 0 from hlc0]
      simp only [Option.some_bind]
      simp
    · have hbe : (s.bucketD i).start = none := hempty i (le_refl _) (by omega)
      simp only [hbe]
      exact ih (i + 1) (by omega) (fun j hj1 hj2 => hempty j (by omega) hj2) (by omega)

/-- C5 (amended): a call to getLowestStrongRoot promotes bucket 0 only
when lowestStrongLabel is 0 - in that case every node of bucket 0 is
relabelled to 1 (labelCount[0], labelCount[1] and the relabels counter
each adjusted once per node) and re-inserted into bucket 1 before the
upward scan starts at 1; when lowestStrongLabel is at least 1 the
promotion is skipped entirely and the call goes straight to the scan.
If the first non-empty bucket found at level i0 has
labelCount[i0-1] = 0, the gaps counter is incremented and none is
returned. -/
theorem getLowestStrongRoot_promotion_and_gap :
    (∀ (s : Session) (fuel : Nat), s.lowestStrongLabel ≠ 0 →
      getLowestStrongRoot s fuel = glsrScan s s.lowestStrongLabel fuel) ∧
    (∀ (s : Session) (fuel : Nat) (l l1 : List Nat),
      s.lowestStrongLabel = 0 →
      isChainB s ((s.bucketD 0).start) l = true →
      isChainB s ((s.bucketD 1).start) l1 = true →
      l.Nodup → l1.Nodup → l.Disjoint l1 →
      (∀ v ∈ l, validN s v) → (∀ v ∈ l1, validN s v) →
      1 < s.strongRoots.length → 1 < s.labelCount.length →
      (s.ctx.fifoBuckets = true → l1 ≠ [] → (s.bucketD 1).end_ = l1.getLast?) →
      l.length ≤ s.lcD 0 → l.length < fuel →
      ∃ s2, glsrZeroDrain s fuel = some s2 ∧
        getLowestStrongRoot s fuel = glsrScan { s2 with lowestStrongLabel := 1 } 1 fuel ∧
        (s2.bucketD 0).start = none ∧
        (∀ v ∈ l, (s2.nodeD v).label = 1) ∧
        s2.lcD 0 = s.lcD 0 - l.length ∧
        s2.lcD 1 = s.lcD 1 + l.length ∧
        s2.stats.relabels = s.stats.relabels + l.length ∧
        isChainB s2 ((s2.bucketD 1).start)
          (if s.ctx.fifoBuckets then l1 ++ l else l.reverse ++ l1) = true) ∧
    (∀ (s : Session) (fuel i0 rid : Nat),
      1 ≤ s.lowestStrongLabel →
      s.lowestStrongLabel ≤ i0 → i0 < s.numNodes →
      s.numNodes ≤ s.strongRoots.length →
      (∀ j, s.lowestStrongLabel ≤ j → j < i0 → (s.bucketD j).start = none) →
      (s.bucketD i0).start = some rid →
      s.lc? (i0 - 1) = some 0 →
      i0 - s.lowestStrongLabel < fuel →
      getLowestStrongRoot s fuel
        = some (none, ({ s with lowestStrongLabel := i0 }).bumpGaps)) := by
  have hskip : ∀ (s : Session) (fuel : Nat), s.lowestStrongLabel ≠ 0 →
      getLowestStrongRoot s fuel = glsrScan s s.lowestStrongLabel fuel := by
    intro s fuel h
    unfold getLowestStrongRoot
    rw [if_neg h]
    rfl
  refine ⟨hskip, ?_, ?_⟩
  · intro s fuel l l1 h0 hch0 hch1 hnd hnd1 hdisj hval hval1 hsr hlc hend hcount hfuel
    obtain ⟨s2, heq, hb0, hlab, hlc0, hlc1, hrel, hchain, -⟩ :=
      glsrZeroDrain_spec l s l1 fuel hch0 hch1 hnd hnd1 hdisj hval hval1 hsr hlc hend
        hcount hfuel
    refine ⟨s2, heq, ?_, hb0, hlab, hlc0, hlc1, hrel, hchain⟩
    unfold getLowestStrongRoot
    rw [if_pos h0]
    simp only [Option.bind_eq_bind']
    rw [heq]
    simp only [Option.some_bind]
    rfl
  · intro s fuel i0 rid h1 hle hi0lt hsr hempty hbne hlc0 hfuel
    rw [hskip s fuel (by omega)]
    exact glsrScan_gap s i0 rid hi0lt hsr hbne hlc0 fuel s.lowestStrongLabel hle hempty hfuel



/-- Witness for the amended C5 theorem: the skip clause on c5State
(cursor already 1), the promotion clause on c5bState (cursor 0, node 2
in bucket 0), and the gap clause on c5cState (first non-empty bucket at
level 2 with labelCount[1] = 0). -/
theorem getLowestStrongRoot_promotion_and_gap_witness :
    (getLowestStrongRoot c5State 10 = glsrScan c5State c5State.lowestStrongLabel 10) ∧
    (∃ s2, glsrZeroDrain c5bState 10 = some s2 ∧
        getLowestStrongRoot c5bState 10 = glsrScan { s2 with lowestStrongLabel := 1 } 1 10 ∧
        (s2.bucketD 0).start = none ∧
        (∀ v ∈ ([2] : List Nat), (s2.nodeD v).label = 1) ∧
        s2.lcD 0 = c5bState.lcD 0 - ([2] : List Nat).length ∧
        s2.lcD 1 = c5bState.lcD 1 + ([2] : List Nat).length ∧
        s2.stats.relabels = c5bState.stats.relabels + ([2] : List Nat).length ∧
        isChainB s2 ((s2.bucketD 1).start)
          (if c5bState.ctx.fifoBuckets then ([] : List Nat) ++ [2]
           else ([2] : List Nat).reverse ++ []) = true) ∧
    (getLowestStrongRoot c5cState 10
      = some (none, ({ c5cState with lowestStrongLabel := 2 }).bumpGaps)) :=
  ⟨getLowestStrongRoot_promotion_and_gap.1 c5State 10 (by decide),
   getLowestStrongRoot_promotion_and_gap.2.1 c5bState 10 [2] [] (by decide) (by decide)
     (by decide) (by decide) (by decide) (by intro a ha hb; cases hb) (by decide)
     (by intro v hv; cases hv) (by decide) (by decide) (by decide) (by decide) (by decide),
   getLowestStrongRoot_promotion_and_gap.2.2 c5cState 10 2 2 (by decide) (by decide)
     (by decide) (by decide)
     (by intro j hj1 hj2
         have h1j : (1 : Nat) ≤ j := hj1
         have hj : j = 1 := by omega
         rw [hj]
         decide)
     (by decide) (by decide) (by decide)⟩


/-- liftAll on an isolated node (no children, no parent): the node's
label is raised to numNodes and labelCount at its old label is
decremented. -/
theorem liftAll_leaf (s : Session) (v : Nat) (fuel : Nat)
    (hv : validN s v)
    (hcl : (s.nodeD v).childList = none)
    (hpar : (s.nodeD v).parent = none)
    (hlab : (s.nodeD v).label < s.labelCount.length)
    (hfuel : 1 ≤ fuel) :
    liftAll s v fuel = some
      (((s.upN v (fun c => { c with nextScan := c.childList })).lcSet
        (((s.upN v (fun c => { c with nextScan := c.childList })).nodeD v).label)
        (s.lcD (s.nodeD v).label - 1)).upN v
        (fun c => { c with label :=
          ((s.upN v (fun c => { c with nextScan := c.childList })).lcSet
            (((s.upN v (fun c => { c with nextScan := c.childList })).nodeD v).label)
            (s.lcD (s.nodeD v).label - 1)).numNodes })) := by
  have hlabA : (((s.upN v (fun c => { c with nextScan := c.childList })).nodeD v)).label
      = (s.nodeD v).label := by
    rw [nodeD_upN_self s v _ hv.2]
  unfold liftAll
  simp only [Option.bind_eq_bind']
  rw [show ((s.upN v (fun c => { c with nextScan := c.childList })).lc?
      (((s.upN v (fun c => { c with nextScan := c.childList })).nodeD v).label))
      = some (s.lcD (s.nodeD v).label) from by
    rw [hlabA]
    exact lc?_eq s _ hlab]
  simp only [Option.some_bind]
  -- remaining: liftAllLoop on the fully updated state returns it unchanged
  cases fuel with
  | zero => omega
  | succ fuel =>
    unfold liftAllLoop
    rw [show ((((s.upN v (fun c => { c with nextScan := c.childList })).lcSet
        (((s.upN v (fun c => { c with nextScan := c.childList })).nodeD v).label)
        (s.lcD (s.nodeD v).label - 1)).upN v
        (fun c => { c with label :=
          ((s.upN v (fun c => { c with nextScan := c.childList })).lcSet
            (((s.upN v (fun c => { c with nextScan := c.childList })).nodeD v).label)
            (s.lcD (s.nodeD v).label - 1)).numNodes })).nodeD v).nextScan = none from by
      rw [nodeD_upN_self ((s.upN v (fun c => { c with nextScan := c.childList })).lcSet
        (((s.upN v (fun c => { c with nextScan := c.childList })).nodeD v).label)
        (s.lcD (s.nodeD v).label - 1)) v _ (by simpa [Session.upN, Session.lcSet] using hv.2)]
      show (((s.upN v (fun c => { c with nextScan := c.childList })).nodeD v)).nextScan = none
      rw [nodeD_upN_self s v _ hv.2]
      exact hcl]
    rw [show ((((s.upN v (fun c => { c with nextScan := c.childList })).lcSet
        (((s.upN v (fun c => { c with nextScan := c.childList })).nodeD v).label)
        (s.lcD (s.nodeD v).label - 1)).upN v
        (fun c => { c with label :=
          ((s.upN v (fun c => { c with nextScan := c.childList })).lcSet
            (((s.upN v (fun c => { c with nextScan := c.childList })).nodeD v).label)
            (s.lcD (s.nodeD v).label - 1)).numNodes })).nodeD v).parent = none from by
      rw [nodeD_upN_self ((s.upN v (fun c => { c with nextScan := c.childList })).lcSet
        (((s.upN v (fun c => { c with nextScan := c.childList })).nodeD v).label)
        (s.lcD (s.nodeD v).label - 1)) v _ (by simpa [Session.upN, Session.lcSet] using hv.2)]
      show (((s.upN v (fun c => { c with nextScan := c.childList })).nodeD v)).parent = none
      rw [nodeD_upN_self s v _ hv.2]
      exact hpar]

theorem liftAll_leaf2 (s : Session) (v : Nat) (fuel : Nat)
    (hv : validN s v)
    (hcl : (s.nodeD v).childList = none)
    (hpar : (s.nodeD v).parent = none)
    (hlab : (s.nodeD v).label < s.labelCount.length)
    (hfuel : 1 ≤ fuel) :
    liftAll s v fuel = some (liftLeaf s v) := by
  rw [liftAll_leaf s v fuel hv hcl hpar hlab hfuel]
  rfl

theorem liftLeaf_nodeD_ne (s : Session) (v w : Nat)
    (h1v : 1 ≤ v) (h1w : 1 ≤ w) (hwv : w ≠ v) :
    (liftLeaf s v).nodeD w = s.nodeD w := by
  unfold liftLeaf
  rw [nodeD_upN_ne _ v w _ h1v h1w hwv]
  show (s.upN v (fun c => { c with nextScan := c.childList })).nodeD w = s.nodeD w
  rw [nodeD_upN_ne _ v w _ h1v h1w hwv]

theorem liftLeaf_label_self (s : Session) (v : Nat)
    (hv : v - 1 < s.adjacencyList.length) :
    ((liftLeaf s v).nodeD v).label = s.numNodes := by
  unfold liftLeaf
  rw [nodeD_upN_self ((s.upN v (fun c => { c with nextScan := c.childList })).lcSet
    (((s.upN v (fun c => { c with nextScan := c.childList })).nodeD v).label)
    (s.lcD (s.nodeD v).label - 1)) v _
    (by simpa [Session.upN, Session.lcSet] using hv)]
  rfl

theorem liftLeaf_len (s : Session) (v : Nat) :
    (liftLeaf s v).adjacencyList.length = s.adjacencyList.length := by
  unfold liftLeaf
  rw [length_upN]
  show (s.upN v (fun c => { c with nextScan := c.childList })).adjacencyList.length = _
  rw [length_upN]

theorem liftLeaf_lc_len (s : Session) (v : Nat) :
    (liftLeaf s v).labelCount.length = s.labelCount.length := by
  unfold liftLeaf
  simp [Session.upN, Session.lcSet]

theorem drainStep_bucketD_self (s : Session) (i v : Nat)
    (h : i < s.strongRoots.length) :
    (drainStep s i v).bucketD i
      = { start := (s.nodeD v).next, end_ := (s.bucketD i).end_ } := by
  unfold drainStep
  exact bucketD_setBucket_self (s.bumpGaps) i _ h

theorem drainStep_sr_len (s : Session) (i v : Nat) :
    (drainStep s i v).strongRoots.length = s.strongRoots.length := by
  unfold drainStep
  simp [Session.setBucket, Session.bumpGaps]

/-- ghsrDrain on a bucket of isolated strong roots: each popped node
costs one gaps increment and is lifted to label numNodes, the bucket
ends empty, and every other node's label is untouched. -/
theorem ghsrDrain_leaf_spec : ∀ (l : List Nat) (s : Session) (i fuel : Nat),
    isChainB s ((s.bucketD i).start) l = true →
    l.Nodup →
    (∀ v ∈ l, validN s v) →
    (∀ v ∈ l, (s.nodeD v).childList = none) →
    (∀ v ∈ l, (s.nodeD v).parent = none) →
    (∀ v ∈ l, (s.nodeD v).label < s.labelCount.length) →
    i < s.strongRoots.length →
    l.length < fuel →
    ∃ s', ghsrDrain s i fuel = some s' ∧
      s'.stats.gaps = s.stats.gaps + l.length ∧
      (∀ v ∈ l, (s'.nodeD v).label = s.numNodes) ∧
      (s'.bucketD i).start = none ∧
      (∀ w, 1 ≤ w → w ∉ l → (s'.nodeD w).label = (s.nodeD w).label) := by
  intro l
  induction l with
  | nil =>
    intro s i fuel hch hnd hval hcl hpar hlab hsr hfuel
    cases fuel with
    | zero => omega
    | succ fuel =>
      have hstart : (s.bucketD i).start = none := (chain_nil_iff s _).mp hch
      refine ⟨s, ?_, by simp, ?_, hstart, ?_⟩
      · unfold ghsrDrain
        simp only [Option.bind_eq_bind']
        rw [bucket?_eq s i hsr]
        simp only [Option.some_bind]
        simp only [hstart]
      · intro v hv; cases hv
      · intro w _ _; rfl
  | cons v rest ih =>
    intro s i fuel hch hnd hval hcl hpar hlab hsr hfuel
    cases fuel with
    | zero => simp at hfuel
    | succ fuel =>
      have hvv : validN s v := hval v (List.mem_cons_self _ _)
      have hvrest : v ∉ rest := (List.nodup_cons.mp hnd).1
      have hstart : (s.bucketD i).start = some v := ((chain_cons_iff _ _ _ _).mp hch).1
      have htail : isChainB s ((s.nodeD v).next) rest = true :=
        ((chain_cons_iff _ _ _ _).mp hch).2
      have hlift : liftAll (drainStep s i v) v fuel = some (liftLeaf (drainStep s i v) v) := by
        refine liftAll_leaf2 (drainStep s i v) v fuel ?_ ?_ ?_ ?_
          (by simp only [List.length_cons] at hfuel; omega)
        · exact hvv
        · exact hcl v (List.mem_cons_self _ _)
        · exact hpar v (List.mem_cons_self _ _)
        · exact hlab v (List.mem_cons_self _ _)
      -- frame facts about the state after the pop and the lift
      have hCnode : ∀ w, 1 ≤ w → w ≠ v →
          ((liftLeaf (drainStep s i v) v).nodeD w) = s.nodeD w := by
        intro w h1w hwv
        rw [liftLeaf_nodeD_ne (drainStep s i v) v w hvv.1 h1w hwv]
        rfl
      have hClabel : (((liftLeaf (drainStep s i v) v).nodeD v)).label = s.numNodes := by
        rw [liftLeaf_label_self (drainStep s i v) v hvv.2]
        rfl
      have hClen : (liftLeaf (drainStep s i v) v).adjacencyList.length
          = s.adjacencyList.length := by
        rw [liftLeaf_len]
        rfl
      have hClc : (liftLeaf (drainStep s i v) v).labelCount.length
          = s.labelCount.length := by
        rw [liftLeaf_lc_len]
        rfl
      have hCsr : (liftLeaf (drainStep s i v) v).strongRoots.length
          = s.strongRoots.length := by
        show (drainStep s i v).strongRoots.length = s.strongRoots.length
        rw [drainStep_sr_len]
      have hCbucket : ((liftLeaf (drainStep s i v) v).bucketD i).start
          = (s.nodeD v).next := by
        show ((drainStep s i v).bucketD i).start = (s.nodeD v).next
        rw [drainStep_bucketD_self s i v hsr]
      obtain ⟨s', heq, hgaps, hlabs, hempty, hframe⟩ :=
        ih (liftLeaf (drainStep s i v) v) i fuel
          (by rw [hCbucket]
              exact isChainB_congr s (liftLeaf (drainStep s i v) v) rest _
                (fun w hw => by
                  rw [hCnode w (hval w (List.mem_cons_of_mem _ hw)).1
                    (fun e => hvrest (e ▸ hw))]) htail)
          (List.nodup_cons.mp hnd).2
          (fun w hw => by
            unfold validN
            rw [hClen]
            exact hval w (List.mem_cons_of_mem _ hw))
          (fun w hw => by
            rw [hCnode w (hval w (List.mem_cons_of_mem _ hw)).1 (fun e => hvrest (e ▸ hw))]
            exact hcl w (List.mem_cons_of_mem _ hw))
          (fun w hw => by
            rw [hCnode w (hval w (List.mem_cons_of_mem _ hw)).1 (fun e => hvrest (e ▸ hw))]
            exact hpar w (List.mem_cons_of_mem _ hw))
          (fun w hw => by
            rw [hCnode w (hval w (List.mem_cons_of_mem _ hw)).1 (fun e => hvrest (e ▸ hw)),
              hClc]
            exact hlab w (List.mem_cons_of_mem _ hw))
          (by rw [hCsr]; exact hsr)
          (by simp only [List.length_cons] at hfuel; omega)
      refine ⟨s', ?_, ?_, ?_, hempty, ?_⟩
      · unfold ghsrDrain
        simp only [Option.bind_eq_bind']
        rw [bucket?_eq s i hsr]
        simp only [Option.some_bind]
        simp only [hstart]
        show Option.bind (liftAll (drainStep s i v) v fuel)
          (fun s2 => ghsrDrain s2 i fuel) = some s'
        rw [hlift]
        simp only [Option.some_bind]
        exact heq
      · rw [hgaps]
        show s.stats.gaps + 1 + rest.length = s.stats.gaps + (v :: rest).length
        simp only [List.length_cons]
        omega
      · intro w hw
        rcases List.mem_cons.mp hw with hwv | hwrest
        · rw [hwv]
          rw [hframe v hvv.1 hvrest]
          exact hClabel
        · rw [hlabs w hwrest]
          rfl
      · intro w h1w hnotin
        have hwv : w ≠ v := fun e => hnotin (e ▸ List.mem_cons_self _ _)
        have hwrest : w ∉ rest := fun hm => hnotin (List.mem_cons_of_mem _ hm)
        rw [hframe w h1w hwrest, hCnode w h1w hwv]

theorem ghsrScan_gap_step (s : Session) (i rid : Nat) (fuel : Nat)
    (hi : i ≠ 0)
    (hsr : i < s.strongRoots.length)
    (hbne : (s.bucketD i).start = some rid)
    (hlc : s.lc? (i - 1) = some 0) :
    ghsrScan s i (fuel + 1)
      = (ghsrDrain { s with highestStrongLabel := i } i fuel).bind
          (fun s2 => ghsrScan s2 (i - 1) fuel) := by
  set rhs := (ghsrDrain { s with highestStrongLabel := i } i fuel).bind
    (fun s2 => ghsrScan s2 (i - 1) fuel) with hrhs
  unfold ghsrScan
  rw [if_neg hi]
  simp only [Option.bind_eq_bind']
  rw [bucket?_eq s i hsr]
  simp only [Option.some_bind]
  simp only [hbne]
  rw [show ({ s with highestStrongLabel := i } : Session).lc? (i - 1) = some 0 from hlc]
  simp only [Option.some_bind]
  rw [if_neg (by omega : ¬ (0:Nat) < 0)]



theorem nodeD_upN_cases (s : Session) (u v : Nat) (f : NodeR → NodeR) :
    (s.upN u f).nodeD v = s.nodeD v ∨ (s.upN u f).nodeD v = f (s.nodeD v) := by
  unfold Session.upN Session.nodeD
  simp only [List.getD_eq_getD_get?]
  by_cases h : v - 1 = u - 1
  · by_cases hlt : u - 1 < s.adjacencyList.length
    · right
      rw [h, List.get?_set_eq_of_lt _ hlt]
      simp
    · left
      rw [List.set_eq_of_length_le (by omega)]
  · left
    rw [List.get?_set_ne]
    omega

theorem nextEq_upN (s : Session) (u v : Nat) (f : NodeR → NodeR)
    (hf : ∀ n, ∃ nx, f n = { n with next := nx }) :
    ∃ nx, (s.upN u f).nodeD v = { s.nodeD v with next := nx } := by
  rcases nodeD_upN_cases s u v f with h | h
  · exact ⟨(s.nodeD v).next, by rw [h]⟩
  · obtain ⟨nx, he⟩ := hf (s.nodeD v)
    exact ⟨nx, by rw [h, he]⟩

theorem treeEq_upN (s : Session) (u v : Nat) (f : NodeR → NodeR)
    (hf : ∀ n, ∃ nx cl pr, f n = { n with next := nx, childList := cl, parent := pr }) :
    ∃ nx cl pr, (s.upN u f).nodeD v
      = { s.nodeD v with next := nx, childList := cl, parent := pr } := by
  rcases nodeD_upN_cases s u v f with h | h
  · exact ⟨(s.nodeD v).next, (s.nodeD v).childList, (s.nodeD v).parent, by rw [h]⟩
  · obtain ⟨nx, cl, pr, he⟩ := hf (s.nodeD v)
    exact ⟨nx, cl, pr, by rw [h, he]⟩

theorem breakRelationship_core (s : Session) (pid childId : Nat) (fuel : Nat)
    (s' : Session) (h : breakRelationship s pid childId fuel = some s') :
    (∀ v, ∃ nx cl pr, s'.nodeD v
      = { s.nodeD v with next := nx, childList := cl, parent := pr }) ∧
    s'.arcList = s.arcList ∧ s'.strongRoots = s.strongRoots ∧
    s'.labelCount = s.labelCount ∧ s'.stats = s.stats ∧ s'.ctx = s.ctx ∧
    s'.lowestStrongLabel = s.lowestStrongLabel ∧
    s'.highestStrongLabel = s.highestStrongLabel ∧ s'.numNodes = s.numNodes ∧
    s'.adjacencyList.length = s.adjacencyList.length := by
  unfold breakRelationship at h
  by_cases hcl : ((s.upN childId (fun c => { c with parent := none })).nodeD pid).childList
      = some childId
  · rw [if_pos hcl] at h
    cases Option.some.inj h
    refine ⟨?_, rfl, rfl, rfl, rfl, rfl, rfl, rfl, rfl,
      by rw [length_upN, length_upN, length_upN]⟩
    intro v
    obtain ⟨n1, c1, p1, h1⟩ := treeEq_upN s childId v _
      (fun n => ⟨n.next, n.childList, none, rfl⟩)
    obtain ⟨n2, c2, p2, h2⟩ := treeEq_upN (s.upN childId (fun c => { c with parent := none }))
      pid v _ (fun n => ⟨n.next,
        ((s.upN childId (fun c => { c with parent := none })).nodeD childId).next, n.parent, rfl⟩)
    obtain ⟨n3, c3, p3, h3⟩ := treeEq_upN ((s.upN childId (fun c => { c with parent := none })).upN
      pid (fun p => { p with childList :=
        ((s.upN childId (fun c => { c with parent := none })).nodeD childId).next }))
      childId v _ (fun n => ⟨none, n.childList, n.parent, rfl⟩)
    rw [h2, h1] at h3
    exact ⟨n3, c3, p3, h3⟩
  · rw [if_neg hcl] at h
    simp only [Option.bind_eq_bind'] at h
    obtain ⟨cur0, hcur, h⟩ := Option.bind_eq_some.mp h
    obtain ⟨pred, hpred, h⟩ := Option.bind_eq_some.mp h
    cases Option.some.inj h
    refine ⟨?_, rfl, rfl, rfl, rfl, rfl, rfl, rfl, rfl,
      by rw [length_upN, length_upN, length_upN]⟩
    intro v
    obtain ⟨n1, c1, p1, h1⟩ := treeEq_upN s childId v _
      (fun n => ⟨n.next, n.childList, none, rfl⟩)
    obtain ⟨n2, c2, p2, h2⟩ := treeEq_upN (s.upN childId (fun c => { c with parent := none }))
      pred v _ (fun n => ⟨((s.upN childId (fun c => { c with parent := none })).nodeD
        childId).next, n.childList, n.parent, rfl⟩)
    obtain ⟨n3, c3, p3, h3⟩ := treeEq_upN ((s.upN childId (fun c => { c with parent := none })).upN
      pred (fun q => { q with next :=
        ((s.upN childId (fun c => { c with parent := none })).nodeD childId).next }))
      childId v _ (fun n => ⟨none, n.childList, n.parent, rfl⟩)
    rw [h2, h1] at h3
    exact ⟨n3, c3, p3, h3⟩

theorem addToStrongBucket_core (s : Session) (nid lbl : Nat) (s' : Session)
    (h : addToStrongBucket s nid lbl = some s') :
    (∀ v, ∃ nx, s'.nodeD v = { s.nodeD v with next := nx }) ∧
    s'.arcList = s.arcList ∧ s'.labelCount = s.labelCount ∧
    s'.stats = s.stats ∧ s'.ctx = s.ctx ∧
    s'.lowestStrongLabel = s.lowestStrongLabel ∧
    s'.highestStrongLabel = s.highestStrongLabel ∧ s'.numNodes = s.numNodes ∧
    s'.adjacencyList.length = s.adjacencyList.length ∧
    s'.strongRoots.length = s.strongRoots.length := by
  unfold addToStrongBucket at h
  simp only [Option.bind_eq_bind'] at h
  obtain ⟨b, hb, h⟩ := Option.bind_eq_some.mp h
  by_cases hf : s.ctx.fifoBuckets
  · rw [if_pos hf] at h
    cases hbs : b.start with
    | none =>
      rw [hbs] at h
      cases Option.some.inj h
      refine ⟨?_, rfl, rfl, rfl, rfl, rfl, rfl, rfl,
        by simp [Session.upN, Session.setBucket],
        by simp [Session.upN, Session.setBucket]⟩
      intro v
      obtain ⟨nx, h1⟩ := nextEq_upN (s.setBucket lbl { b with start := some nid, end_ := some nid })
        nid v _ (fun n => ⟨none, rfl⟩)
      exact ⟨nx, h1⟩
    | some v0 =>
      rw [hbs] at h
      simp only [Option.bind_eq_bind'] at h
      obtain ⟨e, he, h⟩ := Option.bind_eq_some.mp h
      cases Option.some.inj h
      refine ⟨?_, rfl, rfl, rfl, rfl, rfl, rfl, rfl,
        by simp [Session.upN, Session.setBucket],
        by simp [Session.upN, Session.setBucket]⟩
      intro v
      obtain ⟨n1, h1⟩ := nextEq_upN s e v _ (fun n => ⟨some nid, rfl⟩)
      obtain ⟨n2, h2⟩ := nextEq_upN ((s.upN e (fun q => { q with next := some nid })).setBucket lbl
        { ((s.upN e (fun q => { q with next := some nid })).bucketD lbl) with end_ := some nid })
        nid v _ (fun n => ⟨none, rfl⟩)
      rw [show ((s.upN e (fun q => { q with next := some nid })).setBucket lbl
        { ((s.upN e (fun q => { q with next := some nid })).bucketD lbl) with end_ := some nid }).nodeD v
        = (s.upN e (fun q => { q with next := some nid })).nodeD v from rfl, h1] at h2
      exact ⟨n2, h2⟩
  · rw [if_neg hf] at h
    cases Option.some.inj h
    refine ⟨?_, rfl, rfl, rfl, rfl, rfl, rfl, rfl,
      by simp [Session.upN, Session.setBucket],
      by simp [Session.upN, Session.setBucket]⟩
    intro v
    obtain ⟨nx, h1⟩ := nextEq_upN s nid v _ (fun n => ⟨b.start, rfl⟩)
    exact ⟨nx, h1⟩

theorem arcD_upArc_self (s : Session) (i : Nat) (f : ArcR → ArcR)
    (h : i < s.arcList.length) :
    (s.upArc i f).arcD i = f (s.arcD i) := by
  unfold Session.upArc Session.setArc Session.arcD
  simp only [List.getD_eq_getD_get?]
  rw [List.get?_set_eq_of_lt _ h]
  simp

theorem arcD_upArc_ne (s : Session) (i j : Nat) (f : ArcR → ArcR) (h : j ≠ i) :
    (s.upArc i f).arcD j = s.arcD j := by
  unfold Session.upArc Session.setArc Session.arcD
  simp only [List.getD_eq_getD_get?]
  rw [List.get?_set_ne]
  omega

theorem addOutOfTreeNode_eq (s : Session) (nid aid : Nat)
    (h : (s.nodeD nid).numberOutOfTree < (s.nodeD nid).outOfTree.length) :
    addOutOfTreeNode s nid aid = some
      ((s.upN nid (fun n => { n with outOfTree := n.outOfTree.set n.numberOutOfTree aid })).upN
        nid (fun n => { n with numberOutOfTree := n.numberOutOfTree + 1 })) := by
  unfold addOutOfTreeNode
  rw [if_pos h]

theorem bucketInsert_final (u : Session) (childId parentId : Nat)
    (pre post lb : List Nat)
    (hcv : validN u childId)
    (h1p : 1 ≤ parentId)
    (hpc : parentId ≠ childId)
    (hlbl : (u.nodeD childId).label < u.strongRoots.length)
    (hbch : isChainB u ((u.bucketD ((u.nodeD childId).label)).start) lb = true)
    (hndlb : lb.Nodup)
    (hcnlb : childId ∉ lb)
    (hplb : parentId ∉ lb)
    (hvlb : ∀ v ∈ lb, validN u v)
    (hend : u.ctx.fifoBuckets = true → lb ≠ [] →
      (u.bucketD ((u.nodeD childId).label)).end_ = lb.getLast?)
    (hchain : isChainB u ((u.nodeD parentId).childList) (pre ++ post) = true)
    (hppvalid : ∀ v ∈ pre ++ post, validN u v)
    (hppc : childId ∉ pre ++ post)
    (hpplb : ∀ v ∈ pre ++ post, v ∉ lb) :
    ∃ s', addToStrongBucket u childId ((u.nodeD childId).label) = some s' ∧
      s'.nodeD parentId = u.nodeD parentId ∧
      (s'.nodeD childId).excess = (u.nodeD childId).excess ∧
      (s'.nodeD childId).parent = (u.nodeD childId).parent ∧
      (s'.nodeD childId).label = (u.nodeD childId).label ∧
      isChainB s' ((s'.nodeD parentId).childList) (pre ++ post) = true ∧
      isChainB s' ((s'.bucketD ((u.nodeD childId).label)).start)
        (if u.ctx.fifoBuckets then lb ++ [childId] else childId :: lb) = true ∧
      s'.arcList = u.arcList ∧ s'.stats = u.stats := by
  obtain ⟨s', heq, hchainb, hendb, hframe, hlabels, hbne, hlen, hsrlen, harc, hlc, hstats,
    hlow, hhigh, hctx, hnum⟩ :=
    addToStrongBucket_spec u childId ((u.nodeD childId).label) lb hlbl hcv hbch hndlb hcnlb
      hvlb hend
  obtain ⟨hcoreN, -⟩ := addToStrongBucket_core u childId _ s' heq
  have hPn : s'.nodeD parentId = u.nodeD parentId := hframe parentId h1p hpc hplb
  refine ⟨s', heq, hPn, ?_, ?_, hlabels childId, ?_, hchainb, harc, hstats⟩
  · obtain ⟨nx, he⟩ := hcoreN childId
    rw [he]
  · obtain ⟨nx, he⟩ := hcoreN childId
    rw [he]
  · rw [hPn]
    apply isChainB_congr u s' (pre ++ post) _ ?_ hchain
    intro v hv
    rw [hframe v (hppvalid v hv).1 (fun e => hppc (e ▸ hv)) (hpplb v hv)]

theorem pushTail_spec (t : Session) (aid childId parentId : Nat)
    (pre post lb : List Nat) (fuel : Nat)
    (hcv : validN t childId)
    (hpv : validN t parentId)
    (hslot : (t.nodeD parentId).numberOutOfTree < (t.nodeD parentId).outOfTree.length)
    (hch : isChainB t ((t.nodeD parentId).childList) (pre ++ childId :: post) = true)
    (hnd : (pre ++ childId :: post).Nodup)
    (hval : ∀ v ∈ pre ++ childId :: post, validN t v)
    (hpnotin : parentId ∉ pre ++ childId :: post)
    (hlbl : (t.nodeD childId).label < t.strongRoots.length)
    (hbch : isChainB t ((t.bucketD ((t.nodeD childId).label)).start) lb = true)
    (hndlb : lb.Nodup)
    (hdisj : lb.Disjoint (pre ++ childId :: post))
    (hplb : parentId ∉ lb)
    (hvlb : ∀ v ∈ lb, validN t v)
    (hend : t.ctx.fifoBuckets = true → lb ≠ [] →
      (t.bucketD ((t.nodeD childId).label)).end_ = lb.getLast?)
    (hfuel : pre.length < fuel) :
    ∃ s', pushTail t aid childId parentId fuel = some s' ∧
      (s'.nodeD parentId).excess = (t.nodeD parentId).excess ∧
      (s'.nodeD childId).excess = (t.nodeD childId).excess ∧
      (s'.nodeD childId).parent = none ∧
      isChainB s' ((s'.nodeD parentId).childList) (pre ++ post) = true ∧
      (s'.nodeD parentId).numberOutOfTree = (t.nodeD parentId).numberOutOfTree + 1 ∧
      (s'.nodeD parentId).outOfTree
        = (t.nodeD parentId).outOfTree.set ((t.nodeD parentId).numberOutOfTree) aid ∧
      isChainB s' ((s'.bucketD ((t.nodeD childId).label)).start)
        (if t.ctx.fifoBuckets then lb ++ [childId] else childId :: lb) = true ∧
      s'.arcList = t.arcList ∧ s'.stats = t.stats ∧
      (s'.nodeD childId).label = (t.nodeD childId).label := by
  have hpc : parentId ≠ childId := fun e => hpnotin (e ▸ (by simp : childId ∈ pre ++ childId :: post))
  have hcmem : childId ∈ pre ++ childId :: post := by simp
  have hcnlb : childId ∉ lb := fun hm => hdisj hm hcmem
  -- step 1: the out-of-tree slot
  have heqA := addOutOfTreeNode_eq t parentId aid hslot
  have hAnodeP : ((t.upN parentId (fun n => { n with outOfTree := n.outOfTree.set n.numberOutOfTree aid })).upN parentId
      (fun n => { n with numberOutOfTree := n.numberOutOfTree + 1 })).nodeD parentId
      = { t.nodeD parentId with
          outOfTree := (t.nodeD parentId).outOfTree.set ((t.nodeD parentId).numberOutOfTree) aid,
          numberOutOfTree := (t.nodeD parentId).numberOutOfTree + 1 } := by
    rw [nodeD_upN_self _ parentId _ (by rw [length_upN]; exact hpv.2),
        nodeD_upN_self t parentId _ hpv.2]
  have hAnode : ∀ v, 1 ≤ v → v ≠ parentId →
      ((t.upN parentId (fun n => { n with outOfTree := n.outOfTree.set n.numberOutOfTree aid })).upN parentId
        (fun n => { n with numberOutOfTree := n.numberOutOfTree + 1 })).nodeD v
      = t.nodeD v := by
    intro v h1v hvp
    rw [nodeD_upN_ne _ parentId v _ hpv.1 h1v hvp, nodeD_upN_ne _ parentId v _ hpv.1 h1v hvp]
  have hAlen : ((t.upN parentId (fun n => { n with outOfTree := n.outOfTree.set n.numberOutOfTree aid })).upN parentId
      (fun n => { n with numberOutOfTree := n.numberOutOfTree + 1 })).adjacencyList.length
      = t.adjacencyList.length := by
    rw [length_upN, length_upN]
  -- step 2: break the tree edge
  obtain ⟨s6, heqB, hchB, hparB, hnextB, hframeB, hframepreB, harcB, hsrB, hlcB, hstatsB⟩ :=
    breakRelationship_spec ((t.upN parentId (fun n => { n with outOfTree := n.outOfTree.set n.numberOutOfTree aid })).upN parentId
      (fun n => { n with numberOutOfTree := n.numberOutOfTree + 1 }))
      parentId childId pre post fuel
      (by rw [show (((t.upN parentId (fun n => { n with outOfTree := n.outOfTree.set n.numberOutOfTree aid })).upN parentId
            (fun n => { n with numberOutOfTree := n.numberOutOfTree + 1 })).nodeD
            parentId).childList = (t.nodeD parentId).childList from by rw [hAnodeP]]
          apply isChainB_congr t _ (pre ++ childId :: post) _ ?_ hch
          intro v hv
          rw [hAnode v (hval v hv).1 (fun e => hpnotin (e ▸ hv))])
      hnd
      (fun v hv => by
        unfold validN
        rw [hAlen]
        exact hval v hv)
      (by unfold validN; rw [hAlen]; exact hpv)
      hpnotin hfuel
  obtain ⟨hcoreB, harcB2, hsrB2, hlcB2, hstatsB2, hctxB, hlowB, hhighB, hnumB, hlenB⟩ :=
    breakRelationship_core _ parentId childId fuel s6 heqB
  -- facts about s6 relative to t
  have hlen6 : s6.adjacencyList.length = t.adjacencyList.length := by
    rw [hlenB, hAlen]
  have hsr6 : s6.strongRoots = t.strongRoots := hsrB
  have hctx6 : s6.ctx = t.ctx := hctxB
  have hstats6 : s6.stats = t.stats := hstatsB
  have harc6 : s6.arcList = t.arcList := harcB
  have hP6 : (s6.nodeD parentId).excess = (t.nodeD parentId).excess ∧
      (s6.nodeD parentId).numberOutOfTree = (t.nodeD parentId).numberOutOfTree + 1 ∧
      (s6.nodeD parentId).outOfTree
        = (t.nodeD parentId).outOfTree.set ((t.nodeD parentId).numberOutOfTree) aid := by
    obtain ⟨nx, cl, pr, he⟩ := hcoreB parentId
    rw [he, hAnodeP]
    exact ⟨rfl, rfl, rfl⟩
  have hC6 : (s6.nodeD childId).excess = (t.nodeD childId).excess ∧
      (s6.nodeD childId).label = (t.nodeD childId).label := by
    obtain ⟨nx, cl, pr, he⟩ := hcoreB childId
    rw [he, hAnode childId hcv.1 (Ne.symm hpc)]
    exact ⟨rfl, rfl⟩
  have hClab6 : (s6.nodeD childId).label = (t.nodeD childId).label := hC6.2
  have hb6 : ∀ m, s6.bucketD m = t.bucketD m := by
    intro m
    unfold Session.bucketD
    rw [hsr6]
  have hframe6 : ∀ v, 1 ≤ v → v ≠ childId → v ≠ parentId → v ∉ pre →
      s6.nodeD v = t.nodeD v := by
    intro v h1v hvc hvp hvpre
    rw [hframeB v h1v hvc hvp hvpre, hAnode v h1v hvp]
  have hsub : ∀ v, v ∈ pre ++ post → v ∈ pre ++ childId :: post := by
    intro v hv
    rcases List.mem_append.mp hv with h | h
    · exact List.mem_append_left _ h
    · exact List.mem_append_right _ (List.mem_cons_of_mem _ h)
  have hppc : childId ∉ pre ++ post := by
    intro hm
    rcases List.mem_append.mp hm with h | h
    · exact (List.disjoint_of_nodup_append hnd) h (by simp)
    · have := List.nodup_append.mp hnd
      exact (List.nodup_cons.mp this.2.1).1 h
  have hval6 : ∀ v, validN t v → validN s6 v := by
    intro v hv
    unfold validN at hv ⊢
    rw [hlen6]
    exact hv
  have hlbl6 : (s6.nodeD childId).label < s6.strongRoots.length := by
    rw [hClab6, hsr6]
    exact hlbl
  have hbch6 : isChainB s6 ((s6.bucketD ((s6.nodeD childId).label)).start) lb = true := by
    rw [hClab6, hb6]
    apply isChainB_congr t s6 lb _ ?_ hbch
    intro v hv
    have hvbig : v ∉ pre ++ childId :: post := fun hm => hdisj hv hm
    rw [hframe6 v (hvlb v hv).1 (fun e => hvbig (e ▸ hcmem))
        (fun e => hplb (e ▸ hv)) (fun hm => hvbig (List.mem_append_left _ hm))]
  have hend6 : s6.ctx.fifoBuckets = true → lb ≠ [] →
      (s6.bucketD ((s6.nodeD childId).label)).end_ = lb.getLast? := by
    intro hcf hne
    rw [hClab6, hb6]
    refine hend ?_ hne
    rw [← hctx6]
    exact hcf
  -- the remaining goal depends on the lowest-label branch
  by_cases hL : s6.ctx.lowestLabel = true
  · obtain ⟨s8, heqD, hPn8, hCex8, hCpar8, hClab8, hchain8, hbch8, harc8, hstats8⟩ :=
      bucketInsert_final { s6 with lowestStrongLabel := (s6.nodeD childId).label }
        childId parentId pre post lb
        (hval6 childId hcv)
        hpv.1 hpc
        hlbl6
        (isChainB_congr s6 _ lb _ (fun v hv => rfl) hbch6)
        hndlb hcnlb hplb
        (fun v hv => hval6 v (hvlb v hv))
        (fun hcf hne => hend6 hcf hne)
        (isChainB_congr s6 _ (pre ++ post) _ (fun v hv => rfl) hchB)
        (fun v hv => hval6 v (hval v (hsub v hv)))
        hppc
        (fun v hv hm => hdisj hm (hsub v hv))
    refine ⟨s8, ?_, ?_, ?_, ?_, hchain8, ?_, ?_, ?_, ?_, ?_, ?_⟩
    · unfold pushTail
      simp only [Option.bind_eq_bind']
      rw [heqA]
      simp only [Option.some_bind]
      rw [heqB]
      simp only [Option.some_bind]
      rw [if_pos hL]
      exact heqD
    · rw [hPn8]
      show (s6.nodeD parentId).excess = _
      exact hP6.1
    · rw [hCex8]
      show (s6.nodeD childId).excess = _
      exact hC6.1
    · rw [hCpar8]
      show (s6.nodeD childId).parent = none
      exact hparB
    · rw [hPn8]
      show (s6.nodeD parentId).numberOutOfTree = _
      exact hP6.2.1
    · rw [hPn8]
      show (s6.nodeD parentId).outOfTree = _
      exact hP6.2.2
    · have e2 : s6.ctx.fifoBuckets = t.ctx.fifoBuckets := by rw [hctx6]
      rw [← hClab6, ← e2]
      exact hbch8
    · rw [harc8]
      show s6.arcList = t.arcList
      exact harc6
    · rw [hstats8]
      show s6.stats = t.stats
      exact hstats6
    · rw [hClab8]
      show (s6.nodeD childId).label = _
      exact hClab6
  · obtain ⟨s8, heqD, hPn8, hCex8, hCpar8, hClab8, hchain8, hbch8, harc8, hstats8⟩ :=
      bucketInsert_final s6 childId parentId pre post lb
        (hval6 childId hcv)
        hpv.1 hpc
        hlbl6
        hbch6
        hndlb hcnlb hplb
        (fun v hv => hval6 v (hvlb v hv))
        hend6
        hchB
        (fun v hv => hval6 v (hval v (hsub v hv)))
        hppc
        (fun v hv hm => hdisj hm (hsub v hv))
    refine ⟨s8, ?_, ?_, ?_, ?_, hchain8, ?_, ?_, ?_, ?_, ?_, ?_⟩
    · unfold pushTail
      simp only [Option.bind_eq_bind']
      rw [heqA]
      simp only [Option.some_bind]
      rw [heqB]
      simp only [Option.some_bind]
      rw [if_neg hL]
      exact heqD
    · rw [hPn8]
      exact hP6.1
    · rw [hCex8]
      exact hC6.1
    · rw [hCpar8]
      exact hparB
    · rw [hPn8]
      exact hP6.2.1
    · rw [hPn8]
      exact hP6.2.2
    · have e2 : s6.ctx.fifoBuckets = t.ctx.fifoBuckets := by rw [hctx6]
      rw [← hClab6, ← e2]
      exact hbch8
    · rw [harc8]
      exact harc6
    · rw [hstats8]
      exact hstats6
    · rw [hClab8]
      exact hClab6

theorem pushUpPrefix_len (s : Session) (aid childId parentId : Nat) (resCap : Int) :
    (pushUpPrefix s aid childId parentId resCap).adjacencyList.length
      = s.adjacencyList.length := by
  unfold pushUpPrefix
  show ((((s.bumpPushes).upArc aid (fun a => { a with direction := 0 })).upN parentId
    (fun p => { p with excess := p.excess + resCap })).upN childId
    (fun c => { c with excess := c.excess - resCap })).adjacencyList.length = _
  rw [length_upN, length_upN]
  rfl

theorem pushUpPrefix_sr (s : Session) (aid childId parentId : Nat) (resCap : Int) :
    (pushUpPrefix s aid childId parentId resCap).strongRoots = s.strongRoots := rfl

theorem pushUpPrefix_bucketD (s : Session) (aid childId parentId : Nat) (resCap : Int)
    (m : Nat) :
    (pushUpPrefix s aid childId parentId resCap).bucketD m = s.bucketD m := rfl

theorem pushUpPrefix_child (s : Session) (aid childId parentId : Nat) (resCap : Int)
    (hcv : validN s childId) (hpv : validN s parentId) (hpc : parentId ≠ childId) :
    (pushUpPrefix s aid childId parentId resCap).nodeD childId
      = { s.nodeD childId with excess := (s.nodeD childId).excess - resCap } := by
  unfold pushUpPrefix
  show ((((s.bumpPushes).upArc aid (fun a => { a with direction := 0 })).upN parentId
    (fun p => { p with excess := p.excess + resCap })).upN childId
    (fun c => { c with excess := c.excess - resCap })).nodeD childId = _
  rw [nodeD_upN_self _ childId _ (by rw [length_upN]; exact hcv.2)]
  rw [nodeD_upN_ne _ parentId childId _ hpv.1 hcv.1 (Ne.symm hpc)]
  rfl

theorem pushUpPrefix_parent (s : Session) (aid childId parentId : Nat) (resCap : Int)
    (hcv : validN s childId) (hpv : validN s parentId) (hpc : parentId ≠ childId) :
    (pushUpPrefix s aid childId parentId resCap).nodeD parentId
      = { s.nodeD parentId with excess := (s.nodeD parentId).excess + resCap } := by
  unfold pushUpPrefix
  show ((((s.bumpPushes).upArc aid (fun a => { a with direction := 0 })).upN parentId
    (fun p => { p with excess := p.excess + resCap })).upN childId
    (fun c => { c with excess := c.excess - resCap })).nodeD parentId = _
  rw [nodeD_upN_ne _ childId parentId _ hcv.1 hpv.1 hpc]
  rw [nodeD_upN_self ((s.bumpPushes).upArc aid (fun a => { a with direction := 0 }))
    parentId _ hpv.2]
  rfl

theorem pushUpPrefix_node (s : Session) (aid childId parentId : Nat) (resCap : Int)
    (hcv : validN s childId) (hpv : validN s parentId)
    (v : Nat) (h1v : 1 ≤ v) (hvc : v ≠ childId) (hvp : v ≠ parentId) :
    (pushUpPrefix s aid childId parentId resCap).nodeD v = s.nodeD v := by
  unfold pushUpPrefix
  show ((((s.bumpPushes).upArc aid (fun a => { a with direction := 0 })).upN parentId
    (fun p => { p with excess := p.excess + resCap })).upN childId
    (fun c => { c with excess := c.excess - resCap })).nodeD v = _
  rw [nodeD_upN_ne _ childId v _ hcv.1 h1v hvc]
  rw [nodeD_upN_ne _ parentId v _ hpv.1 h1v hvp]
  rfl

theorem pushUpPrefix_arc (s : Session) (aid childId parentId : Nat) (resCap : Int)
    (haid : aid < s.arcList.length) :
    (pushUpPrefix s aid childId parentId resCap).arcD aid
      = { s.arcD aid with direction := 0, flow := (s.arcD aid).capacity } := by
  unfold pushUpPrefix
  rw [arcD_upArc_self _ aid _ (by
    show aid < (s.arcList.set aid _).length
    simp only [List.length_set]
    exact haid)]
  rw [show ((((s.bumpPushes).upArc aid (fun a => { a with direction := 0 })).upN parentId
    (fun p => { p with excess := p.excess + resCap })).upN childId
    (fun c => { c with excess := c.excess - resCap })).arcD aid
    = ((s.bumpPushes).upArc aid (fun a => { a with direction := 0 })).arcD aid from rfl]
  rw [arcD_upArc_self (s.bumpPushes) aid _ haid]
  rfl

theorem pushUpward_sat (s : Session) (aid childId parentId : Nat) (resCap : Int)
    (pre post lb : List Nat) (fuel : Nat)
    (hcv : validN s childId)
    (hpv : validN s parentId)
    (haid : aid < s.arcList.length)
    (hlt : ¬ resCap ≥ (s.nodeD childId).excess)
    (hslot : (s.nodeD parentId).numberOutOfTree < (s.nodeD parentId).outOfTree.length)
    (hch : isChainB s ((s.nodeD parentId).childList) (pre ++ childId :: post) = true)
    (hnd : (pre ++ childId :: post).Nodup)
    (hval : ∀ v ∈ pre ++ childId :: post, validN s v)
    (hpnotin : parentId ∉ pre ++ childId :: post)
    (hlbl : (s.nodeD childId).label < s.strongRoots.length)
    (hbch : isChainB s ((s.bucketD ((s.nodeD childId).label)).start) lb = true)
    (hndlb : lb.Nodup)
    (hdisj : lb.Disjoint (pre ++ childId :: post))
    (hplb : parentId ∉ lb)
    (hvlb : ∀ v ∈ lb, validN s v)
    (hend : s.ctx.fifoBuckets = true → lb ≠ [] →
      (s.bucketD ((s.nodeD childId).label)).end_ = lb.getLast?)
    (hfuel : pre.length < fuel) :
    ∃ s', pushUpward s aid childId parentId resCap fuel = some s' ∧
      s'.stats.pushes = s.stats.pushes + 1 ∧
      (s'.arcD aid).flow = (s.arcD aid).capacity ∧
      (s'.arcD aid).direction = 0 ∧
      (s'.arcD aid).capacity = (s.arcD aid).capacity ∧
      (s'.nodeD parentId).excess = (s.nodeD parentId).excess + resCap ∧
      (s'.nodeD childId).excess = (s.nodeD childId).excess - resCap ∧
      (s'.nodeD childId).parent = none ∧
      isChainB s' ((s'.nodeD parentId).childList) (pre ++ post) = true ∧
      (s'.nodeD parentId).numberOutOfTree = (s.nodeD parentId).numberOutOfTree + 1 ∧
      (s'.nodeD parentId).outOfTree
        = (s.nodeD parentId).outOfTree.set ((s.nodeD parentId).numberOutOfTree) aid ∧
      isChainB s' ((s'.bucketD ((s.nodeD childId).label)).start)
        (if s.ctx.fifoBuckets then lb ++ [childId] else childId :: lb) = true := by
  have hcmem : childId ∈ pre ++ childId :: post := by simp
  have hpc : parentId ≠ childId := fun e => hpnotin (e ▸ hcmem)
  have hPchild := pushUpPrefix_child s aid childId parentId resCap hcv hpv hpc
  have hPparent := pushUpPrefix_parent s aid childId parentId resCap hcv hpv hpc
  have hPlabel : ((pushUpPrefix s aid childId parentId resCap).nodeD childId).label
      = (s.nodeD childId).label := by rw [hPchild]
  obtain ⟨s', heq, hPex, hCex, hCpar, hchain, hPnum, hPoot, hbchout, harcout, hstatsout,
      hClabout⟩ :=
    pushTail_spec (pushUpPrefix s aid childId parentId resCap) aid childId parentId
      pre post lb fuel
      (by unfold validN; rw [pushUpPrefix_len]; exact hcv)
      (by unfold validN; rw [pushUpPrefix_len]; exact hpv)
      (by rw [hPparent]; exact hslot)
      (by rw [show ((pushUpPrefix s aid childId parentId resCap).nodeD parentId).childList
            = (s.nodeD parentId).childList from by rw [hPparent]]
          apply isChainB_congr s _ (pre ++ childId :: post) _ ?_ hch
          intro v hv
          by_cases hvc : v = childId
          · rw [hvc, show ((pushUpPrefix s aid childId parentId resCap).nodeD childId).next
              = (s.nodeD childId).next from by rw [hPchild]]
          · rw [pushUpPrefix_node s aid childId parentId resCap hcv hpv v (hval v hv).1 hvc
              (fun e => hpnotin (e ▸ hv))])
      hnd
      (fun v hv => by unfold validN; rw [pushUpPrefix_len]; exact hval v hv)
      hpnotin
      (by rw [hPlabel, pushUpPrefix_sr]; exact hlbl)
      (by rw [hPlabel, pushUpPrefix_bucketD]
          apply isChainB_congr s _ lb _ ?_ hbch
          intro v hv
          have hvbig : v ∉ pre ++ childId :: post := fun hm => hdisj hv hm
          rw [pushUpPrefix_node s aid childId parentId resCap hcv hpv v (hvlb v hv).1
            (fun e => hvbig (e ▸ hcmem)) (fun e => hplb (e ▸ hv))])
      hndlb hdisj hplb
      (fun v hv => by unfold validN; rw [pushUpPrefix_len]; exact hvlb v hv)
      (fun hcf hne => by
        rw [hPlabel, pushUpPrefix_bucketD]
        exact hend hcf hne)
      hfuel
  have harcD : s'.arcD aid = (pushUpPrefix s aid childId parentId resCap).arcD aid := by
    unfold Session.arcD
    rw [harcout]
  refine ⟨s', ?_, ?_, ?_, ?_, ?_, ?_, ?_, hCpar, hchain, ?_, ?_, ?_⟩
  · unfold pushUpward
    rw [if_neg (show ¬ resCap ≥ ((s.bumpPushes).nodeD childId).excess from hlt)]
    show pushTail (pushUpPrefix s aid childId parentId resCap) aid childId parentId fuel
      = some s'
    exact heq
  · rw [hstatsout]
    rfl
  · rw [harcD, pushUpPrefix_arc s aid childId parentId resCap haid]
  · rw [harcD, pushUpPrefix_arc s aid childId parentId resCap haid]
  · rw [harcD, pushUpPrefix_arc s aid childId parentId resCap haid]
  · rw [hPex, hPparent]
  · rw [hCex, hPchild]
  · rw [hPnum, hPparent]
  · rw [hPoot, hPparent]
  · rw [show (s.nodeD childId).label
      = ((pushUpPrefix s aid childId parentId resCap).nodeD childId).label from hPlabel.symm]
    exact hbchout

theorem pushDownPrefix_len (s : Session) (aid childId parentId : Nat) (flow : Int) :
    (pushDownPrefix s aid childId parentId flow).adjacencyList.length
      = s.adjacencyList.length := by
  unfold pushDownPrefix
  show ((((s.bumpPushes).upArc aid (fun a => { a with direction := 1 })).upN childId
    (fun c => { c with excess := c.excess - flow })).upN parentId
    (fun p => { p with excess := p.excess + flow })).adjacencyList.length = _
  rw [length_upN, length_upN]
  rfl

theorem pushDownPrefix_sr (s : Session) (aid childId parentId : Nat) (flow : Int) :
    (pushDownPrefix s aid childId parentId flow).strongRoots = s.strongRoots := rfl

theorem pushDownPrefix_bucketD (s : Session) (aid childId parentId : Nat) (flow : Int)
    (m : Nat) :
    (pushDownPrefix s aid childId parentId flow).bucketD m = s.bucketD m := rfl

theorem pushDownPrefix_child (s : Session) (aid childId parentId : Nat) (flow : Int)
    (hcv : validN s childId) (hpv : validN s parentId) (hpc : parentId ≠ childId) :
    (pushDownPrefix s aid childId parentId flow).nodeD childId
      = { s.nodeD childId with excess := (s.nodeD childId).excess - flow } := by
  unfold pushDownPrefix
  show ((((s.bumpPushes).upArc aid (fun a => { a with direction := 1 })).upN childId
    (fun c => { c with excess := c.excess - flow })).upN parentId
    (fun p => { p with excess := p.excess + flow })).nodeD childId = _
  rw [nodeD_upN_ne _ parentId childId _ hpv.1 hcv.1 (Ne.symm hpc)]
  rw [nodeD_upN_self ((s.bumpPushes).upArc aid (fun a => { a with direction := 1 }))
    childId _ hcv.2]
  rfl

theorem pushDownPrefix_parent (s : Session) (aid childId parentId : Nat) (flow : Int)
    (hcv : validN s childId) (hpv : validN s parentId) (hpc : parentId ≠ childId) :
    (pushDownPrefix s aid childId parentId flow).nodeD parentId
      = { s.nodeD parentId with excess := (s.nodeD parentId).excess + flow } := by
  unfold pushDownPrefix
  show ((((s.bumpPushes).upArc aid (fun a => { a with direction := 1 })).upN childId
    (fun c => { c with excess := c.excess - flow })).upN parentId
    (fun p => { p with excess := p.excess + flow })).nodeD parentId = _
  rw [nodeD_upN_self (((s.bumpPushes).upArc aid (fun a => { a with direction := 1 })).upN
    childId (fun c => { c with excess := c.excess - flow })) parentId _
    (by rw [length_upN]; exact hpv.2)]
  rw [nodeD_upN_ne ((s.bumpPushes).upArc aid (fun a => { a with direction := 1 }))
    childId parentId _ hcv.1 hpv.1 hpc]
  rfl

theorem pushDownPrefix_node (s : Session) (aid childId parentId : Nat) (flow : Int)
    (hcv : validN s childId) (hpv : validN s parentId)
    (v : Nat) (h1v : 1 ≤ v) (hvc : v ≠ childId) (hvp : v ≠ parentId) :
    (pushDownPrefix s aid childId parentId flow).nodeD v = s.nodeD v := by
  unfold pushDownPrefix
  show ((((s.bumpPushes).upArc aid (fun a => { a with direction := 1 })).upN childId
    (fun c => { c with excess := c.excess - flow })).upN parentId
    (fun p => { p with excess := p.excess + flow })).nodeD v = _
  rw [nodeD_upN_ne _ parentId v _ hpv.1 h1v hvp]
  rw [nodeD_upN_ne _ childId v _ hcv.1 h1v hvc]
  rfl

theorem pushDownPrefix_arc (s : Session) (aid childId parentId : Nat) (flow : Int)
    (haid : aid < s.arcList.length) :
    (pushDownPrefix s aid childId parentId flow).arcD aid
      = { s.arcD aid with direction := 1, flow := 0 } := by
  unfold pushDownPrefix
  rw [arcD_upArc_self _ aid _ (by
    show aid < (s.arcList.set aid _).length
    simp only [List.length_set]
    exact haid)]
  rw [show ((((s.bumpPushes).upArc aid (fun a => { a with direction := 1 })).upN childId
    (fun c => { c with excess := c.excess - flow })).upN parentId
    (fun p => { p with excess := p.excess + flow })).arcD aid
    = ((s.bumpPushes).upArc aid (fun a => { a with direction := 1 })).arcD aid from rfl]
  rw [arcD_upArc_self (s.bumpPushes) aid _ haid]
  rfl

theorem pushDownward_sat (s : Session) (aid childId parentId : Nat) (flow : Int)
    (pre post lb : List Nat) (fuel : Nat)
    (hcv : validN s childId)
    (hpv : validN s parentId)
    (haid : aid < s.arcList.length)
    (hlt : ¬ flow ≥ (s.nodeD childId).excess)
    (hslot : (s.nodeD parentId).numberOutOfTree < (s.nodeD parentId).outOfTree.length)
    (hch : isChainB s ((s.nodeD parentId).childList) (pre ++ childId :: post) = true)
    (hnd : (pre ++ childId :: post).Nodup)
    (hval : ∀ v ∈ pre ++ childId :: post, validN s v)
    (hpnotin : parentId ∉ pre ++ childId :: post)
    (hlbl : (s.nodeD childId).label < s.strongRoots.length)
    (hbch : isChainB s ((s.bucketD ((s.nodeD childId).label)).start) lb = true)
    (hndlb : lb.Nodup)
    (hdisj : lb.Disjoint (pre ++ childId :: post))
    (hplb : parentId ∉ lb)
    (hvlb : ∀ v ∈ lb, validN s v)
    (hend : s.ctx.fifoBuckets = true → lb ≠ [] →
      (s.bucketD ((s.nodeD childId).label)).end_ = lb.getLast?)
    (hfuel : pre.length < fuel) :
    ∃ s', pushDownward s aid childId parentId flow fuel = some s' ∧
      s'.stats.pushes = s.stats.pushes + 1 ∧
      (s'.arcD aid).flow = 0 ∧
      (s'.arcD aid).direction = 1 ∧
      (s'.arcD aid).capacity = (s.arcD aid).capacity ∧
      (s'.nodeD parentId).excess = (s.nodeD parentId).excess + flow ∧
      (s'.nodeD childId).excess = (s.nodeD childId).excess - flow ∧
      (s'.nodeD childId).parent = none ∧
      isChainB s' ((s'.nodeD parentId).childList) (pre ++ post) = true ∧
      (s'.nodeD parentId).numberOutOfTree = (s.nodeD parentId).numberOutOfTree + 1 ∧
      (s'.nodeD parentId).outOfTree
        = (s.nodeD parentId).outOfTree.set ((s.nodeD parentId).numberOutOfTree) aid ∧
      isChainB s' ((s'.bucketD ((s.nodeD childId).label)).start)
        (if s.ctx.fifoBuckets then lb ++ [childId] else childId :: lb) = true := by
  have hcmem : childId ∈ pre ++ childId :: post := by simp
  have hpc : parentId ≠ childId := fun e => hpnotin (e ▸ hcmem)
  have hPchild := pushDownPrefix_child s aid childId parentId flow hcv hpv hpc
  have hPparent := pushDownPrefix_parent s aid childId parentId flow hcv hpv hpc
  have hPlabel : ((pushDownPrefix s aid childId parentId flow).nodeD childId).label
      = (s.nodeD childId).label := by rw [hPchild]
  obtain ⟨s', heq, hPex, hCex, hCpar, hchain, hPnum, hPoot, hbchout, harcout, hstatsout,
      hClabout⟩ :=
    pushTail_spec (pushDownPrefix s aid childId parentId flow) aid childId parentId
      pre post lb fuel
      (by unfold validN; rw [pushDownPrefix_len]; exact hcv)
      (by unfold validN; rw [pushDownPrefix_len]; exact hpv)
      (by rw [hPparent]; exact hslot)
      (by rw [show ((pushDownPrefix s aid childId parentId flow).nodeD parentId).childList
            = (s.nodeD parentId).childList from by rw [hPparent]]
          apply isChainB_congr s _ (pre ++ childId :: post) _ ?_ hch
          intro v hv
          by_cases hvc : v = childId
          · rw [hvc, show ((pushDownPrefix s aid childId parentId flow).nodeD childId).next
              = (s.nodeD childId).next from by rw [hPchild]]
          · rw [pushDownPrefix_node s aid childId parentId flow hcv hpv v (hval v hv).1 hvc
              (fun e => hpnotin (e ▸ hv))])
      hnd
      (fun v hv => by unfold validN; rw [pushDownPrefix_len]; exact hval v hv)
      hpnotin
      (by rw [hPlabel, pushDownPrefix_sr]; exact hlbl)
      (by rw [hPlabel, pushDownPrefix_bucketD]
          apply isChainB_congr s _ lb _ ?_ hbch
          intro v hv
          have hvbig : v ∉ pre ++ childId :: post := fun hm => hdisj hv hm
          rw [pushDownPrefix_node s aid childId parentId flow hcv hpv v (hvlb v hv).1
            (fun e => hvbig (e ▸ hcmem)) (fun e => hplb (e ▸ hv))])
      hndlb hdisj hplb
      (fun v hv => by unfold validN; rw [pushDownPrefix_len]; exact hvlb v hv)
      (fun hcf hne => by
        rw [hPlabel, pushDownPrefix_bucketD]
        exact hend hcf hne)
      hfuel
  have harcD : s'.arcD aid = (pushDownPrefix s aid childId parentId flow).arcD aid := by
    unfold Session.arcD
    rw [harcout]
  refine ⟨s', ?_, ?_, ?_, ?_, ?_, ?_, ?_, hCpar, hchain, ?_, ?_, ?_⟩
  · unfold pushDownward
    rw [if_neg (show ¬ flow ≥ ((s.bumpPushes).nodeD childId).excess from hlt)]
    show pushTail (pushDownPrefix s aid childId parentId flow) aid childId parentId fuel
      = some s'
    exact heq
  · rw [hstatsout]
    rfl
  · rw [harcD, pushDownPrefix_arc s aid childId parentId flow haid]
  · rw [harcD, pushDownPrefix_arc s aid childId parentId flow haid]
  · rw [harcD, pushDownPrefix_arc s aid childId parentId flow haid]
  · rw [hPex, hPparent]
  · rw [hCex, hPchild]
  · rw [hPnum, hPparent]
  · rw [hPoot, hPparent]
  · rw [show (s.nodeD childId).label
      = ((pushDownPrefix s aid childId parentId flow).nodeD childId).label from hPlabel.symm]
    exact hbchout

theorem pushNonsatMid_child (s : Session) (childId parentId : Nat)
    (hcv : validN s childId) (hpv : validN s parentId) (hpc : parentId ≠ childId) :
    (pushNonsatMid s childId parentId).nodeD childId = s.nodeD childId := by
  unfold pushNonsatMid
  rw [nodeD_upN_ne (s.bumpPushes) parentId childId _ hpv.1 hcv.1 (Ne.symm hpc)]
  rfl

theorem pushUpward_nonsat (s : Session) (aid childId parentId : Nat) (resCap : Int)
    (fuel : Nat)
    (hcv : validN s childId)
    (hpv : validN s parentId)
    (hpc : parentId ≠ childId)
    (haid : aid < s.arcList.length)
    (hge : resCap ≥ (s.nodeD childId).excess) :
    ∃ s', pushUpward s aid childId parentId resCap fuel = some s' ∧
      s'.stats.pushes = s.stats.pushes + 1 ∧
      s'.nodeD parentId = { s.nodeD parentId with excess :=
        (s.nodeD parentId).excess + (s.nodeD childId).excess } ∧
      s'.nodeD childId = { s.nodeD childId with excess := 0 } ∧
      (s'.arcD aid).flow = (s.arcD aid).flow + (s.nodeD childId).excess ∧
      (s'.arcD aid).direction = (s.arcD aid).direction ∧
      (s'.arcD aid).capacity = (s.arcD aid).capacity ∧
      (∀ v, 1 ≤ v → v ≠ childId → v ≠ parentId → s'.nodeD v = s.nodeD v) ∧
      s'.strongRoots = s.strongRoots ∧ s'.labelCount = s.labelCount := by
  refine ⟨((pushNonsatMid s childId parentId).upArc aid
      (fun a => { a with flow := a.flow
        + ((pushNonsatMid s childId parentId).nodeD childId).excess })).upN childId
      (fun c => { c with excess := 0 }), ?_, ?_, ?_, ?_, ?_, ?_, ?_, ?_, rfl, rfl⟩
  · unfold pushUpward
    rw [if_pos (show resCap ≥ ((s.bumpPushes).nodeD childId).excess from hge)]
    rfl
  · rfl
  · rw [nodeD_upN_ne _ childId parentId _ hcv.1 hpv.1 hpc]
    show (pushNonsatMid s childId parentId).nodeD parentId = _
    unfold pushNonsatMid
    rw [nodeD_upN_self (s.bumpPushes) parentId _ hpv.2]
    rfl
  · rw [nodeD_upN_self ((pushNonsatMid s childId parentId).upArc aid
      (fun a => { a with flow := a.flow
        + ((pushNonsatMid s childId parentId).nodeD childId).excess })) childId _
      (by show childId - 1 < (pushNonsatMid s childId parentId).adjacencyList.length
          unfold pushNonsatMid
          rw [length_upN]
          exact hcv.2)]
    rw [show ((pushNonsatMid s childId parentId).upArc aid
      (fun a => { a with flow := a.flow
        + ((pushNonsatMid s childId parentId).nodeD childId).excess })).nodeD childId
      = s.nodeD childId from pushNonsatMid_child s childId parentId hcv hpv hpc]
  · show (((pushNonsatMid s childId parentId).upArc aid
      (fun a => { a with flow := a.flow
        + ((pushNonsatMid s childId parentId).nodeD childId).excess })).arcD aid).flow
      = (s.arcD aid).flow + (s.nodeD childId).excess
    rw [arcD_upArc_self (pushNonsatMid s childId parentId) aid _
      (show aid < (pushNonsatMid s childId parentId).arcList.length from haid)]
    rw [pushNonsatMid_child s childId parentId hcv hpv hpc]
    rfl
  · show (((pushNonsatMid s childId parentId).upArc aid
      (fun a => { a with flow := a.flow
        + ((pushNonsatMid s childId parentId).nodeD childId).excess })).arcD aid).direction
      = (s.arcD aid).direction
    rw [arcD_upArc_self (pushNonsatMid s childId parentId) aid _
      (show aid < (pushNonsatMid s childId parentId).arcList.length from haid)]
    rfl
  · show (((pushNonsatMid s childId parentId).upArc aid
      (fun a => { a with flow := a.flow
        + ((pushNonsatMid s childId parentId).nodeD childId).excess })).arcD aid).capacity
      = (s.arcD aid).capacity
    rw [arcD_upArc_self (pushNonsatMid s childId parentId) aid _
      (show aid < (pushNonsatMid s childId parentId).arcList.length from haid)]
    rfl
  · intro v h1v hvc hvp
    rw [nodeD_upN_ne _ childId v _ hcv.1 h1v hvc]
    show (pushNonsatMid s childId parentId).nodeD v = s.nodeD v
    unfold pushNonsatMid
    rw [nodeD_upN_ne (s.bumpPushes) parentId v _ hpv.1 h1v hvp]
    rfl

theorem pushDownward_nonsat (s : Session) (aid childId parentId : Nat) (flow : Int)
    (fuel : Nat)
    (hcv : validN s childId)
    (hpv : validN s parentId)
    (hpc : parentId ≠ childId)
    (haid : aid < s.arcList.length)
    (hge : flow ≥ (s.nodeD childId).excess) :
    ∃ s', pushDownward s aid childId parentId flow fuel = some s' ∧
      s'.stats.pushes = s.stats.pushes + 1 ∧
      s'.nodeD parentId = { s.nodeD parentId with excess :=
        (s.nodeD parentId).excess + (s.nodeD childId).excess } ∧
      s'.nodeD childId = { s.nodeD childId with excess := 0 } ∧
      (s'.arcD aid).flow = (s.arcD aid).flow - (s.nodeD childId).excess ∧
      (s'.arcD aid).direction = (s.arcD aid).direction ∧
      (s'.arcD aid).capacity = (s.arcD aid).capacity ∧
      (∀ v, 1 ≤ v → v ≠ childId → v ≠ parentId → s'.nodeD v = s.nodeD v) ∧
      s'.strongRoots = s.strongRoots ∧ s'.labelCount = s.labelCount := by
  refine ⟨((pushNonsatMid s childId parentId).upArc aid
      (fun a => { a with flow := a.flow
        - ((pushNonsatMid s childId parentId).nodeD childId).excess })).upN childId
      (fun c => { c with excess := 0 }), ?_, ?_, ?_, ?_, ?_, ?_, ?_, ?_, rfl, rfl⟩
  · unfold pushDownward
    rw [if_pos (show flow ≥ ((s.bumpPushes).nodeD childId).excess from hge)]
    rfl
  · rfl
  · rw [nodeD_upN_ne _ childId parentId _ hcv.1 hpv.1 hpc]
    show (pushNonsatMid s childId parentId).nodeD parentId = _
    unfold pushNonsatMid
    rw [nodeD_upN_self (s.bumpPushes) parentId _ hpv.2]
    rfl
  · rw [nodeD_upN_self ((pushNonsatMid s childId parentId).upArc aid
      (fun a => { a with flow := a.flow
        - ((pushNonsatMid s childId parentId).nodeD childId).excess })) childId _
      (by show childId - 1 < (pushNonsatMid s childId parentId).adjacencyList.length
          unfold pushNonsatMid
          rw [length_upN]
          exact hcv.2)]
    rw [show ((pushNonsatMid s childId parentId).upArc aid
      (fun a => { a with flow := a.flow
        - ((pushNonsatMid s childId parentId).nodeD childId).excess })).nodeD childId
      = s.nodeD childId from pushNonsatMid_child s childId parentId hcv hpv hpc]
  · show (((pushNonsatMid s childId parentId).upArc aid
      (fun a => { a with flow := a.flow
        - ((pushNonsatMid s childId parentId).nodeD childId).excess })).arcD aid).flow
      = (s.arcD aid).flow - (s.nodeD childId).excess
    rw [arcD_upArc_self (pushNonsatMid s childId parentId) aid _
      (show aid < (pushNonsatMid s childId parentId).arcList.length from haid)]
    rw [pushNonsatMid_child s childId parentId hcv hpv hpc]
    rfl
  · show (((pushNonsatMid s childId parentId).upArc aid
      (fun a => { a with flow := a.flow
        - ((pushNonsatMid s childId parentId).nodeD childId).excess })).arcD aid).direction
      = (s.arcD aid).direction
    rw [arcD_upArc_self (pushNonsatMid s childId parentId) aid _
      (show aid < (pushNonsatMid s childId parentId).arcList.length from haid)]
    rfl
  · show (((pushNonsatMid s childId parentId).upArc aid
      (fun a => { a with flow := a.flow
        - ((pushNonsatMid s childId parentId).nodeD childId).excess })).arcD aid).capacity
      = (s.arcD aid).capacity
    rw [arcD_upArc_self (pushNonsatMid s childId parentId) aid _
      (show aid < (pushNonsatMid s childId parentId).arcList.length from haid)]
    rfl
  · intro v h1v hvc hvp
    rw [nodeD_upN_ne _ childId v _ hcv.1 h1v hvc]
    show (pushNonsatMid s childId parentId).nodeD v = s.nodeD v
    unfold pushNonsatMid
    rw [nodeD_upN_ne (s.bumpPushes) parentId v _ hpv.1 h1v hvp]
    rfl

/-- C8: pushUpward and pushDownward each transfer min(child.excess,
residual) from the child's to the parent's excess, adding the transfer
to the arc flow (upward) or subtracting it (downward) and counting one
push.  When the excess fits the residual the tree, the buckets and the
arc direction are untouched; otherwise the arc saturates (flow =
capacity upward, flow = 0 downward), its direction flips, the tree
edge is broken (child unlinked from parent.childList, parent pointer
cleared), the arc is appended to parent.outOfTree and the child is
inserted into the strong bucket of its label. -/
theorem pushUpward_pushDownward_transfer :
    (∀ (s : Session) (aid childId parentId : Nat) (resCap : Int) (fuel : Nat),
      validN s childId → validN s parentId → parentId ≠ childId →
      aid < s.arcList.length →
      resCap ≥ (s.nodeD childId).excess →
      ∃ s', pushUpward s aid childId parentId resCap fuel = some s' ∧
        s'.stats.pushes = s.stats.pushes + 1 ∧
        s'.nodeD parentId = { s.nodeD parentId with excess :=
          (s.nodeD parentId).excess + (s.nodeD childId).excess } ∧
        s'.nodeD childId = { s.nodeD childId with excess := 0 } ∧
        (s'.arcD aid).flow = (s.arcD aid).flow + (s.nodeD childId).excess ∧
        (s'.arcD aid).direction = (s.arcD aid).direction ∧
        (s'.arcD aid).capacity = (s.arcD aid).capacity ∧
        (∀ v, 1 ≤ v → v ≠ childId → v ≠ parentId → s'.nodeD v = s.nodeD v) ∧
        s'.strongRoots = s.strongRoots ∧ s'.labelCount = s.labelCount) ∧
    (∀ (s : Session) (aid childId parentId : Nat) (resCap : Int)
        (pre post lb : List Nat) (fuel : Nat),
      validN s childId → validN s parentId →
      aid < s.arcList.length →
      ¬ resCap ≥ (s.nodeD childId).excess →
      (s.nodeD parentId).numberOutOfTree < (s.nodeD parentId).outOfTree.length →
      isChainB s ((s.nodeD parentId).childList) (pre ++ childId :: post) = true →
      (pre ++ childId :: post).Nodup →
      (∀ v ∈ pre ++ childId :: post, validN s v) →
      parentId ∉ pre ++ childId :: post →
      (s.nodeD childId).label < s.strongRoots.length →
      isChainB s ((s.bucketD ((s.nodeD childId).label)).start) lb = true →
      lb.Nodup →
      lb.Disjoint (pre ++ childId :: post) →
      parentId ∉ lb →
      (∀ v ∈ lb, validN s v) →
      (s.ctx.fifoBuckets = true → lb ≠ [] →
        (s.bucketD ((s.nodeD childId).label)).end_ = lb.getLast?) →
      pre.length < fuel →
      ∃ s', pushUpward s aid childId parentId resCap fuel = some s' ∧
        s'.stats.pushes = s.stats.pushes + 1 ∧
        (s'.arcD aid).flow = (s.arcD aid).capacity ∧
        (s'.arcD aid).direction = 0 ∧
        (s'.arcD aid).capacity = (s.arcD aid).capacity ∧
        (s'.nodeD parentId).excess = (s.nodeD parentId).excess + resCap ∧
        (s'.nodeD childId).excess = (s.nodeD childId).excess - resCap ∧
        (s'.nodeD childId).parent = none ∧
        isChainB s' ((s'.nodeD parentId).childList) (pre ++ post) = true ∧
        (s'.nodeD parentId).numberOutOfTree = (s.nodeD parentId).numberOutOfTree + 1 ∧
        (s'.nodeD parentId).outOfTree
          = (s.nodeD parentId).outOfTree.set ((s.nodeD parentId).numberOutOfTree) aid ∧
        isChainB s' ((s'.bucketD ((s.nodeD childId).label)).start)
          (if s.ctx.fifoBuckets then lb ++ [childId] else childId :: lb) = true) ∧
    (∀ (s : Session) (aid childId parentId : Nat) (flow : Int) (fuel : Nat),
      validN s childId → validN s parentId → parentId ≠ childId →
      aid < s.arcList.length →
      flow ≥ (s.nodeD childId).excess →
      ∃ s', pushDownward s aid childId parentId flow fuel = some s' ∧
        s'.stats.pushes = s.stats.pushes + 1 ∧
        s'.nodeD parentId = { s.nodeD parentId with excess :=
          (s.nodeD parentId).excess + (s.nodeD childId).excess } ∧
        s'.nodeD childId = { s.nodeD childId with excess := 0 } ∧
        (s'.arcD aid).flow = (s.arcD aid).flow - (s.nodeD childId).excess ∧
        (s'.arcD aid).direction = (s.arcD aid).direction ∧
        (s'.arcD aid).capacity = (s.arcD aid).capacity ∧
        (∀ v, 1 ≤ v → v ≠ childId → v ≠ parentId → s'.nodeD v = s.nodeD v) ∧
        s'.strongRoots = s.strongRoots ∧ s'.labelCount = s.labelCount) ∧
    (∀ (s : Session) (aid childId parentId : Nat) (flow : Int)
        (pre post lb : List Nat) (fuel : Nat),
      validN s childId → validN s parentId →
      aid < s.arcList.length →
      ¬ flow ≥ (s.nodeD childId).excess →
      (s.nodeD parentId).numberOutOfTree < (s.nodeD parentId).outOfTree.length →
      isChainB s ((s.nodeD parentId).childList) (pre ++ childId :: post) = true →
      (pre ++ childId :: post).Nodup →
      (∀ v ∈ pre ++ childId :: post, validN s v) →
      parentId ∉ pre ++ childId :: post →
      (s.nodeD childId).label < s.strongRoots.length →
      isChainB s ((s.bucketD ((s.nodeD childId).label)).start) lb = true →
      lb.Nodup →
      lb.Disjoint (pre ++ childId :: post) →
      parentId ∉ lb →
      (∀ v ∈ lb, validN s v) →
      (s.ctx.fifoBuckets = true → lb ≠ [] →
        (s.bucketD ((s.nodeD childId).label)).end_ = lb.getLast?) →
      pre.length < fuel →
      ∃ s', pushDownward s aid childId parentId flow fuel = some s' ∧
        s'.stats.pushes = s.stats.pushes + 1 ∧
        (s'.arcD aid).flow = 0 ∧
        (s'.arcD aid).direction = 1 ∧
        (s'.arcD aid).capacity = (s.arcD aid).capacity ∧
        (s'.nodeD parentId).excess = (s.nodeD parentId).excess + flow ∧
        (s'.nodeD childId).excess = (s.nodeD childId).excess - flow ∧
        (s'.nodeD childId).parent = none ∧
        isChainB s' ((s'.nodeD parentId).childList) (pre ++ post) = true ∧
        (s'.nodeD parentId).numberOutOfTree = (s.nodeD parentId).numberOutOfTree + 1 ∧
        (s'.nodeD parentId).outOfTree
          = (s.nodeD parentId).outOfTree.set ((s.nodeD parentId).numberOutOfTree) aid ∧
        isChainB s' ((s'.bucketD ((s.nodeD childId).label)).start)
          (if s.ctx.fifoBuckets then lb ++ [childId] else childId :: lb) = true) := by
  refine ⟨?_, ?_, ?_, ?_⟩
  · intro s aid childId parentId resCap fuel hcv hpv hpc haid hge
    exact pushUpward_nonsat s aid childId parentId resCap fuel hcv hpv hpc haid hge
  · intro s aid childId parentId resCap pre post lb fuel hcv hpv haid hlt hslot hch hnd
      hval hpnotin hlbl hbch hndlb hdisj hplb hvlb hend hfuel
    exact pushUpward_sat s aid childId parentId resCap pre post lb fuel hcv hpv haid hlt
      hslot hch hnd hval hpnotin hlbl hbch hndlb hdisj hplb hvlb hend hfuel
  · intro s aid childId parentId flow fuel hcv hpv hpc haid hge
    exact pushDownward_nonsat s aid childId parentId flow fuel hcv hpv hpc haid hge
  · intro s aid childId parentId flow pre post lb fuel hcv hpv haid hlt hslot hch hnd
      hval hpnotin hlbl hbch hndlb hdisj hplb hvlb hend hfuel
    exact pushDownward_sat s aid childId parentId flow pre post lb fuel hcv hpv haid hlt
      hslot hch hnd hval hpnotin hlbl hbch hndlb hdisj hplb hvlb hend hfuel

/-- Witness for the C8 push theorem on c8State: a non-saturating and a
saturating call of each of pushUpward (residuals 3 and 2 against excess
3) and pushDownward (flows 3 and 2 against excess 3), with the child
landing in the strong bucket of label 1 ahead of node 3 in the
saturating cases. -/
theorem pushUpward_pushDownward_transfer_witness :
    (∃ s', pushUpward c8State 0 2 1 3 5 = some s' ∧
      s'.stats.pushes = c8State.stats.pushes + 1 ∧
      s'.nodeD 1 = { c8State.nodeD 1 with excess :=
        (c8State.nodeD 1).excess + (c8State.nodeD 2).excess } ∧
      s'.nodeD 2 = { c8State.nodeD 2 with excess := 0 } ∧
      (s'.arcD 0).flow = (c8State.arcD 0).flow + (c8State.nodeD 2).excess ∧
      (s'.arcD 0).direction = (c8State.arcD 0).direction ∧
      (s'.arcD 0).capacity = (c8State.arcD 0).capacity ∧
      (∀ v, 1 ≤ v → v ≠ 2 → v ≠ 1 → s'.nodeD v = c8State.nodeD v) ∧
      s'.strongRoots = c8State.strongRoots ∧ s'.labelCount = c8State.labelCount) ∧
    (∃ s', pushUpward c8State 0 2 1 2 5 = some s' ∧
      s'.stats.pushes = c8State.stats.pushes + 1 ∧
      (s'.arcD 0).flow = (c8State.arcD 0).capacity ∧
      (s'.arcD 0).direction = 0 ∧
      (s'.arcD 0).capacity = (c8State.arcD 0).capacity ∧
      (s'.nodeD 1).excess = (c8State.nodeD 1).excess + 2 ∧
      (s'.nodeD 2).excess = (c8State.nodeD 2).excess - 2 ∧
      (s'.nodeD 2).parent = none ∧
      isChainB s' ((s'.nodeD 1).childList) ([] ++ []) = true ∧
      (s'.nodeD 1).numberOutOfTree = (c8State.nodeD 1).numberOutOfTree + 1 ∧
      (s'.nodeD 1).outOfTree
        = (c8State.nodeD 1).outOfTree.set ((c8State.nodeD 1).numberOutOfTree) 0 ∧
      isChainB s' ((s'.bucketD ((c8State.nodeD 2).label)).start)
        (if c8State.ctx.fifoBuckets then [3] ++ [2] else 2 :: [3]) = true) ∧
    (∃ s', pushDownward c8State 0 2 1 3 5 = some s' ∧
      s'.stats.pushes = c8State.stats.pushes + 1 ∧
      s'.nodeD 1 = { c8State.nodeD 1 with excess :=
        (c8State.nodeD 1).excess + (c8State.nodeD 2).excess } ∧
      s'.nodeD 2 = { c8State.nodeD 2 with excess := 0 } ∧
      (s'.arcD 0).flow = (c8State.arcD 0).flow - (c8State.nodeD 2).excess ∧
      (s'.arcD 0).direction = (c8State.arcD 0).direction ∧
      (s'.arcD 0).capacity = (c8State.arcD 0).capacity ∧
      (∀ v, 1 ≤ v → v ≠ 2 → v ≠ 1 → s'.nodeD v = c8State.nodeD v) ∧
      s'.strongRoots = c8State.strongRoots ∧ s'.labelCount = c8State.labelCount) ∧
    (∃ s', pushDownward c8State 0 2 1 2 5 = some s' ∧
      s'.stats.pushes = c8State.stats.pushes + 1 ∧
      (s'.arcD 0).flow = 0 ∧
      (s'.arcD 0).direction = 1 ∧
      (s'.arcD 0).capacity = (c8State.arcD 0).capacity ∧
      (s'.nodeD 1).excess = (c8State.nodeD 1).excess + 2 ∧
      (s'.nodeD 2).excess = (c8State.nodeD 2).excess - 2 ∧
      (s'.nodeD 2).parent = none ∧
      isChainB s' ((s'.nodeD 1).childList) ([] ++ []) = true ∧
      (s'.nodeD 1).numberOutOfTree = (c8State.nodeD 1).numberOutOfTree + 1 ∧
      (s'.nodeD 1).outOfTree
        = (c8State.nodeD 1).outOfTree.set ((c8State.nodeD 1).numberOutOfTree) 0 ∧
      isChainB s' ((s'.bucketD ((c8State.nodeD 2).label)).start)
        (if c8State.ctx.fifoBuckets then [3] ++ [2] else 2 :: [3]) = true) :=
  ⟨pushUpward_pushDownward_transfer.1 c8State 0 2 1 3 5 (by decide) (by decide) (by decide)
     (by decide) (by decide),
   pushUpward_pushDownward_transfer.2.1 c8State 0 2 1 2 [] [] [3] 5 (by decide) (by decide)
     (by decide) (by decide) (by decide) (by decide) (by decide) (by decide) (by decide)
     (by decide) (by decide) (by decide)
     (by intro a ha hb; simp at ha hb; omega)
     (by decide) (by decide) (by decide) (by decide),
   pushUpward_pushDownward_transfer.2.2.1 c8State 0 2 1 3 5 (by decide) (by decide)
     (by decide) (by decide) (by decide),
   pushUpward_pushDownward_transfer.2.2.2 c8State 0 2 1 2 [] [] [3] 5 (by decide) (by decide)
     (by decide) (by decide) (by decide) (by decide) (by decide) (by decide) (by decide)
     (by decide) (by decide) (by decide)
     (by intro a ha hb; simp at ha hb; omega)
     (by decide) (by decide) (by decide) (by decide)⟩


/-- C9: breakRelationship removes the child from the parent's child
list, leaving the remaining children linked in their original order,
clears the child's parent pointer, and clears the child's next pointer
exactly once, after the child has been unlinked: the sibling walk
(breakWalk) is read-only, the only nodes whose fields change are the
child and its immediate predecessor (or the parent's childList head
when the child is first), and every other sibling is untouched. -/
theorem breakRelationship_removes_child (s : Session) (pid childId : Nat)
    (pre post : List Nat) (fuel : Nat)
    (hch : isChainB s ((s.nodeD pid).childList) (pre ++ childId :: post) = true)
    (hnd : (pre ++ childId :: post).Nodup)
    (hval : ∀ v ∈ pre ++ childId :: post, validN s v)
    (hpv : validN s pid)
    (hpnotin : pid ∉ pre ++ childId :: post)
    (hfuel : pre.length < fuel) :
    ∃ s', breakRelationship s pid childId fuel = some s' ∧
      isChainB s' ((s'.nodeD pid).childList) (pre ++ post) = true ∧
      (s'.nodeD childId).parent = none ∧
      (s'.nodeD childId).next = none ∧
      (∀ v, 1 ≤ v → v ≠ childId → v ≠ pid → v ∉ pre → s'.nodeD v = s.nodeD v) ∧
      (∀ v ∈ pre, pre.getLast? ≠ some v → s'.nodeD v = s.nodeD v) ∧
      s'.arcList = s.arcList ∧ s'.strongRoots = s.strongRoots ∧
      s'.labelCount = s.labelCount ∧ s'.stats = s.stats :=
  breakRelationship_spec s pid childId pre post fuel hch hnd hval hpv hpnotin hfuel

/-- Witness for the C9 theorem: removing node 3 from node 1's child
list 2, 3, 4 of c9State. -/
theorem breakRelationship_removes_child_witness :
    ∃ s', breakRelationship c9State 1 3 5 = some s' ∧
      isChainB s' ((s'.nodeD 1).childList) ([2] ++ [4]) = true ∧
      (s'.nodeD 3).parent = none ∧
      (s'.nodeD 3).next = none ∧
      (∀ v, 1 ≤ v → v ≠ 3 → v ≠ 1 → v ∉ [2] → s'.nodeD v = c9State.nodeD v) ∧
      (∀ v ∈ [2], [2].getLast? ≠ some v → s'.nodeD v = c9State.nodeD v) ∧
      s'.arcList = c9State.arcList ∧ s'.strongRoots = c9State.strongRoots ∧
      s'.labelCount = c9State.labelCount ∧ s'.stats = c9State.stats :=
  breakRelationship_removes_child c9State 1 3 [2] [4] 5 (by decide) (by decide) (by decide)
    (by decide) (by decide) (by decide)


/-- Strong induction principle for TreeR through child lists. -/
theorem TreeR.ind (motive : TreeR → Prop)
    (h : ∀ v ts, (∀ t ∈ ts, motive t) → motive (TreeR.node v ts)) : ∀ t, motive t
  | .node v ts => h v ts (fun t _ => TreeR.ind motive h t)

theorem ids_node (v : Nat) (ts : List TreeR) :
    (TreeR.node v ts).ids = v :: TreeR.idsList ts := by
  simp [TreeR.ids]

theorem idsList_nil : TreeR.idsList [] = [] := by
  simp [TreeR.idsList]

theorem idsList_cons (t : TreeR) (ts : List TreeR) :
    TreeR.idsList (t :: ts) = t.ids ++ TreeR.idsList ts := by
  simp [TreeR.idsList]

theorem isTreeB_node (s : Session) (v : Nat) (ts : List TreeR) :
    isTreeB s (TreeR.node v ts)
      = (isChainB s ((s.nodeD v).childList) (ts.map TreeR.rootId) && isForestB s v ts) := by
  simp [isTreeB]

theorem isForestB_nil (s : Session) (v : Nat) : isForestB s v [] = true := by
  simp [isForestB]

theorem isForestB_cons (s : Session) (v : Nat) (t : TreeR) (ts : List TreeR) :
    isForestB s v (t :: ts)
      = (((s.nodeD t.rootId).parent == some v) && isTreeB s t && isForestB s v ts) := by
  simp [isForestB]

theorem rootId_mem_ids (t : TreeR) : t.rootId ∈ t.ids := by
  cases t with
  | node v ts => rw [ids_node]; exact List.mem_cons_self _ _

theorem mem_idsList_of_mem {u : Nat} {t : TreeR} : ∀ {ts : List TreeR},
    t ∈ ts → u ∈ t.ids → u ∈ TreeR.idsList ts := by
  intro ts
  induction ts with
  | nil => intro h; cases h
  | cons t0 ts ih =>
    intro hmem hu
    rw [idsList_cons]
    rcases List.mem_cons.mp hmem with h | h
    · exact List.mem_append_left _ (h ▸ hu)
    · exact List.mem_append_right _ (ih h hu)

theorem isForestB_mem (s : Session) (v : Nat) : ∀ (ts : List TreeR),
    isForestB s v ts = true → ∀ t ∈ ts,
      (s.nodeD t.rootId).parent = some v ∧ isTreeB s t = true := by
  intro ts
  induction ts with
  | nil => intro _ t ht; cases ht
  | cons t0 ts ih =>
    intro h t ht
    rw [isForestB_cons] at h
    simp only [Bool.and_eq_true, beq_iff_eq] at h
    rcases List.mem_cons.mp ht with he | he
    · exact he ▸ ⟨h.1.1, h.1.2⟩
    · exact ih h.2 t he

theorem isForestB_congr_aux (s t : Session) (v : Nat) : ∀ (ts : List TreeR),
    (∀ t0 ∈ ts, isTreeB s t0 = true → isTreeB t t0 = true) →
    (∀ t0 ∈ ts, t.nodeD t0.rootId = s.nodeD t0.rootId) →
    isForestB s v ts = true → isForestB t v ts = true := by
  intro ts
  induction ts with
  | nil => intro _ _ _; rw [isForestB_nil]
  | cons t0 ts ih =>
    intro htr hpar h
    rw [isForestB_cons] at h ⊢
    simp only [Bool.and_eq_true, beq_iff_eq] at h ⊢
    refine ⟨⟨?_, htr t0 (List.mem_cons_self _ _) h.1.2⟩, ?_⟩
    · rw [hpar t0 (List.mem_cons_self _ _)]
      exact h.1.1
    · exact ih (fun t1 h1 => htr t1 (List.mem_cons_of_mem _ h1))
        (fun t1 h1 => hpar t1 (List.mem_cons_of_mem _ h1)) h.2

theorem isTreeB_congr2 (s t : Session) : ∀ (tr : TreeR),
    (∀ u ∈ tr.ids, t.nodeD u = s.nodeD u) →
    isTreeB s tr = true → isTreeB t tr = true := by
  intro tr
  induction tr using TreeR.ind with
  | h v ts ih =>
    intro hframe h
    rw [isTreeB_node] at h ⊢
    simp only [Bool.and_eq_true] at h ⊢
    rw [ids_node] at hframe
    refine ⟨?_, ?_⟩
    · rw [hframe v (List.mem_cons_self _ _)]
      apply isChainB_congr s t (ts.map TreeR.rootId) _ ?_ h.1
      intro w hw
      obtain ⟨t0, ht0, hw⟩ := List.mem_map.mp hw
      rw [hframe w (List.mem_cons_of_mem _
        (mem_idsList_of_mem ht0 (hw ▸ rootId_mem_ids t0)))]
    · apply isForestB_congr_aux s t v ts ?_ ?_ h.2
      · intro t0 ht0 htr0
        exact ih t0 ht0 (fun u hu => hframe u (List.mem_cons_of_mem _
          (mem_idsList_of_mem ht0 hu))) htr0
      · intro t0 ht0
        exact hframe t0.rootId (List.mem_cons_of_mem _
          (mem_idsList_of_mem ht0 (rootId_mem_ids t0)))

theorem liftAllLoop_step (s : Session) (v w c0 : Nat) (F : Nat)
    (hstart : (s.nodeD v).nextScan = some w)
    (hlc : (descendA2 s v w).lc? (((descendA2 s v w).nodeD w).label) = some c0) :
    liftAllLoop s v (F + 1) = liftAllLoop (descendA4 s v w c0) w F := by
  conv_lhs => unfold liftAllLoop
  simp only [hstart]
  rw [show ((s.upN v (fun c => { c with nextScan := (s.nodeD w).next })).upN w
      (fun c => { c with nextScan := c.childList })).lc?
      ((((s.upN v (fun c => { c with nextScan := (s.nodeD w).next })).upN w
        (fun c => { c with nextScan := c.childList })).nodeD w).label) = some c0 from hlc]
  simp only [Option.bind_eq_bind', Option.some_bind]
  rfl

theorem liftAllLoop_up (s : Session) (v pid : Nat) (F : Nat)
    (hns : (s.nodeD v).nextScan = none)
    (hpar : (s.nodeD v).parent = some pid) :
    liftAllLoop s v (F + 1) = liftAllLoop s pid F := by
  conv_lhs => unfold liftAllLoop
  simp only [hns, hpar]

theorem liftAllLoop_done (s : Session) (v : Nat) (F : Nat)
    (hns : (s.nodeD v).nextScan = none)
    (hpar : (s.nodeD v).parent = none) :
    liftAllLoop s v (F + 1) = some s := by
  conv_lhs => unfold liftAllLoop
  simp only [hns, hpar]

theorem descendA2_w (s : Session) (v w : Nat) (hcv : validN s w) (h1v : 1 ≤ v)
    (hvw : w ≠ v) :
    (descendA2 s v w).nodeD w
      = { s.nodeD w with nextScan := (s.nodeD w).childList } := by
  unfold descendA2
  rw [nodeD_upN_self (s.upN v (fun c => { c with nextScan := (s.nodeD w).next })) w _
    (by rw [length_upN]; exact hcv.2)]
  rw [nodeD_upN_ne s v w _ h1v hcv.1 hvw]

theorem descendA4_w (s : Session) (v w c0 : Nat) (hcv : validN s w) (h1v : 1 ≤ v)
    (hvw : w ≠ v) :
    (descendA4 s v w c0).nodeD w
      = { s.nodeD w with nextScan := (s.nodeD w).childList, label := s.numNodes } := by
  unfold descendA4
  rw [nodeD_upN_self ((descendA2 s v w).lcSet (((descendA2 s v w).nodeD w).label) (c0 - 1))
    w _ (by
      show w - 1 < (descendA2 s v w).adjacencyList.length
      unfold descendA2
      rw [length_upN, length_upN]
      exact hcv.2)]
  rw [show (((descendA2 s v w).lcSet (((descendA2 s v w).nodeD w).label) (c0 - 1)).nodeD w)
      = (descendA2 s v w).nodeD w from rfl]
  rw [descendA2_w s v w hcv h1v hvw]
  rfl

theorem descendA4_v (s : Session) (v w c0 : Nat) (hvv : validN s v) (h1w : 1 ≤ w)
    (hvw : w ≠ v) :
    (descendA4 s v w c0).nodeD v
      = { s.nodeD v with nextScan := (s.nodeD w).next } := by
  unfold descendA4
  rw [nodeD_upN_ne _ w v _ h1w hvv.1 (Ne.symm hvw)]
  show (descendA2 s v w).nodeD v = _
  unfold descendA2
  rw [nodeD_upN_ne _ w v _ h1w hvv.1 (Ne.symm hvw)]
  rw [nodeD_upN_self s v _ hvv.2]

theorem descendA4_other (s : Session) (v w c0 u : Nat) (h1v : 1 ≤ v) (h1w : 1 ≤ w)
    (h1u : 1 ≤ u) (huv : u ≠ v) (huw : u ≠ w) :
    (descendA4 s v w c0).nodeD u = s.nodeD u := by
  unfold descendA4
  rw [nodeD_upN_ne _ w u _ h1w h1u huw]
  show (descendA2 s v w).nodeD u = _
  unfold descendA2
  rw [nodeD_upN_ne _ w u _ h1w h1u huw]
  rw [nodeD_upN_ne _ v u _ h1v h1u huv]

theorem descendA4_len (s : Session) (v w c0 : Nat) :
    (descendA4 s v w c0).adjacencyList.length = s.adjacencyList.length := by
  unfold descendA4
  rw [length_upN]
  show (descendA2 s v w).adjacencyList.length = _
  unfold descendA2
  rw [length_upN, length_upN]

theorem descendA4_lclen (s : Session) (v w c0 : Nat) :
    (descendA4 s v w c0).labelCount.length = s.labelCount.length := by
  unfold descendA4 descendA2
  simp [Session.upN, Session.lcSet]

theorem descendA4_sr (s : Session) (v w c0 : Nat) :
    (descendA4 s v w c0).strongRoots = s.strongRoots := rfl

theorem descendA4_arcs (s : Session) (v w c0 : Nat) :
    (descendA4 s v w c0).arcList = s.arcList := rfl

theorem descendA4_stats (s : Session) (v w c0 : Nat) :
    (descendA4 s v w c0).stats = s.stats := rfl

theorem descendA4_ctx (s : Session) (v w c0 : Nat) :
    (descendA4 s v w c0).ctx = s.ctx := rfl

theorem descendA4_num (s : Session) (v w c0 : Nat) :
    (descendA4 s v w c0).numNodes = s.numNodes := rfl

theorem descendA4_low (s : Session) (v w c0 : Nat) :
    (descendA4 s v w c0).lowestStrongLabel = s.lowestStrongLabel := rfl

theorem descendA4_high (s : Session) (v w c0 : Nat) :
    (descendA4 s v w c0).highestStrongLabel = s.highestStrongLabel := rfl

theorem descendA2_lc (s : Session) (v w : Nat) (hcv : validN s w) (h1v : 1 ≤ v)
    (hvw : w ≠ v) (hlab : (s.nodeD w).label < s.labelCount.length) :
    (descendA2 s v w).lc? (((descendA2 s v w).nodeD w).label)
      = some (s.lcD ((s.nodeD w).label)) := by
  rw [descendA2_w s v w hcv h1v hvw]
  show s.lc? ((s.nodeD w).label) = _
  exact lc?_eq s _ hlab

/-- Scanning a sibling forest from node v: liftAllLoop walks every tree
hanging off v's nextScan chain, relabels all their nodes to numNodes,
and comes back to v with its scan pointer exhausted, consuming two fuel
per visited node. -/
theorem liftScanForest : ∀ (fuel : Nat) (ts : List TreeR) (s : Session) (v : Nat),
    isChainB s ((s.nodeD v).nextScan) (ts.map TreeR.rootId) = true →
    (∀ t ∈ ts, isTreeB s t = true) →
    (∀ t ∈ ts, (s.nodeD t.rootId).parent = some v) →
    (TreeR.idsList ts).Nodup →
    v ∉ TreeR.idsList ts →
    validN s v →
    (∀ w ∈ TreeR.idsList ts, validN s w) →
    (∀ w ∈ TreeR.idsList ts, (s.nodeD w).label < s.labelCount.length) →
    2 * (TreeR.idsList ts).length < fuel →
    ∃ s', liftAllLoop s v fuel = liftAllLoop s' v (fuel - 2 * (TreeR.idsList ts).length) ∧
      (∀ w ∈ TreeR.idsList ts, (s'.nodeD w).label = s.numNodes) ∧
      s'.nodeD v = { s.nodeD v with nextScan := none } ∧
      (∀ w, 1 ≤ w → w ≠ v → w ∉ TreeR.idsList ts → s'.nodeD w = s.nodeD w) ∧
      s'.adjacencyList.length = s.adjacencyList.length ∧
      s'.labelCount.length = s.labelCount.length ∧
      s'.strongRoots = s.strongRoots ∧ s'.arcList = s.arcList ∧
      s'.stats = s.stats ∧ s'.ctx = s.ctx ∧ s'.numNodes = s.numNodes ∧
      s'.lowestStrongLabel = s.lowestStrongLabel ∧
      s'.highestStrongLabel = s.highestStrongLabel := by
  intro fuel
  induction fuel using Nat.strong_induction_on with
  | _ fuel ih =>
  intro ts s v hch htr hpar hnd hvnotin hvv hval hlab hfuel
  cases ts with
  | nil =>
    have hns : (s.nodeD v).nextScan = none := by
      rw [List.map_nil] at hch
      exact (chain_nil_iff s _).mp hch
    refine ⟨s, ?_, ?_, ?_, ?_, rfl, rfl, rfl, rfl, rfl, rfl, rfl, rfl, rfl⟩
    · rw [idsList_nil]
      simp
    · intro w hw
      rw [idsList_nil] at hw
      cases hw
    · rw [← hns]
    · intro w _ _ _
      rfl
  | cons t rest =>
    cases t with
    | node w cs =>
    have hids : TreeR.idsList (TreeR.node w cs :: rest)
        = (w :: TreeR.idsList cs) ++ TreeR.idsList rest := by
      rw [idsList_cons, ids_node]
    rw [hids] at hnd hvnotin hval hlab hfuel ⊢
    have hmap : (TreeR.node w cs :: rest).map TreeR.rootId = w :: rest.map TreeR.rootId := by
      simp [TreeR.rootId]
    rw [hmap] at hch
    have hstart : (s.nodeD v).nextScan = some w := ((chain_cons_iff _ _ _ _).mp hch).1
    have hrestch : isChainB s ((s.nodeD w).next) (rest.map TreeR.rootId) = true :=
      ((chain_cons_iff _ _ _ _).mp hch).2
    have hwmem : w ∈ (w :: TreeR.idsList cs) ++ TreeR.idsList rest := by simp
    have hwv : w ≠ v := fun e => hvnotin (e ▸ hwmem)
    have hvw : validN s w := hval w hwmem
    have hlabw : (s.nodeD w).label < s.labelCount.length := hlab w hwmem
    have hnd1 : (w :: TreeR.idsList cs).Nodup := (List.nodup_append.mp hnd).1
    have hndrest : (TreeR.idsList rest).Nodup := (List.nodup_append.mp hnd).2.1
    have hdisjCR : (w :: TreeR.idsList cs).Disjoint (TreeR.idsList rest) :=
      (List.nodup_append.mp hnd).2.2
    have hwcs : w ∉ TreeR.idsList cs := (List.nodup_cons.mp hnd1).1
    have hndcs : (TreeR.idsList cs).Nodup := (List.nodup_cons.mp hnd1).2
    have hwrest : w ∉ TreeR.idsList rest := fun hm => hdisjCR (by simp) hm
    have hvcs : v ∉ TreeR.idsList cs := fun hm =>
      hvnotin (List.mem_append_left _ (List.mem_cons_of_mem _ hm))
    have hvrest : v ∉ TreeR.idsList rest := fun hm => hvnotin (List.mem_append_right _ hm)
    have hcsmem : ∀ u ∈ TreeR.idsList cs,
        u ∈ (w :: TreeR.idsList cs) ++ TreeR.idsList rest := by
      intro u hu
      exact List.mem_append_left _ (List.mem_cons_of_mem _ hu)
    have hrestmem : ∀ u ∈ TreeR.idsList rest,
        u ∈ (w :: TreeR.idsList cs) ++ TreeR.idsList rest := by
      intro u hu
      exact List.mem_append_right _ hu
    have hcsnotrest : ∀ u ∈ TreeR.idsList cs, u ∉ TreeR.idsList rest := by
      intro u hu hm
      exact hdisjCR (List.mem_cons_of_mem _ hu) hm
    have hcsnotw : ∀ u ∈ TreeR.idsList cs, u ≠ w := fun u hu e => hwcs (e ▸ hu)
    have hcsnotv : ∀ u ∈ TreeR.idsList cs, u ≠ v := fun u hu e => hvcs (e ▸ hu)
    have hrestnotw : ∀ u ∈ TreeR.idsList rest, u ≠ w := fun u hu e => hwrest (e ▸ hu)
    have hrestnotv : ∀ u ∈ TreeR.idsList rest, u ≠ v := fun u hu e => hvrest (e ▸ hu)
    have htree : isTreeB s (TreeR.node w cs) = true := htr _ (List.mem_cons_self _ _)
    rw [isTreeB_node] at htree
    simp only [Bool.and_eq_true] at htree
    have hparw : (s.nodeD w).parent = some v := hpar _ (List.mem_cons_self _ _)
    have hlentotal : ((w :: TreeR.idsList cs) ++ TreeR.idsList rest).length
        = (TreeR.idsList cs).length + (TreeR.idsList rest).length + 1 := by
      simp [List.length_append]
    obtain ⟨F, rfl⟩ : ∃ F, fuel = F + 1 := ⟨fuel - 1, by omega⟩
    have hstep := liftAllLoop_step s v w (s.lcD ((s.nodeD w).label)) F hstart
      (descendA2_lc s v w hvw hvv.1 hwv hlabw)
    have hA4w := descendA4_w s v w (s.lcD ((s.nodeD w).label)) hvw hvv.1 hwv
    have hA4v := descendA4_v s v w (s.lcD ((s.nodeD w).label)) hvv hvw.1 hwv
    have hA4o : ∀ u, 1 ≤ u → u ≠ v → u ≠ w →
        (descendA4 s v w (s.lcD ((s.nodeD w).label))).nodeD u = s.nodeD u := by
      intro u h1u huv huw
      exact descendA4_other s v w _ u hvv.1 hvw.1 h1u huv huw
    -- the recursive scan of the child forest of w
    obtain ⟨s6, heq6, hlab6, hw6, hframe6, hlen6, hlclen6, hsr6, harc6, hstats6, hctx6,
        hnum6, hlow6, hhigh6⟩ :=
      ih F (by omega) cs (descendA4 s v w (s.lcD ((s.nodeD w).label))) w
        (by rw [show ((descendA4 s v w (s.lcD ((s.nodeD w).label))).nodeD w).nextScan
              = (s.nodeD w).childList from by rw [hA4w]]
            apply isChainB_congr s _ (cs.map TreeR.rootId) _ ?_ htree.1
            intro u hu
            obtain ⟨t0, ht0, hu⟩ := List.mem_map.mp hu
            have humem : u ∈ TreeR.idsList cs :=
              mem_idsList_of_mem ht0 (hu ▸ rootId_mem_ids t0)
            rw [hA4o u (hval u (hcsmem u humem)).1 (hcsnotv u humem) (hcsnotw u humem)])
        (by intro t0 ht0
            have := (isForestB_mem s w cs htree.2 t0 ht0).2
            apply isTreeB_congr2 s _ t0 ?_ this
            intro u hu
            have humem : u ∈ TreeR.idsList cs := mem_idsList_of_mem ht0 hu
            exact hA4o u (hval u (hcsmem u humem)).1 (hcsnotv u humem) (hcsnotw u humem))
        (by intro t0 ht0
            have humem : t0.rootId ∈ TreeR.idsList cs :=
              mem_idsList_of_mem ht0 (rootId_mem_ids t0)
            rw [hA4o t0.rootId (hval _ (hcsmem _ humem)).1 (hcsnotv _ humem)
              (hcsnotw _ humem)]
            exact (isForestB_mem s w cs htree.2 t0 ht0).1)
        hndcs hwcs
        (by unfold validN
            rw [descendA4_len]
            exact hvw)
        (by intro u hu
            unfold validN
            rw [descendA4_len]
            exact hval u (hcsmem u hu))
        (by intro u hu
            rw [hA4o u (hval u (hcsmem u hu)).1 (hcsnotv u hu) (hcsnotw u hu),
              descendA4_lclen]
            exact hlab u (hcsmem u hu))
        (by rw [hlentotal] at hfuel; omega)
    have hns6 : (s6.nodeD w).nextScan = none := by rw [hw6]
    have hpar6 : (s6.nodeD w).parent = some v := by
      rw [hw6, hA4w]
      show (s.nodeD w).parent = some v
      exact hparw
    obtain ⟨F2, hF2⟩ : ∃ F2, F - 2 * (TreeR.idsList cs).length = F2 + 1 :=
      ⟨F - 2 * (TreeR.idsList cs).length - 1, by rw [hlentotal] at hfuel; omega⟩
    have hasc : liftAllLoop s6 w (F - 2 * (TreeR.idsList cs).length)
        = liftAllLoop s6 v F2 := by
      rw [hF2]
      exact liftAllLoop_up s6 w v F2 hns6 hpar6
    have hs6v : s6.nodeD v = { s.nodeD v with nextScan := (s.nodeD w).next } := by
      rw [hframe6 v hvv.1 (Ne.symm hwv) hvcs, hA4v]
    have hs6frame : ∀ u, 1 ≤ u → u ≠ v → u ≠ w → u ∉ TreeR.idsList cs →
        s6.nodeD u = s.nodeD u := by
      intro u h1u huv huw hucs
      rw [hframe6 u h1u huw hucs, hA4o u h1u huv huw]
    -- the recursive scan of the remaining sibling trees
    obtain ⟨s7, heq7, hlab7, hv7, hframe7, hlen7, hlclen7, hsr7, harc7, hstats7, hctx7,
        hnum7, hlow7, hhigh7⟩ :=
      ih F2 (by omega) rest s6 v
        (by rw [show (s6.nodeD v).nextScan = (s.nodeD w).next from by rw [hs6v]]
            apply isChainB_congr s _ (rest.map TreeR.rootId) _ ?_ hrestch
            intro u hu
            obtain ⟨t0, ht0, hu⟩ := List.mem_map.mp hu
            have humem : u ∈ TreeR.idsList rest :=
              mem_idsList_of_mem ht0 (hu ▸ rootId_mem_ids t0)
            rw [hs6frame u (hval u (hrestmem u humem)).1 (hrestnotv u humem)
              (hrestnotw u humem) (fun hm => hcsnotrest u hm humem)])
        (by intro t0 ht0
            have := htr t0 (List.mem_cons_of_mem _ ht0)
            apply isTreeB_congr2 s _ t0 ?_ this
            intro u hu
            have humem : u ∈ TreeR.idsList rest := mem_idsList_of_mem ht0 hu
            exact hs6frame u (hval u (hrestmem u humem)).1 (hrestnotv u humem)
              (hrestnotw u humem) (fun hm => hcsnotrest u hm humem))
        (by intro t0 ht0
            have humem : t0.rootId ∈ TreeR.idsList rest :=
              mem_idsList_of_mem ht0 (rootId_mem_ids t0)
            rw [hs6frame t0.rootId (hval _ (hrestmem _ humem)).1 (hrestnotv _ humem)
              (hrestnotw _ humem) (fun hm => hcsnotrest _ hm humem)]
            exact hpar t0 (List.mem_cons_of_mem _ ht0))
        hndrest hvrest
        (by unfold validN
            rw [hlen6, descendA4_len]
            exact hvv)
        (by intro u hu
            unfold validN
            rw [hlen6, descendA4_len]
            exact hval u (hrestmem u hu))
        (by intro u hu
            rw [hs6frame u (hval u (hrestmem u hu)).1 (hrestnotv u hu) (hrestnotw u hu)
              (fun hm => hcsnotrest u hm hu), hlclen6, descendA4_lclen]
            exact hlab u (hrestmem u hu))
        (by rw [hlentotal] at hfuel; omega)
    refine ⟨s7, ?_, ?_, ?_, ?_, ?_, ?_, ?_, ?_, ?_, ?_, ?_, ?_, ?_⟩
    · rw [hstep, heq6, hasc, heq7]
      rw [show F + 1 - 2 * ((w :: TreeR.idsList cs) ++ TreeR.idsList rest).length
          = F2 - 2 * (TreeR.idsList rest).length from by rw [hlentotal]; omega]
    · intro u hu
      rcases List.mem_append.mp hu with hu | hurest
      · rcases List.mem_cons.mp hu with huw | hucs
        · rw [huw, hframe7 w hvw.1 hwv hwrest, hw6, hA4w]
        · rw [hframe7 u (hval u (hcsmem u hucs)).1 (hcsnotv u hucs)
            (fun hm => hcsnotrest u hucs hm)]
          rw [hlab6 u hucs, descendA4_num]
      · rw [hlab7 u hurest, hnum6, descendA4_num]
    · rw [hv7, hs6v]
    · intro u h1u huv hunotin
      have huw : u ≠ w := fun e => hunotin (e ▸ hwmem)
      have hucs : u ∉ TreeR.idsList cs := fun hm => hunotin (hcsmem u hm)
      have hurest : u ∉ TreeR.idsList rest := fun hm => hunotin (hrestmem u hm)
      rw [hframe7 u h1u huv hurest, hs6frame u h1u huv huw hucs]
    · rw [hlen7, hlen6, descendA4_len]
    · rw [hlclen7, hlclen6, descendA4_lclen]
    · rw [hsr7, hsr6, descendA4_sr]
    · rw [harc7, harc6, descendA4_arcs]
    · rw [hstats7, hstats6, descendA4_stats]
    · rw [hctx7, hctx6, descendA4_ctx]
    · rw [hnum7, hnum6, descendA4_num]
    · rw [hlow7, hlow6, descendA4_low]
    · rw [hhigh7, hhigh6, descendA4_high]

theorem liftAll_eq_loop (s : Session) (r : Nat) (fuel : Nat)
    (hv : validN s r)
    (hlab : (s.nodeD r).label < s.labelCount.length) :
    liftAll s r fuel = liftAllLoop (liftLeaf s r) r fuel := by
  conv_lhs => unfold liftAll
  simp only [Option.bind_eq_bind']
  rw [show (s.upN r (fun c => { c with nextScan := c.childList })).lc?
      (((s.upN r (fun c => { c with nextScan := c.childList })).nodeD r).label)
      = some (s.lcD ((s.nodeD r).label)) from by
    rw [nodeD_upN_self s r _ hv.2]
    show s.lc? ((s.nodeD r).label) = _
    exact lc?_eq s _ hlab]
  simp only [Option.some_bind]
  rfl

theorem liftLeaf_self (s : Session) (r : Nat) (hv : validN s r) :
    (liftLeaf s r).nodeD r
      = { s.nodeD r with nextScan := (s.nodeD r).childList, label := s.numNodes } := by
  unfold liftLeaf
  rw [nodeD_upN_self ((s.upN r (fun c => { c with nextScan := c.childList })).lcSet
    (((s.upN r (fun c => { c with nextScan := c.childList })).nodeD r).label)
    (s.lcD (s.nodeD r).label - 1)) r _
    (by simpa [Session.upN, Session.lcSet] using hv.2)]
  rw [show (((s.upN r (fun c => { c with nextScan := c.childList })).lcSet
      (((s.upN r (fun c => { c with nextScan := c.childList })).nodeD r).label)
      (s.lcD (s.nodeD r).label - 1)).nodeD r)
      = (s.upN r (fun c => { c with nextScan := c.childList })).nodeD r from rfl]
  rw [nodeD_upN_self s r _ hv.2]
  rfl

theorem liftLeaf_sr (s : Session) (r : Nat) :
    (liftLeaf s r).strongRoots = s.strongRoots := rfl

theorem liftLeaf_arcs (s : Session) (r : Nat) :
    (liftLeaf s r).arcList = s.arcList := rfl

theorem liftLeaf_stats (s : Session) (r : Nat) :
    (liftLeaf s r).stats = s.stats := rfl

theorem liftLeaf_ctx (s : Session) (r : Nat) :
    (liftLeaf s r).ctx = s.ctx := rfl

theorem liftLeaf_num (s : Session) (r : Nat) :
    (liftLeaf s r).numNodes = s.numNodes := rfl

theorem liftLeaf_low (s : Session) (r : Nat) :
    (liftLeaf s r).lowestStrongLabel = s.lowestStrongLabel := rfl

theorem liftLeaf_high (s : Session) (r : Nat) :
    (liftLeaf s r).highestStrongLabel = s.highestStrongLabel := rfl

/-- liftAll on a whole strong tree laid out in the session: every node
of the tree is raised to label numNodes and nothing else changes apart
from labelCount. -/
theorem liftAll_tree (t : TreeR) (s : Session) (fuel : Nat)
    (htr : isTreeB s t = true)
    (hpar : (s.nodeD t.rootId).parent = none)
    (hnd : t.ids.Nodup)
    (hval : ∀ w ∈ t.ids, validN s w)
    (hlab : ∀ w ∈ t.ids, (s.nodeD w).label < s.labelCount.length)
    (hfuel : 2 * t.ids.length < fuel) :
    ∃ s', liftAll s t.rootId fuel = some s' ∧
      (∀ w ∈ t.ids, (s'.nodeD w).label = s.numNodes) ∧
      (∀ w, 1 ≤ w → w ∉ t.ids → s'.nodeD w = s.nodeD w) ∧
      s'.adjacencyList.length = s.adjacencyList.length ∧
      s'.labelCount.length = s.labelCount.length ∧
      s'.strongRoots = s.strongRoots ∧ s'.arcList = s.arcList ∧
      s'.stats = s.stats ∧ s'.ctx = s.ctx ∧ s'.numNodes = s.numNodes ∧
      s'.lowestStrongLabel = s.lowestStrongLabel ∧
      s'.highestStrongLabel = s.highestStrongLabel := by
  cases t with
  | node r cs =>
  rw [ids_node] at hnd hval hlab hfuel ⊢
  rw [isTreeB_node] at htr
  simp only [Bool.and_eq_true] at htr
  have hroot : (TreeR.node r cs).rootId = r := rfl
  rw [hroot] at hpar ⊢
  have hrv : validN s r := hval r (List.mem_cons_self _ _)
  have hrlab : (s.nodeD r).label < s.labelCount.length := hlab r (List.mem_cons_self _ _)
  have hrcs : r ∉ TreeR.idsList cs := (List.nodup_cons.mp hnd).1
  have hndcs : (TreeR.idsList cs).Nodup := (List.nodup_cons.mp hnd).2
  have hcsne : ∀ u ∈ TreeR.idsList cs, u ≠ r := fun u hu e => hrcs (e ▸ hu)
  have hLnode : ∀ u, 1 ≤ u → u ≠ r → (liftLeaf s r).nodeD u = s.nodeD u := by
    intro u h1u hur
    exact liftLeaf_nodeD_ne s r u hrv.1 h1u hur
  obtain ⟨s6, heq6, hlab6, hr6, hframe6, hlen6, hlclen6, hsr6, harc6, hstats6, hctx6,
      hnum6, hlow6, hhigh6⟩ :=
    liftScanForest fuel cs (liftLeaf s r) r
      (by rw [show ((liftLeaf s r).nodeD r).nextScan = (s.nodeD r).childList from by
            rw [liftLeaf_self s r hrv]]
          apply isChainB_congr s _ (cs.map TreeR.rootId) _ ?_ htr.1
          intro u hu
          obtain ⟨t0, ht0, hu⟩ := List.mem_map.mp hu
          have humem : u ∈ TreeR.idsList cs :=
            mem_idsList_of_mem ht0 (hu ▸ rootId_mem_ids t0)
          rw [hLnode u (hval u (List.mem_cons_of_mem _ humem)).1 (hcsne u humem)])
      (by intro t0 ht0
          have := (isForestB_mem s r cs htr.2 t0 ht0).2
          apply isTreeB_congr2 s _ t0 ?_ this
          intro u hu
          have humem : u ∈ TreeR.idsList cs := mem_idsList_of_mem ht0 hu
          exact hLnode u (hval u (List.mem_cons_of_mem _ humem)).1 (hcsne u humem))
      (by intro t0 ht0
          have humem : t0.rootId ∈ TreeR.idsList cs :=
            mem_idsList_of_mem ht0 (rootId_mem_ids t0)
          rw [hLnode t0.rootId (hval _ (List.mem_cons_of_mem _ humem)).1 (hcsne _ humem)]
          exact (isForestB_mem s r cs htr.2 t0 ht0).1)
      hndcs hrcs
      (by unfold validN
          rw [liftLeaf_len]
          exact hrv)
      (by intro u hu
          unfold validN
          rw [liftLeaf_len]
          exact hval u (List.mem_cons_of_mem _ hu))
      (by intro u hu
          rw [hLnode u (hval u (List.mem_cons_of_mem _ hu)).1 (hcsne u hu), liftLeaf_lc_len]
          exact hlab u (List.mem_cons_of_mem _ hu))
      (by simp only [List.length_cons] at hfuel; omega)
  have hns6 : (s6.nodeD r).nextScan = none := by rw [hr6]
  have hpar6 : (s6.nodeD r).parent = none := by
    rw [hr6, liftLeaf_self s r hrv]
    show (s.nodeD r).parent = none
    exact hpar
  obtain ⟨F2, hF2⟩ : ∃ F2, fuel - 2 * (TreeR.idsList cs).length = F2 + 1 :=
    ⟨fuel - 2 * (TreeR.idsList cs).length - 1, by
      simp only [List.length_cons] at hfuel; omega⟩
  refine ⟨s6, ?_, ?_, ?_, ?_, ?_, ?_, ?_, ?_, ?_, ?_, ?_, ?_⟩
  · rw [liftAll_eq_loop s r fuel hrv hrlab, heq6, hF2,
      liftAllLoop_done s6 r F2 hns6 hpar6]
  · intro u hu
    rcases List.mem_cons.mp hu with hur | hucs
    · rw [hur, hr6, liftLeaf_self s r hrv]
    · rw [hlab6 u hucs, liftLeaf_num]
  · intro u h1u hunotin
    have hur : u ≠ r := fun e => hunotin (e ▸ List.mem_cons_self _ _)
    have hucs : u ∉ TreeR.idsList cs := fun hm => hunotin (List.mem_cons_of_mem _ hm)
    rw [hframe6 u h1u hur hucs, hLnode u h1u hur]
  · rw [hlen6, liftLeaf_len]
  · rw [hlclen6, liftLeaf_lc_len]
  · rw [hsr6, liftLeaf_sr]
  · rw [harc6, liftLeaf_arcs]
  · rw [hstats6, liftLeaf_stats]
  · rw [hctx6, liftLeaf_ctx]
  · rw [hnum6, liftLeaf_num]
  · rw [hlow6, liftLeaf_low]
  · rw [hhigh6, liftLeaf_high]

theorem ghsrScan_empty_step (s : Session) (i : Nat) (fuel : Nat)
    (hi : i ≠ 0) (hsr : i < s.strongRoots.length)
    (hempty : (s.bucketD i).start = none) :
    ghsrScan s i (fuel + 1) = ghsrScan s (i - 1) fuel := by
  conv_lhs => unfold ghsrScan
  rw [if_neg hi]
  simp only [Option.bind_eq_bind']
  rw [bucket?_eq s i hsr]
  simp only [Option.some_bind]
  simp only [hempty]

/-- The downward scan of getHighestStrongRoot passes over a block of
empty buckets unchanged, consuming one fuel per level. -/
theorem ghsrScan_skip : ∀ (k : Nat) (s : Session) (i fuel : Nat),
    (∀ j, i < j → j ≤ i + k → j < s.strongRoots.length ∧ (s.bucketD j).start = none) →
    ghsrScan s (i + k) (fuel + k) = ghsrScan s i fuel := by
  intro k
  induction k with
  | zero =>
    intro s i fuel _
    rfl
  | succ k ih =>
    intro s i fuel hj
    have h1 : ghsrScan s (i + (k + 1)) ((fuel + k) + 1) = ghsrScan s (i + k) (fuel + k) := by
      have h := ghsrScan_empty_step s (i + (k + 1)) (fuel + k) (by omega)
        (hj (i + (k + 1)) (by omega) (by omega)).1
        (hj (i + (k + 1)) (by omega) (by omega)).2
      rw [show i + (k + 1) - 1 = i + k from by omega] at h
      exact h
    calc ghsrScan s (i + (k + 1)) (fuel + (k + 1))
        = ghsrScan s (i + (k + 1)) ((fuel + k) + 1) := by
          rw [show fuel + (k + 1) = (fuel + k) + 1 from by omega]
      _ = ghsrScan s (i + k) (fuel + k) := h1
      _ = ghsrScan s i fuel := ih s i fuel (fun j hj1 hj2 => hj j hj1 (by omega))

/-- ghsrDrain over a bucket holding a list of whole strong trees: one
gaps increment per popped root, every node of every tree raised to
numNodes, the bucket emptied, and all other labels untouched. -/
theorem ghsrDrain_tree_spec : ∀ (tl : List TreeR) (s : Session) (i fuel : Nat),
    isChainB s ((s.bucketD i).start) (tl.map TreeR.rootId) = true →
    (∀ t ∈ tl, isTreeB s t = true) →
    (∀ t ∈ tl, (s.nodeD t.rootId).parent = none) →
    (TreeR.idsList tl).Nodup →
    (∀ w ∈ TreeR.idsList tl, validN s w) →
    (∀ w ∈ TreeR.idsList tl, (s.nodeD w).label < s.labelCount.length) →
    i < s.strongRoots.length →
    2 * (TreeR.idsList tl).length + tl.length < fuel →
    ∃ s', ghsrDrain s i fuel = some s' ∧
      s'.stats.gaps = s.stats.gaps + tl.length ∧
      (∀ w ∈ TreeR.idsList tl, (s'.nodeD w).label = s.numNodes) ∧
      (s'.bucketD i).start = none ∧
      (∀ w, 1 ≤ w → w ∉ TreeR.idsList tl → (s'.nodeD w).label = (s.nodeD w).label) := by
  intro tl
  induction tl with
  | nil =>
    intro s i fuel hch htr hpar hnd hval hlab hsr hfuel
    cases fuel with
    | zero => omega
    | succ fuel =>
      have hstart : (s.bucketD i).start = none := by
        rw [List.map_nil] at hch
        exact (chain_nil_iff s _).mp hch
      refine ⟨s, ?_, by simp, ?_, hstart, ?_⟩
      · unfold ghsrDrain
        simp only [Option.bind_eq_bind']
        rw [bucket?_eq s i hsr]
        simp only [Option.some_bind]
        simp only [hstart]
      · intro w hw
        rw [idsList_nil] at hw
        cases hw
      · intro w _ _
        rfl
  | cons t rest ih =>
    intro s i fuel hch htr hpar hnd hval hlab hsr hfuel
    have hids : TreeR.idsList (t :: rest) = t.ids ++ TreeR.idsList rest := idsList_cons t rest
    rw [hids] at hnd hval hlab hfuel ⊢
    have hmap : (t :: rest).map TreeR.rootId = t.rootId :: rest.map TreeR.rootId := by simp
    rw [hmap] at hch
    have hstart : (s.bucketD i).start = some t.rootId := ((chain_cons_iff _ _ _ _).mp hch).1
    have htail : isChainB s ((s.nodeD t.rootId).next) (rest.map TreeR.rootId) = true :=
      ((chain_cons_iff _ _ _ _).mp hch).2
    have hndt : t.ids.Nodup := (List.nodup_append.mp hnd).1
    have hndrest : (TreeR.idsList rest).Nodup := (List.nodup_append.mp hnd).2.1
    have hdisj : t.ids.Disjoint (TreeR.idsList rest) := (List.nodup_append.mp hnd).2.2
    have hrootv : validN s t.rootId :=
      hval _ (List.mem_append_left _ (rootId_mem_ids t))
    have hlentotal : (t.ids ++ TreeR.idsList rest).length
        = t.ids.length + (TreeR.idsList rest).length := by simp
    cases fuel with
    | zero => omega
    | succ fuel =>
      -- lift the whole first tree out of play
      obtain ⟨s2, heqL, hlab2, hframe2, hlen2, hlclen2, hsr2, harc2, hstats2, hctx2,
          hnum2, hlow2, hhigh2⟩ :=
        liftAll_tree t (drainStep s i t.rootId) fuel
          (isTreeB_congr2 s _ t (fun u _ => rfl) (htr t (List.mem_cons_self _ _)))
          (hpar t (List.mem_cons_self _ _))
          hndt
          (fun w hw => hval w (List.mem_append_left _ hw))
          (fun w hw => hlab w (List.mem_append_left _ hw))
          (by rw [hlentotal] at hfuel; simp only [List.length_cons] at hfuel; omega)
      have hframe2s : ∀ w, 1 ≤ w → w ∉ t.ids → s2.nodeD w = s.nodeD w := by
        intro w h1w hw
        exact (hframe2 w h1w hw).trans rfl
      have hgaps2 : s2.stats.gaps = s.stats.gaps + 1 := by
        rw [hstats2]
        rfl
      have hb2 : ∀ m, s2.bucketD m = (drainStep s i t.rootId).bucketD m := by
        intro m
        unfold Session.bucketD
        rw [hsr2]
      have hb2i : (s2.bucketD i).start = (s.nodeD t.rootId).next := by
        rw [hb2 i, drainStep_bucketD_self s i t.rootId hsr]
      have hlen2s : s2.adjacencyList.length = s.adjacencyList.length := by
        rw [hlen2]
        rfl
      have hlclen2s : s2.labelCount.length = s.labelCount.length := by
        rw [hlclen2]
        rfl
      have hsrlen2 : s2.strongRoots.length = s.strongRoots.length := by
        rw [hsr2, drainStep_sr_len]
      have hrestdisj : ∀ u ∈ TreeR.idsList rest, u ∉ t.ids := by
        intro u hu hm
        exact hdisj hm hu
      obtain ⟨s', heq, hgaps, hlabs, hempty, hframe⟩ :=
        ih s2 i fuel
          (by rw [hb2i]
              apply isChainB_congr s s2 (rest.map TreeR.rootId) _ ?_ htail
              intro u hu
              obtain ⟨t0, ht0, hu⟩ := List.mem_map.mp hu
              have humem : u ∈ TreeR.idsList rest :=
                mem_idsList_of_mem ht0 (hu ▸ rootId_mem_ids t0)
              rw [hframe2s u (hval u (List.mem_append_right _ humem)).1 (hrestdisj u humem)])
          (by intro t0 ht0
              apply isTreeB_congr2 s s2 t0 ?_ (htr t0 (List.mem_cons_of_mem _ ht0))
              intro u hu
              have humem : u ∈ TreeR.idsList rest := mem_idsList_of_mem ht0 hu
              exact hframe2s u (hval u (List.mem_append_right _ humem)).1 (hrestdisj u humem))
          (by intro t0 ht0
              have humem : t0.rootId ∈ TreeR.idsList rest :=
                mem_idsList_of_mem ht0 (rootId_mem_ids t0)
              rw [hframe2s t0.rootId (hval _ (List.mem_append_right _ humem)).1
                (hrestdisj _ humem)]
              exact hpar t0 (List.mem_cons_of_mem _ ht0))
          hndrest
          (by intro u hu
              unfold validN
              rw [hlen2s]
              exact hval u (List.mem_append_right _ hu))
          (by intro u hu
              rw [hframe2s u (hval u (List.mem_append_right _ hu)).1 (hrestdisj u hu),
                hlclen2s]
              exact hlab u (List.mem_append_right _ hu))
          (by rw [hsrlen2]; exact hsr)
          (by rw [hlentotal] at hfuel; simp only [List.length_cons] at hfuel; omega)
      refine ⟨s', ?_, ?_, ?_, hempty, ?_⟩
      · unfold ghsrDrain
        simp only [Option.bind_eq_bind']
        rw [bucket?_eq s i hsr]
        simp only [Option.some_bind]
        simp only [hstart]
        show Option.bind (liftAll (drainStep s i t.rootId) t.rootId fuel)
          (fun s2 => ghsrDrain s2 i fuel) = some s'
        rw [heqL]
        simp only [Option.some_bind]
        exact heq
      · rw [hgaps, hgaps2]
        simp only [List.length_cons]
        omega
      · intro w hw
        rcases List.mem_append.mp hw with hwt | hwrest
        · rw [hframe w (hval w (List.mem_append_left _ hwt)).1
            (fun hm => hrestdisj w hm hwt)]
          rw [hlab2 w hwt]
          rfl
        · rw [hlabs w hwrest, hnum2]
          rfl
      · intro w h1w hnotin
        have hwt : w ∉ t.ids := fun hm => hnotin (List.mem_append_left _ hm)
        have hwrest : w ∉ TreeR.idsList rest := fun hm => hnotin (List.mem_append_right _ hm)
        rw [hframe w h1w hwrest, hframe2s w h1w hwt]

/-- C7 (amended): when the downward scan of getHighestStrongRoot,
started at the cursor and passing over any empty buckets, finds a
non-empty bucket i with labelCount[i-1] = 0, it enters the drain loop
and afterwards continues scanning at i-1 instead of returning (first
clause); the drain loop pops every strong root out of bucket i,
incrementing the gaps counter once per popped root — not once per gap —
and lifting every node of each popped root's tree to label numNodes,
leaving the bucket empty and all other labels untouched (second
clause). -/
theorem getHighestStrongRoot_gap_drains_bucket :
    (∀ (s : Session) (i0 i rid fuel : Nat),
      s.highestStrongLabel = i0 → i ≤ i0 → i ≠ 0 →
      (∀ j, i < j → j ≤ i0 → j < s.strongRoots.length ∧ (s.bucketD j).start = none) →
      i < s.strongRoots.length →
      (s.bucketD i).start = some rid →
      s.lc? (i - 1) = some 0 →
      getHighestStrongRoot s (fuel + 1 + (i0 - i))
        = (ghsrDrain { s with highestStrongLabel := i } i fuel).bind
            (fun s2 => ghsrScan s2 (i - 1) fuel)) ∧
    (∀ (tl : List TreeR) (s : Session) (i fuel : Nat),
      isChainB s ((s.bucketD i).start) (tl.map TreeR.rootId) = true →
      (∀ t ∈ tl, isTreeB s t = true) →
      (∀ t ∈ tl, (s.nodeD t.rootId).parent = none) →
      (TreeR.idsList tl).Nodup →
      (∀ w ∈ TreeR.idsList tl, validN s w) →
      (∀ w ∈ TreeR.idsList tl, (s.nodeD w).label < s.labelCount.length) →
      i < s.strongRoots.length →
      2 * (TreeR.idsList tl).length + tl.length < fuel →
      ∃ s', ghsrDrain s i fuel = some s' ∧
        s'.stats.gaps = s.stats.gaps + tl.length ∧
        (∀ w ∈ TreeR.idsList tl, (s'.nodeD w).label = s.numNodes) ∧
        (s'.bucketD i).start = none ∧
        (∀ w, 1 ≤ w → w ∉ TreeR.idsList tl → (s'.nodeD w).label = (s.nodeD w).label)) := by
  constructor
  · intro s i0 i rid fuel hcur hle hi hempties hsr hbne hlc
    unfold getHighestStrongRoot
    rw [hcur]
    have hskip := ghsrScan_skip (i0 - i) s i (fuel + 1)
      (fun j hj1 hj2 => hempties j hj1 (by omega))
    rw [show i + (i0 - i) = i0 from by omega] at hskip
    rw [hskip]
    exact ghsrScan_gap_step s i rid fuel hi hsr hbne hlc
  · exact ghsrDrain_tree_spec

/-- Witness for the amended C7 theorem on c7bState: the scan starting
at cursor 3 skips the empty bucket 3, enters the drain at gap bucket 2
and continues at level 1; draining the bucket holding the two strong
roots 2 (whose tree also contains node 4) and 3 costs two gaps
increments, lifts all of 2, 4 and 3 to label 5 and empties the
bucket. -/
theorem getHighestStrongRoot_gap_drains_bucket_witness :
    (getHighestStrongRoot c7bState (28 + 1 + (3 - 2))
      = (ghsrDrain { c7bState with highestStrongLabel := 2 } 2 28).bind
          (fun s2 => ghsrScan s2 1 28)) ∧
    (∃ s', ghsrDrain c7bState 2 10 = some s' ∧
      s'.stats.gaps = c7bState.stats.gaps
        + ([TreeR.node 2 [TreeR.node 4 []], TreeR.node 3 []] : List TreeR).length ∧
      (∀ w ∈ TreeR.idsList [TreeR.node 2 [TreeR.node 4 []], TreeR.node 3 []],
        (s'.nodeD w).label = c7bState.numNodes) ∧
      (s'.bucketD 2).start = none ∧
      (∀ w, 1 ≤ w → w ∉ TreeR.idsList [TreeR.node 2 [TreeR.node 4 []], TreeR.node 3 []] →
        (s'.nodeD w).label = (c7bState.nodeD w).label)) :=
  ⟨getHighestStrongRoot_gap_drains_bucket.1 c7bState 3 2 2 28 (by decide) (by decide)
     (by decide)
     (by intro j h1 h2
         have hj : j = 3 := by omega
         rw [hj]
         exact ⟨by decide, by decide⟩)
     (by decide) (by decide) (by decide),
   getHighestStrongRoot_gap_drains_bucket.2 [TreeR.node 2 [TreeR.node 4 []], TreeR.node 3 []]
     c7bState 2 10 (by decide) (by decide) (by decide) (by decide) (by decide) (by decide)
     (by decide) (by decide)⟩

end Pseudo
